import Mathlib

/-!
# JPush Go server SDK: request validation and HTTP response mapping

A shallow embedding of the validation and transport layer of the SDK
(`errors.go`, `push_types.go`, `push.go`, `client.go`, `advanced.go`).

Conventions of the embedding:

* a Go pointer `*T` is `Option T` (`none` is `nil`);
* a Go slice `[]T` is `Slice T = Option (List T)` (`none` is the nil slice), with `len`;
* a Go `int` is `Int` (no arithmetic is done on them in the embedded code);
* a Go function returning `(*T, error)` returns an `Outcome T`, which also lists the
  HTTP requests that were handed to `httpClient.Do` while it ran;
* log calls (`c.logger.*`) have no influence on results and are left out;
* the standard library and the network are an explicit environment `Env`.
-/

namespace JPush

/-! ## errors.go -/

/-- Go: `type ErrorCode int`. -/
abbrev ErrorCode := Int

def ErrorCodeSuccess : ErrorCode := 0
def ErrorCodeInvalidParams : ErrorCode := 1000
def ErrorCodeMissingAuth : ErrorCode := 1001
def ErrorCodeInvalidAuth : ErrorCode := 1002
def ErrorCodeInvalidAppKey : ErrorCode := 1003
def ErrorCodeInvalidJSON : ErrorCode := 1004
def ErrorCodeTimeout : ErrorCode := 1005
def ErrorCodeInternalError : ErrorCode := 1006
def ErrorCodeRateLimitExceeded : ErrorCode := 2002
def ErrorCodeAppKeyBlacklisted : ErrorCode := 2003
def ErrorCodeBroadcastLimit : ErrorCode := 2008
def ErrorCodeInvalidPlatform : ErrorCode := 3001
def ErrorCodeInvalidAudience : ErrorCode := 3002
def ErrorCodeInvalidNotification : ErrorCode := 3003
def ErrorCodeInvalidMessage : ErrorCode := 3004
def ErrorCodeInvalidOptions : ErrorCode := 3005
def ErrorCodeInvalidRegistrationID : ErrorCode := 7001
def ErrorCodeInvalidTag : ErrorCode := 7002
def ErrorCodeInvalidAlias : ErrorCode := 7003
def ErrorCodeTagLimitExceeded : ErrorCode := 7004
def ErrorCodeAliasLimitExceeded : ErrorCode := 7015
def ErrorCodeIllegalRegistrationID : ErrorCode := 7013
def ErrorCodeTagOperationFailed : ErrorCode := 7016

/-- Go: `type JPushError struct { Code ErrorCode; Message string }`. -/
structure JPushError where
  Code : ErrorCode
  Message : String
deriving DecidableEq, Repr

/-- Go: `func NewJPushError(code ErrorCode, message string) *JPushError`. -/
def NewJPushError (code : ErrorCode) (message : String) : JPushError :=
  { Code := code, Message := message }

/-- Go: `func (e *JPushError) Error() string`, the text
`fmt.Sprintf("JPush API Error [%d]: %s", e.Code, e.Message)`; `%d` writes the code in decimal,
with a minus sign when it is negative. -/
def JPushError.Error (e : JPushError) : String :=
  "JPush API Error [" ++ toString e.Code ++ "]: " ++ e.Message

/-- Go: a value of the interface type `error`: the nil interface, a `*JPushError` (a pointer,
which may be nil), or a value of another type, given by the text of its `Error()`. -/
inductive GoError where
  | nil
  | jpush (e : Option JPushError)
  | other (text : String)

/-- Go: `func IsJPushError(err error) bool`, the `ok` of `err.(*JPushError)`. -/
def IsJPushError (err : GoError) : Bool :=
  match err with
  | .jpush _ => true
  | _ => false

/-- Go: `func GetErrorCode(err error) ErrorCode`. `none` is the nil pointer dereference of
`jpushErr.Code` when the interface holds a nil `*JPushError`. -/
def GetErrorCode (err : GoError) : Option ErrorCode :=
  match err with
  | .jpush (some jpushErr) => some jpushErr.Code
  | .jpush none => none
  | _ => some ErrorCodeInternalError

/-- Go: `func GetErrorCodeFromHTTPStatus(httpStatus int) ErrorCode`, a `switch` with the
cases 200, 400, 401, 403, 429 and a `default`. -/
def GetErrorCodeFromHTTPStatus (httpStatus : Int) : ErrorCode :=
  if httpStatus = 200 then ErrorCodeSuccess
  else if httpStatus = 400 then ErrorCodeInvalidParams
  else if httpStatus = 401 then ErrorCodeInvalidAuth
  else if httpStatus = 403 then ErrorCodeAppKeyBlacklisted
  else if httpStatus = 429 then ErrorCodeRateLimitExceeded
  else ErrorCodeInternalError

/-! ## Go values -/

/-- Go slice `[]T`: `none` is the nil slice. -/
abbrev Slice (α : Type) := Option (List α)

/-- Go: `len(s)` of a slice; the nil slice has length 0. -/
def len {α : Type} (s : Slice α) : Nat :=
  match s with
  | none => 0
  | some xs => xs.length

/-- A JSON value. It is used for the value of a text (each number has the exact value of
its literal) and for what `encoding/json` decodes a text into as an `interface{}`: `nil`,
`bool`, `float64` (given by its exact rational value), `string`, `[]interface{}` and
`map[string]interface{}`. `JSON.asInterface` takes the first to the second. An object keeps
its members in the order of the text; the Go map built from it is read through `mapGet` and
enumerated through `mapEntries`. -/
inductive JSON where
  | null
  | bool (b : Bool)
  | num (q : ℚ)
  | str (s : String)
  | arr (xs : List JSON)
  | obj (kvs : List (String × JSON))

/-- A dynamic value held in an `interface{}` that is not nil (nil is `none` of `Option Any`).
The first five are the kinds `encoding/json` decodes into: `string`, `bool`, `float64` (a
finite one, given by its exact value), `[]interface{}` and `map[string]interface{}` (not
nil; the values inside are of these kinds again, written as `JSON`). `int` and `stringSlice`
are typed values a caller stores, such as the `[]string` that
`SpecificPlatforms.GetPlatforms` returns or an `int` in an `Extras` map; `nilSlice` and
`nilMap` are a nil `[]interface{}` and a nil `map[string]interface{}` stored in the
interface. A NaN or an infinite `float64`, on which `json.Marshal` fails, and a value of
any other type are not among the values of the model; a string is a Lean `String`, that is,
valid UTF-8 (`json.Marshal` writes U+FFFD for a byte that is not). -/
inductive Any where
  | string (s : String)
  | bool (b : Bool)
  | float64 (q : ℚ)
  | slice (xs : List JSON)
  | map (kvs : List (String × JSON))
  | int (n : Int)
  | stringSlice (xs : Slice String)
  | nilSlice
  | nilMap

/-- Go: `map[string]interface{}`, `nil` being `none`, as `json.Unmarshal` builds it from a
response: the values are of the decoded kinds. -/
abbrev JSONMap := Option (List (String × JSON))

/-- Go: `map[string]interface{}` in a request, `nil` being `none`: the caller may store any
value, also nil, under a key. A later entry of the list replaces an earlier one with the
same key. -/
abbrev AnyMap := Option (List (String × Option Any))

/-! ## push_types.go -/

/-- Go: `type Audience struct`. -/
structure Audience where
  All : Option String := none
  Tag : Slice String := none
  TagAnd : Slice String := none
  TagNot : Slice String := none
  Alias : Slice String := none
  RegistrationID : Slice String := none
  Segment : Slice String := none
  ABTest : Slice String := none
  LiveActivityID : Option String := none

/-- Go: `type Intent struct`. -/
structure Intent where
  URL : String := ""

/-- Go: `type AndroidNotification struct`. -/
structure AndroidNotification where
  Alert : String := ""
  Title : Option String := none
  BuilderID : Option Int := none
  ChannelID : Option String := none
  Category : Option String := none
  Priority : Option Int := none
  Style : Option Int := none
  AlertType : Option Int := none
  BigText : Option String := none
  Inbox : AnyMap := none
  BigPicPath : Option String := none
  LargeIcon : Option String := none
  Intent : Option Intent := none
  Extras : AnyMap := none

/-- Go: `type IOSNotification struct`. -/
structure IOSNotification where
  Alert : Option Any := none
  Sound : Option String := none
  Badge : Option Any := none
  ContentAvailable : Option Bool := none
  MutableContent : Option Bool := none
  Category : Option String := none
  ThreadID : Option String := none
  Extras : AnyMap := none

/-- Go: `type HMOSNotification struct`. -/
structure HMOSNotification where
  Alert : String := ""
  Title : Option String := none
  Intent : Option Intent := none
  BadgeAddNum : Option Int := none
  BadgeSetNum : Option Int := none
  Extras : AnyMap := none
  Category : Option String := none
  TestMessage : Option Bool := none
  ReceiptID : Option String := none
  LargeIcon : Option String := none
  Style : Option Int := none
  PushType : Option Int := none

/-- Go: `type QuickAppNotification struct`. -/
structure QuickAppNotification where
  Alert : String := ""
  Title : Option String := none
  Page : Option String := none
  Extras : AnyMap := none

/-- Go: `type Notification struct`; `VOIP` has the map type `VOIPNotification`. -/
structure Notification where
  Alert : String := ""
  Android : Option AndroidNotification := none
  IOS : Option IOSNotification := none
  HMOS : Option HMOSNotification := none
  QuickApp : Option QuickAppNotification := none
  VOIP : AnyMap := none

/-- Go: `type Message struct`. -/
structure Message where
  MsgContent : String := ""
  Title : Option String := none
  ContentType : Option String := none
  Extras : AnyMap := none

/-- Go: `type SMSMessage struct`. -/
structure SMSMessage where
  TempID : Int := 0
  TempPara : AnyMap := none
  DelayTime : Option Int := none
  ActiveFilter : Option Bool := none

/-- Go: `type Options struct`. -/
structure Options where
  TimeToLive : Option Int := none
  APNSProduction : Option Bool := none
  APNSCollapseID : Option String := none
  BigPushDuration : Option Int := none

/-- Go: `type Callback struct`. -/
structure Callback where
  URL : String := ""
  Params : AnyMap := none
  Type_ : Option Int := none

/-- Go: `type PushRequest struct`; `Platform` is an `interface{}`. -/
structure PushRequest where
  Platform : Option Any := none
  Audience : Option Audience := none
  Notification : Option Notification := none
  Message : Option Message := none
  SMSMessage : Option SMSMessage := none
  Options : Option Options := none
  Callback : Option Callback := none
  CID : Option String := none

/-- Go: `type PushResponse struct { SendNo string (json "sendno"); MsgID string (json "msg_id") }`. -/
structure PushResponse where
  SendNo : String := ""
  MsgID : String := ""
deriving DecidableEq, Repr

/-- Go: `func (p AllPlatform) GetPlatforms() interface{}`, the string "all". -/
def AllPlatform.GetPlatforms : Any := Any.string "all"

/-! ## push.go: validators -/

/-- Go: the `error` a validator returns: `Except.ok` is the nil error. -/
def errorOf {α : Type} (r : Except JPushError α) : Option JPushError :=
  match r with
  | .error e => some e
  | .ok _ => none

/-- Go: `func (s *PushService) validateAudience(audience *Audience) error` (push.go 99-171).
Each `let hasTarget ← ...` is one `if` block of the source, in source order: it yields the
new value of the local `hasTarget`, or returns the error with `throw`. `none` is the nil
error. -/
def PushService.validateAudience (audience : Audience) : Option JPushError :=
  errorOf do
    let hasTarget := false
    let hasTarget := if audience.All.isSome then true else hasTarget
    let hasTarget ←
      (if len audience.Tag > 0 then
        if len audience.Tag > 20 then
          throw (NewJPushError ErrorCodeInvalidAudience "标签数量不能超过20个")
        else pure true
      else pure hasTarget)
    let hasTarget ←
      (if len audience.TagAnd > 0 then
        if len audience.TagAnd > 20 then
          throw (NewJPushError ErrorCodeInvalidAudience "标签AND数量不能超过20个")
        else pure true
      else pure hasTarget)
    let hasTarget ←
      (if len audience.TagNot > 0 then
        if len audience.TagNot > 20 then
          throw (NewJPushError ErrorCodeInvalidAudience "标签NOT数量不能超过20个")
        else pure true
      else pure hasTarget)
    let hasTarget ←
      (if len audience.Alias > 0 then
        if len audience.Alias > 1000 then
          throw (NewJPushError ErrorCodeInvalidAudience "别名数量不能超过1000个")
        else pure true
      else pure hasTarget)
    let hasTarget ←
      (if len audience.RegistrationID > 0 then
        if len audience.RegistrationID > 1000 then
          throw (NewJPushError ErrorCodeInvalidAudience "注册ID数量不能超过1000个")
        else pure true
      else pure hasTarget)
    let hasTarget ←
      (if len audience.Segment > 0 then
        if len audience.Segment > 1 then
          throw (NewJPushError ErrorCodeInvalidAudience "用户分群只能指定一个")
        else pure true
      else pure hasTarget)
    let hasTarget ←
      (if len audience.ABTest > 0 then
        if len audience.ABTest > 1 then
          throw (NewJPushError ErrorCodeInvalidAudience "A/B测试只能指定一个")
        else pure true
      else pure hasTarget)
    let hasTarget ←
      (if audience.LiveActivityID.isSome then
        if audience.All.isSome ∨ len audience.Tag > 0 ∨ len audience.TagAnd > 0 ∨
            len audience.TagNot > 0 ∨ len audience.Alias > 0 ∨
            len audience.RegistrationID > 0 ∨ len audience.Segment > 0 ∨
            len audience.ABTest > 0 then
          throw (NewJPushError ErrorCodeInvalidAudience "实时活动不能与其他推送目标组合使用")
        else pure true
      else pure hasTarget)
    if ¬ hasTarget then
      throw (NewJPushError ErrorCodeInvalidAudience "必须指定至少一个推送目标")
    else
      pure ()

/-- Go: `func (s *PushService) validateNotification(notification *Notification) error`. -/
def PushService.validateNotification (notification : Notification) : Option JPushError :=
  if notification.Alert = "" ∧ notification.Android.isNone ∧
      notification.IOS.isNone ∧ notification.HMOS.isNone ∧
      notification.QuickApp.isNone then
    some (NewJPushError ErrorCodeInvalidNotification "通知内容不能为空")
  else
    none

/-- Go: `func (s *PushService) validateMessage(message *Message) error`. -/
def PushService.validateMessage (message : Message) : Option JPushError :=
  if message.MsgContent = "" then
    some (NewJPushError ErrorCodeInvalidMessage "消息内容不能为空")
  else
    none

/-- Go: `func (s *PushService) validatePushRequest(req *PushRequest) error` (push.go 58-96). -/
def PushService.validatePushRequest (req : Option PushRequest) : Option JPushError :=
  match req with
  | none => some (NewJPushError ErrorCodeInvalidParams "推送请求不能为空")
  | some req =>
    match req.Platform with
    | none => some (NewJPushError ErrorCodeInvalidPlatform "推送平台不能为空")
    | some _ =>
      match req.Audience with
      | none => some (NewJPushError ErrorCodeInvalidAudience "推送目标不能为空")
      | some audience =>
        match PushService.validateAudience audience with
        | some err => some err
        | none =>
          if req.Notification.isNone ∧ req.Message.isNone then
            some (NewJPushError ErrorCodeInvalidParams "通知和消息至少需要有一个")
          else
            match (match req.Notification with
                   | some notification => PushService.validateNotification notification
                   | none => none) with
            | some err => some err
            | none =>
              match req.Message with
              | some message => PushService.validateMessage message
              | none => none

/-! ## encoding/json and net/http, as far as the SDK uses them -/

/-- Go: `m[k]` with the "comma ok" form on a `map[string]interface{}` that `json.Unmarshal`
built from an object: a later member of the object replaces an earlier one with the same
key; a nil map has no entry. -/
def mapGet (m : JSONMap) (k : String) : Option JSON :=
  match m with
  | none => none
  | some kvs => (kvs.reverse.find? (fun e => e.1 = k)).map (fun e => e.2)

/-- Go: `a < b` on strings, which compares bytes; on the UTF-8 of two strings that is the
lexicographic order of their code points. -/
def ltChars : List Char → List Char → Bool
  | [], [] => false
  | [], _ :: _ => true
  | _ :: _, [] => false
  | a :: as, b :: bs =>
    if a.toNat < b.toNat then true
    else if b.toNat < a.toNat then false
    else ltChars as bs

/-- Go: the keys of a map in the order `json.Marshal` writes them: each key once, sorted. -/
def mapKeys (kvs : List (String × JSON)) : List String :=
  ((kvs.map (fun e => e.1)).dedup).insertionSort (fun a b => ltChars b.data a.data = false)

/-- Go: the members `json.Marshal` writes for a map, in its order. -/
def mapEntries (kvs : List (String × JSON)) : List (String × JSON) :=
  (mapKeys kvs).filterMap (fun k => (mapGet (some kvs) k).map (fun v => (k, v)))

/-- Go: `encoding/json` case folding of one rune of an object key, as far as it decides a
match with an ASCII field name: ASCII lower case goes to upper case, U+017F and U+212A go to
`S` and `K`; every other rune folds to a rune outside ASCII or to itself. -/
def foldRune (c : Char) : Char :=
  if c.toNat = 0x17F then 'S'
  else if c.toNat = 0x212A then 'K'
  else c.toUpper

/-- Go: `foldName` of `encoding/json`. -/
def foldName (s : String) : List Char := s.data.map foldRune

/-- Go: the struct field an object key is decoded into: the field with exactly that JSON
name, else the first field whose name matches under case folding, else none (the member is
skipped). -/
def matchField (fields : List String) (key : String) : Option String :=
  match fields.find? (fun f => f = key) with
  | some f => some f
  | none => fields.find? (fun f => foldName f = foldName key)

/-- Go: `json.Unmarshal` of one value into a `string` variable holding `cur`: `null` leaves
it, a string sets it, any other value is an `UnmarshalTypeError` (`none`). -/
def decodeString (v : JSON) (cur : String) : Option String :=
  match v with
  | .null => some cur
  | .str s => some s
  | _ => none

/-- Go: `json.Unmarshal` of one value into a `[]string` variable: `null` sets it to the nil
slice, an array sets it to a slice of that length, each element decoded as a string from the
zero value (as it is when the variable was nil before); any other value, or a bad element,
is an `UnmarshalTypeError` (`none`). The slice the variable held is not looked at: when the
key of the field occurs twice in one object and an element of the second array is `null`,
Go leaves at that index the element of the first array, where this gives the empty string.
No statement below is about an object with a repeated key of a `[]string` field. -/
def decodeStringSlice (v : JSON) (_cur : Slice String) : Option (Slice String) :=
  match v with
  | .null => some none
  | .arr xs => (xs.mapM (fun x => decodeString x "")).map some
  | _ => none

/-- The integer part of the base-2 logarithm of `n`, by halving: the number of times `n` can
be halved before it is below 2. The first argument bounds the number of steps. -/
def log2Steps : Nat → Nat → Nat
  | 0, _ => 0
  | fuel + 1, n => if 2 ≤ n then log2Steps fuel (n / 2) + 1 else 0

/-- The integer part of the base-2 logarithm of `n` (0 for `n = 0`). -/
def floorLog2 (n : Nat) : Nat := log2Steps n n

/-- The quotient `n / d` rounded to the nearest natural number, a tie going to the even
one. -/
def roundHalfEven (n d : Nat) : Nat :=
  let f := n / d
  let r := n % d
  if 2 * r < d then f
  else if d < 2 * r then f + 1
  else if f % 2 = 0 then f else f + 1

/-- The integer part of the base-2 logarithm of the quotient `p / d` of two positive
numbers. -/
def floorLog2Quot (p d : Nat) : Int :=
  let e0 : Int := (floorLog2 p : Int) - (floorLog2 d : Int)
  if (if 0 ≤ e0 then d * 2 ^ e0.toNat ≤ p else d ≤ p * 2 ^ (-e0).toNat) then e0 else e0 - 1

/-- Go: `strconv.ParseFloat(s, 64)` on a number literal of exact value `q`, which is how
`json.Unmarshal` reads a number into an `interface{}`: the `float64` nearest to `q`, a tie
going to the one with an even significand (53 bits, the unit in the last place never below
2^-1074), given by its exact value; `none` when that is 2^1024 or more, where `ParseFloat`
returns an error (`ErrRange`) and `json.Unmarshal` an `UnmarshalTypeError`. -/
def float64Of (q : ℚ) : Option ℚ :=
  if q.num = 0 then some 0
  else
    let p := q.num.natAbs
    let d := q.den
    let k : Int := max (floorLog2Quot p d - 52) (-1074)
    let r := roundHalfEven (p * 2 ^ (-k).toNat) (d * 2 ^ k.toNat)
    if 1024 ≤ (floorLog2 r : Int) + k then none
    else some (mkRat (q.num.sign * (r * 2 ^ k.toNat : Nat)) (2 ^ (-k).toNat))

mutual
/-- Go: `json.Unmarshal` of a text into an `interface{}`, from the value of the text to the
value that is stored: every number becomes the `float64` nearest to it (`float64Of`), at
every depth; `none` is the error for a number beyond the range of `float64`. -/
def JSON.asInterface : JSON → Option JSON
  | .null => some .null
  | .bool b => some (.bool b)
  | .num q => (float64Of q).map JSON.num
  | .str s => some (.str s)
  | .arr xs => (asInterfaceList xs).map JSON.arr
  | .obj kvs => (asInterfaceMembers kvs).map JSON.obj
/-- The elements of `JSON.asInterface` of an array. -/
def asInterfaceList : List JSON → Option (List JSON)
  | [] => some []
  | x :: xs =>
    match x.asInterface, asInterfaceList xs with
    | some y, some ys => some (y :: ys)
    | _, _ => none
/-- The members of `JSON.asInterface` of an object. -/
def asInterfaceMembers : List (String × JSON) → Option (List (String × JSON))
  | [] => some []
  | (k, v) :: kvs =>
    match v.asInterface, asInterfaceMembers kvs with
    | some y, some ys => some ((k, y) :: ys)
    | _, _ => none
end

/-- Go: `int(f)` for a `float64` `f`: the fraction is discarded (truncation towards zero).
When the result does not fit in 64 bits Go leaves the value to the implementation; the
value given here for that case is the one amd64 yields. -/
def intOfFloat64 (q : ℚ) : Int :=
  let t := q.num.tdiv q.den
  if -(2 : Int) ^ 63 ≤ t ∧ t < (2 : Int) ^ 63 then t else -(2 : Int) ^ 63

/-- The bytes `io.ReadAll` got from a response, by what `json.Unmarshal` makes of them:
no byte at all; bytes it cannot read (`malformed`: they are not a JSON text, or a number of
the text is beyond the range of `float64`); or the value it reads, in which every number is
the `float64` it made of the literal. -/
inductive ResponseBody where
  | empty
  | malformed
  | json (j : JSON)

/-- The body of a response whose bytes are a JSON text of value `t` (each number with the
exact value of its literal): `json.Unmarshal` reads every number as a `float64`, and cannot
read the text when one of them is beyond the range of `float64`. -/
def ResponseBody.ofText (t : JSON) : ResponseBody :=
  match t.asInterface with
  | some j => .json j
  | none => .malformed

/-- Go: `*http.Request` as `makeRequest` builds it. -/
structure HTTPRequest where
  method : String
  url : String
  header : List (String × String)
  body : Option String

/-- What `c.httpClient.Do(req)` and then `io.ReadAll(resp.Body)` yield: `doError` when `Do`
returns an error (no connection, or no response header within the client timeout);
`readError` when `Do` returns a response and `io.ReadAll` on its body returns an error (the
body breaks off, or the client timeout expires while it is read); else the status, the
header and the body read in full. -/
inductive RoundTrip where
  | doError
  | readError
  | response (statusCode : Int) (headers : List (String × List String)) (body : ResponseBody)

/-- Go: `type FileTarget struct` (advanced.go). -/
structure FileTarget where
  FileID : String := ""

/-- Go: `type FileAudience struct` (advanced.go). -/
structure FileAudience where
  File : Option FileTarget := none

/-- Go: `type FilePushRequest struct` (advanced.go). -/
structure FilePushRequest where
  Platform : Option Any := none
  Audience : Option FileAudience := none
  Notification : Option Notification := none
  Message : Option Message := none
  SMSMessage : Option SMSMessage := none
  Options : Option Options := none
  Callback : Option Callback := none

/-- Go: `type MessageStatusRequest struct` (report.go). -/
structure MessageStatusRequest where
  MsgID : Int := 0
  RegistrationIDs : Slice String := none
  Date : String := ""

/-- Go: `body interface{}` of `makeRequest`, when it is not nil. -/
inductive RequestBody where
  | push (req : PushRequest)
  | filePush (req : FilePushRequest)
  | messageStatus (req : MessageStatusRequest)

/-- The standard library and the network, as the SDK calls them.
* `jsonMarshal`: `json.Marshal(body)`, `none` when it returns an error;
* `base64`: `base64.StdEncoding.EncodeToString`;
* `newRequest`: whether `http.NewRequestWithContext(ctx, method, url, body)` succeeds;
* `send`: `c.httpClient.Do(req)` under the client timeout, then `io.ReadAll`;
* `rangeOrder`: the order in which a `for k, v := range m` visits a `map[string]string`;
* `unmarshalErrorText`: the text of the error `json.Unmarshal` returns for a body. -/
structure Env where
  jsonMarshal : RequestBody → Option String
  base64 : String → String
  newRequest : String → String → Bool
  send : Int → HTTPRequest → RoundTrip
  rangeOrder : List (String × String) → List (String × String)
  rangeOrder_perm : ∀ m, (rangeOrder m).Perm m
  unmarshalErrorText : JSONMap → String

/-! ## client.go -/

/-- Go: `*zap.Logger`, a value of a library type; `id` tells one logger from another. -/
structure Logger where
  id : Nat
deriving DecidableEq, Repr

/-- Go: `type Client struct`; `timeout` is `httpClient.Timeout`, `baseURLs` the
`map[string]string`. The service fields point back to the client and are the functions
below. -/
structure Client where
  appKey : String
  masterSecret : String
  timeout : Int
  baseURLs : List (String × String)
  logger : Logger := { id := 0 }

/-- Go: `c.baseURLs[name]`; a missing key gives the empty string. -/
def Client.baseURL (c : Client) (name : String) : String :=
  (c.baseURLs.lookup name).getD ""

/-- Go: `type APIResponse struct`. -/
structure APIResponse where
  StatusCode : Int
  Headers : List (String × List String)
  Body : JSONMap := none
  Error : Option JPushError := none

/-- Go: a result `(*T, error)`, with the requests passed to `httpClient.Do` on the way.
`nilDeref` records a nil pointer dereference (a run-time panic). -/
structure Outcome (α : Type) where
  value : Option α
  err : Option JPushError
  calls : List HTTPRequest
  nilDeref : Bool := false

/-- Go: client.go 149-169, the `error` member of the decoded body: present only when the
member is an object; `code` is used when it is a number, `message` when it is a string.
`bodyMap` is the map `json.Unmarshal` built, so `codeVal` is the `float64` made of the
literal of the text (`float64Of`), and the code is `int(codeVal)`. -/
def embeddedError (bodyMap : JSONMap) : Option JPushError :=
  match mapGet bodyMap "error" with
  | some (.obj errorMap) =>
    let code :=
      match mapGet (some errorMap) "code" with
      | some (.num codeVal) => intOfFloat64 codeVal
      | _ => ErrorCodeInternalError
    let message :=
      match mapGet (some errorMap) "message" with
      | some (.str msgVal) => msgVal
      | _ => "未知错误"
    some (NewJPushError code message)
  | _ => none

/-- Go: `json.Unmarshal(respBody, &bodyMap)` with `bodyMap map[string]interface{}`: an object
gives its map, `null` leaves the nil map, any other value is an error (`none`). -/
def unmarshalMap (j : JSON) : Option JSONMap :=
  match j with
  | .obj kvs => some (some kvs)
  | .null => some none
  | _ => none

/-- Go: client.go 174-188, the default error for a status of 400 or more. -/
def statusError (statusCode : Int) : JPushError :=
  let message := "HTTP错误: " ++ toString statusCode
  if statusCode = 400 then NewJPushError ErrorCodeInvalidParams message
  else if statusCode = 401 then NewJPushError ErrorCodeInvalidAuth message
  else if statusCode = 403 then NewJPushError ErrorCodeAppKeyBlacklisted message
  else if statusCode = 429 then NewJPushError ErrorCodeRateLimitExceeded message
  else NewJPushError ErrorCodeInternalError message

/-- Go: the part of `makeRequest` after `io.ReadAll` (client.go 135-193): decode the body,
pick up an embedded error, map the status. Returns `(*APIResponse, error)`. -/
def readResponse (statusCode : Int) (headers : List (String × List String))
    (respBody : ResponseBody) : Option APIResponse × Option JPushError :=
  let apiResp : APIResponse := { StatusCode := statusCode, Headers := headers }
  let parsed : Option APIResponse :=
    match respBody with
    | .empty => some apiResp
    | .malformed => none
    | .json j =>
      match unmarshalMap j with
      | none => none
      | some bodyMap => some { apiResp with Body := bodyMap, Error := embeddedError bodyMap }
  match parsed with
  | none => (none, some (NewJPushError ErrorCodeInvalidJSON "响应体解析失败"))
  | some apiResp =>
    if statusCode ≥ 400 then
      let apiResp :=
        match apiResp.Error with
        | none => { apiResp with Error := some (statusError statusCode) }
        | some _ => apiResp
      (some apiResp, apiResp.Error)
    else
      (some apiResp, none)

/-- Go: client.go 88-98, `json.Marshal(body)` when `body != nil`: `none` is the marshal
error, `some none` the absent request body. -/
def marshalBody (env : Env) (body : Option RequestBody) : Option (Option String) :=
  match body with
  | none => some none
  | some b => (env.jsonMarshal b).map some

/-- Go: client.go 100-111, the request with its three headers. -/
def buildRequest (env : Env) (c : Client) (method url : String) (reqBody : Option String) :
    HTTPRequest :=
  let auth := env.base64 (c.appKey ++ ":" ++ c.masterSecret)
  { method := method, url := url,
    header := [("Authorization", "Basic " ++ auth), ("Content-Type", "application/json"),
      ("Accept", "application/json")],
    body := reqBody }

/-- Go: `func (c *Client) makeRequest(ctx, method, baseURL, path string, body interface{})
(*APIResponse, error)` (client.go 87-194). -/
def makeRequest (env : Env) (c : Client) (method baseURL path : String)
    (body : Option RequestBody) : Outcome APIResponse :=
  match marshalBody env body with
  | none =>
    { value := none, err := some (NewJPushError ErrorCodeInvalidJSON "请求体序列化失败"), calls := [] }
  | some reqBody =>
    let url := baseURL ++ path
    if env.newRequest method url = false then
      { value := none, err := some (NewJPushError ErrorCodeInternalError "创建HTTP请求失败"), calls := [] }
    else
      let req := buildRequest env c method url reqBody
      match env.send c.timeout req with
      | .doError =>
        { value := none, err := some (NewJPushError ErrorCodeTimeout "HTTP请求失败"), calls := [req] }
      | .readError =>
        { value := none, err := some (NewJPushError ErrorCodeInternalError "读取响应体失败"),
          calls := [req] }
      | .response statusCode headers respBody =>
        let r := readResponse statusCode headers respBody
        { value := r.1, err := r.2, calls := [req] }

/-- Go: `func (c *Client) makeRequestWithoutContext(method, baseURL, path, body)`. -/
def makeRequestWithoutContext (env : Env) (c : Client) (method baseURL path : String)
    (body : Option RequestBody) : Outcome APIResponse :=
  makeRequest env c method baseURL path body

/-- Go: `func (c *Client) makePushRequest(method, path string, body interface{})`. -/
def makePushRequest (env : Env) (c : Client) (method path : String)
    (body : Option RequestBody) : Outcome APIResponse :=
  makeRequestWithoutContext env c method (c.baseURL "push") path body

/-! ## push.go: Push -/

/-- Go: `json.Unmarshal(jsonData, &pushResp)` on the text `json.Marshal(body)` wrote: a nil
map is written as `null` and leaves the zero value; the members of a map are decoded in
order into the fields `sendno` and `msg_id`; `none` is the error of `json.Unmarshal`. -/
def decodePushResponse (body : JSONMap) : Option PushResponse :=
  match body with
  | none => some {}
  | some kvs =>
    (mapEntries kvs).foldlM (fun (acc : PushResponse) e =>
      match matchField ["sendno", "msg_id"] e.1 with
      | none => some acc
      | some f =>
        if f = "sendno" then
          (decodeString e.2 acc.SendNo).map (fun v => { acc with SendNo := v })
        else
          (decodeString e.2 acc.MsgID).map (fun v => { acc with MsgID := v })) {}

/-- Go: `func (s *PushService) parseResponse(body map[string]interface{}, result interface{})
error` (push.go 194-205) at `result = &pushResp`. `json.Marshal` does not fail on a map that
`json.Unmarshal` built, so only the second error can occur. -/
def PushService.parseResponse (body : JSONMap) : Except JPushError PushResponse :=
  match decodePushResponse body with
  | none => .error (NewJPushError ErrorCodeInvalidJSON "响应解析失败")
  | some pushResp => .ok pushResp

/-- Go: `func (s *PushService) Push(req *PushRequest) (*PushResponse, error)` (push.go 22-55).
`GetRateLimitInfo` only feeds the log. -/
def PushService.Push (env : Env) (c : Client) (req : Option PushRequest) : Outcome PushResponse :=
  match PushService.validatePushRequest req with
  | some err => { value := none, err := some err, calls := [] }
  | none =>
    let r := makePushRequest env c "POST" "/v3/push" (req.map RequestBody.push)
    match r.err with
    | some err => { value := none, err := some err, calls := r.calls }
    | none =>
      match r.value with
      | none => { value := none, err := none, calls := r.calls, nilDeref := true }
      | some resp =>
        match PushService.parseResponse resp.Body with
        | .error err => { value := none, err := some err, calls := r.calls }
        | .ok pushResp => { value := some pushResp, err := none, calls := r.calls }

/-! ## advanced.go: GetCID -/

/-- Go: `type CIDResponse struct { CIDList []string (json "cidlist") }`. -/
structure CIDResponse where
  CIDList : Slice String := none
deriving DecidableEq, Repr

/-- Go: `json.Unmarshal(bodyBytes, &cidResp)` on the text `json.Marshal(resp.Body)` wrote. -/
def decodeCIDResponse (body : JSONMap) : Option CIDResponse :=
  match body with
  | none => some {}
  | some kvs =>
    (mapEntries kvs).foldlM (fun (acc : CIDResponse) e =>
      match matchField ["cidlist"] e.1 with
      | none => some acc
      | some _ => (decodeStringSlice e.2 acc.CIDList).map (fun v => { acc with CIDList := v })) {}

/-- Go: `func (s *AdvancedService) GetCID(count int, cidType CIDType) (*CIDResponse, error)`
(advanced.go 90-124). `params` is the `map[string]string`, visited in the order the
environment gives; `strconv.Itoa` is `toString`. -/
def AdvancedService.GetCID (env : Env) (c : Client) (count : Int) (cidType : String) :
    Outcome CIDResponse :=
  if count ≤ 0 then
    { value := none, err := some (NewJPushError ErrorCodeInvalidParams "count must be greater than 0"),
      calls := [] }
  else
    let params : List (String × String) := [("count", toString count)]
    let params := if cidType ≠ "" then params ++ [("type", cidType)] else params
    let url := "/v3/push/cid"
    let url :=
      if params.length > 0 then
        let paramPairs := (env.rangeOrder params).map (fun kv => kv.1 ++ "=" ++ kv.2)
        url ++ "?" ++ String.intercalate "&" paramPairs
      else url
    let r := makePushRequest env c "GET" url none
    match r.err with
    | some err => { value := none, err := some err, calls := r.calls }
    | none =>
      match r.value with
      | none => { value := none, err := none, calls := r.calls, nilDeref := true }
      | some resp =>
        match decodeCIDResponse resp.Body with
        | none =>
          { value := none,
            err := some (NewJPushError ErrorCodeInvalidJSON
              ("failed to parse CID response: " ++ env.unmarshalErrorText resp.Body)),
            calls := r.calls }
        | some cidResp => { value := some cidResp, err := none, calls := r.calls }

/-! ## encoding/json on the request types (push_types.go)

`json.Marshal` and `json.Unmarshal` are taken at the level of JSON values: the text that
`Marshal` writes for a value is read back by `Unmarshal` as that value. -/

mutual
/-- Go: what `json.Marshal` writes for a value of the decoded kinds: every map with each key
once and in key order, at every depth. -/
def JSON.marshalForm : JSON → JSON
  | .arr xs => .arr (marshalFormList xs)
  | .obj kvs => .obj (mapEntries (marshalFormMembers kvs))
  | .null => .null
  | .bool b => .bool b
  | .num q => .num q
  | .str s => .str s
/-- The elements of `JSON.marshalForm` of an array. -/
def marshalFormList : List JSON → List JSON
  | [] => []
  | x :: xs => x.marshalForm :: marshalFormList xs
/-- The members of `JSON.marshalForm` of an object, before they are put in key order. -/
def marshalFormMembers : List (String × JSON) → List (String × JSON)
  | [] => []
  | (k, v) :: kvs => (k, v.marshalForm) :: marshalFormMembers kvs
end

/-- The JSON value that stands for a value held in an `interface{}`: nil, a nil slice and a
nil map are `null`, an `int` is a number, a `[]string` an array of strings. For a `float64`
`json.Marshal` writes the shortest literal that is read back as that `float64`; it is
given here by the `float64` itself. -/
def rawOfAny : Option Any → JSON
  | none => .null
  | some (.string s) => .str s
  | some (.bool b) => .bool b
  | some (.float64 q) => .num q
  | some (.slice xs) => .arr xs
  | some (.map kvs) => .obj kvs
  | some (.int n) => .num (n : ℚ)
  | some (.stringSlice none) => .null
  | some (.stringSlice (some xs)) => .arr (xs.map JSON.str)
  | some .nilSlice => .null
  | some .nilMap => .null

/-- Go: `json.Marshal` of an `interface{}` value. -/
def encodeAny (a : Option Any) : JSON := (rawOfAny a).marshalForm

/-- The value an `interface{}` holds after `json.Unmarshal` stored the decoded value `j` in
it: nil for `null`, else the `string`, `bool`, `float64`, `[]interface{}` or
`map[string]interface{}`. -/
def anyOf (j : JSON) : Option Any :=
  match j with
  | .null => none
  | .str s => some (.string s)
  | .bool b => some (.bool b)
  | .num q => some (.float64 q)
  | .arr xs => some (.slice xs)
  | .obj kvs => some (.map kvs)

/-- Go: `json.Unmarshal` of a value into an `interface{}`: `null` gives nil, any other value
gives the `string`, `bool`, `float64`, `[]interface{}` or `map[string]interface{}` for it,
every number in it read as a `float64`; `none` is the error for a number beyond the range
of `float64`. -/
def decodeAny (v : JSON) : Option (Option Any) :=
  (v.asInterface).map anyOf

/-- Go: `len(m) == 0` for a request map: nil or without entry. -/
def emptyMap (m : AnyMap) : Bool :=
  match m with
  | some (_ :: _) => false
  | _ => true

/-- Go: `json.Marshal` of a `map[string]interface{}` of a request. -/
def encodeAnyMap (m : AnyMap) : JSON :=
  match m with
  | none => .null
  | some kvs => (JSON.obj (kvs.map (fun e => (e.1, rawOfAny e.2)))).marshalForm

/-- Go: `json.Unmarshal` of a value into a `map[string]interface{}` variable: `null` sets the
nil map, an object adds its members to the map (a new one when the variable was nil), any
other value is an `UnmarshalTypeError` (`none`). -/
def decodeAnyMap (v : JSON) (cur : AnyMap) : Option AnyMap :=
  match v with
  | .null => some none
  | .obj kvs =>
    (asInterfaceMembers kvs).map
      (fun l => some (cur.getD [] ++ l.map (fun e => (e.1, anyOf e.2))))
  | _ => none

/-- The integer is one a Go `int` holds (64 bits). -/
def fitsInt (n : Int) : Prop := -(2 : Int) ^ 63 ≤ n ∧ n < (2 : Int) ^ 63

instance (n : Int) : Decidable (fitsInt n) := by
  unfold fitsInt
  infer_instance

/-- Go: `json.Marshal` of an `int`. -/
def encodeInt (n : Int) : JSON := .num (n : ℚ)

/-- Go: `json.Unmarshal` of a value into an `int` variable: `null` leaves it, a number that
is an integer within 64 bits sets it, anything else is an `UnmarshalTypeError` (`none`). Go
reads the literal and also refuses an integer written with a fraction or an exponent; a
`JSON` value does not record how its number was written. -/
def decodeInt (v : JSON) (cur : Int) : Option Int :=
  match v with
  | .null => some cur
  | .num q => if q.den = 1 ∧ fitsInt q.num then some q.num else none
  | _ => none

/-- Go: `json.Unmarshal` of a value into a `bool` variable. -/
def decodeBool (v : JSON) (cur : Bool) : Option Bool :=
  match v with
  | .null => some cur
  | .bool b => some b
  | _ => none

/-- Go: `json.Marshal` of a `[]string`: `null` for the nil slice. -/
def encodeStringSlice (xs : Slice String) : JSON :=
  match xs with
  | none => .null
  | some l => .arr (l.map JSON.str)

/-- Go: `json.Unmarshal` of a value into a pointer variable: `null` sets nil; any other value
is decoded by `dec` into the pointee, a new zero value when the pointer was nil. -/
def decodePtr {α : Type} (dec : JSON → α → Option α) (zero : α) (v : JSON) (cur : Option α) :
    Option (Option α) :=
  match v with
  | .null => some none
  | _ => (dec v (cur.getD zero)).map some

/-- Go: `json.Unmarshal` of a value into a struct variable: `null` leaves it, an object is
decoded member by member, in the order of the text, each into the field its key matches
(`setField`), a member that matches no field being skipped; any other value is an
`UnmarshalTypeError` (`none`). -/
def decodeObject {σ : Type} (setField : String → JSON → σ → Option σ) (fields : List String)
    (v : JSON) (cur : σ) : Option σ :=
  match v with
  | .null => some cur
  | .obj kvs =>
    kvs.foldlM (fun acc e =>
      match matchField fields e.1 with
      | none => some acc
      | some f => setField f e.2 acc) cur
  | _ => none

/-- Go: the members `json.Marshal` writes for a struct, from its fields in order: `none` is
a field left out by `omitempty`. -/
def members (l : List (String × Option JSON)) : List (String × JSON) :=
  l.filterMap (fun e => e.2.map (fun v => (e.1, v)))

/-- Go: a `string` field marked `omitempty`. -/
def omitStr (s : String) : Option JSON := if s = "" then none else some (.str s)

/-- Go: a `[]string` field marked `omitempty`. -/
def omitSlice (xs : Slice String) : Option JSON :=
  if len xs = 0 then none else some (encodeStringSlice xs)

/-- Go: a `map[string]interface{}` field marked `omitempty`. -/
def omitMap (m : AnyMap) : Option JSON :=
  if emptyMap m then none else some (encodeAnyMap m)

/-- Go: a pointer field that is not marked `omitempty`: `null` when nil. -/
def encodePtr {α : Type} (enc : α → JSON) (p : Option α) : JSON :=
  match p with
  | none => .null
  | some a => enc a

/-- The pointer is set, to an integer a Go `int` holds. -/
def intPtrSet (p : Option Int) : Bool :=
  match p with
  | some n => decide (fitsInt n)
  | none => false

/-- The pointer is set, to a value for which `f` holds. -/
def ptrSet {α : Type} (f : α → Bool) (p : Option α) : Bool :=
  match p with
  | some a => f a
  | none => false

/-- The property holds of the pointee, if there is one. -/
def ptrAll {α : Type} (P : α → Prop) (p : Option α) : Prop :=
  match p with
  | some a => P a
  | none => True

/-- The value of an `interface{}` is nil or of one of the five kinds `json.Unmarshal` decodes
into: it is not a typed `int` or `[]string`, nor a nil `[]interface{}` or a nil
`map[string]interface{}`. -/
def decodedKind (a : Option Any) : Bool :=
  match a with
  | some (.int _) => false
  | some (.stringSlice _) => false
  | some .nilSlice => false
  | some .nilMap => false
  | _ => true

/-- The value of an `interface{}` is one `json.Unmarshal` can give back: it is of a decoded
kind, any map in it lists each key once, in key order (the form `json.Marshal` writes), and
every number in it is a `float64` (`json.Unmarshal` reads it as itself). -/
def Any.wire (a : Option Any) : Prop :=
  decodedKind a = true ∧ (rawOfAny a).marshalForm = rawOfAny a ∧
    (rawOfAny a).asInterface = some (rawOfAny a)

/-- The request map is one `json.Unmarshal` can give back: its values are of the decoded
kinds, it and the maps in it list each key once, in key order, and every number in it is a
`float64`. -/
def AnyMap.wire (m : AnyMap) : Prop :=
  match m with
  | none => True
  | some kvs =>
    (∀ e ∈ kvs, decodedKind e.2 = true) ∧
      (JSON.obj (kvs.map (fun e => (e.1, rawOfAny e.2)))).marshalForm =
        JSON.obj (kvs.map (fun e => (e.1, rawOfAny e.2))) ∧
      (JSON.obj (kvs.map (fun e => (e.1, rawOfAny e.2)))).asInterface =
        some (JSON.obj (kvs.map (fun e => (e.1, rawOfAny e.2))))

/-! ## encoding/json: the request structs -/

/-- Go: the JSON names of the fields of `Audience`, in field order. -/
def Audience.fields : List String :=
  ["all", "tag", "tag_and", "tag_not", "alias", "registration_id", "segment", "abtest",
    "live_activity_id"]

/-- Go: `json.Marshal` of a `Audience`: its fields in order, under their JSON names, a field
marked `omitempty` left out when it is empty. -/
def encodeAudience (x : Audience) : JSON :=
  .obj (members
    [("all", x.All.map JSON.str),
     ("tag", omitSlice x.Tag),
     ("tag_and", omitSlice x.TagAnd),
     ("tag_not", omitSlice x.TagNot),
     ("alias", omitSlice x.Alias),
     ("registration_id", omitSlice x.RegistrationID),
     ("segment", omitSlice x.Segment),
     ("abtest", omitSlice x.ABTest),
     ("live_activity_id", x.LiveActivityID.map JSON.str)])

/-- Go: `json.Unmarshal` of the value of a member into the field of a `Audience` with the
JSON name `f`. -/
def Audience.setField (f : String) (v : JSON) (x : Audience) : Option Audience :=
  if f = "all" then
    (decodePtr decodeString "" v x.All).map (fun y => { x with All := y })
  else if f = "tag" then
    (decodeStringSlice v x.Tag).map (fun y => { x with Tag := y })
  else if f = "tag_and" then
    (decodeStringSlice v x.TagAnd).map (fun y => { x with TagAnd := y })
  else if f = "tag_not" then
    (decodeStringSlice v x.TagNot).map (fun y => { x with TagNot := y })
  else if f = "alias" then
    (decodeStringSlice v x.Alias).map (fun y => { x with Alias := y })
  else if f = "registration_id" then
    (decodeStringSlice v x.RegistrationID).map (fun y => { x with RegistrationID := y })
  else if f = "segment" then
    (decodeStringSlice v x.Segment).map (fun y => { x with Segment := y })
  else if f = "abtest" then
    (decodeStringSlice v x.ABTest).map (fun y => { x with ABTest := y })
  else if f = "live_activity_id" then
    (decodePtr decodeString "" v x.LiveActivityID).map (fun y => { x with LiveActivityID := y })
  else some x

/-- Go: `json.Unmarshal` of a value into a `Audience` variable. -/
def decodeAudience (v : JSON) (cur : Audience) : Option Audience :=
  decodeObject Audience.setField Audience.fields v cur

/-- Every field of the `Audience` is populated: each pointer and `interface` is set, each
slice, map and `omitempty` string is not empty, each `int` is one a Go `int` holds. -/
def Audience.populated (x : Audience) : Bool :=
  x.All.isSome && decide (len x.Tag > 0) && decide (len x.TagAnd > 0) &&
    decide (len x.TagNot > 0) && decide (len x.Alias > 0) &&
    decide (len x.RegistrationID > 0) && decide (len x.Segment > 0) &&
    decide (len x.ABTest > 0) && x.LiveActivityID.isSome

/-- Go: the JSON names of the fields of `Intent`, in field order. -/
def Intent.fields : List String :=
  ["url"]

/-- Go: `json.Marshal` of a `Intent`: its fields in order, under their JSON names, a field
marked `omitempty` left out when it is empty. -/
def encodeIntent (x : Intent) : JSON :=
  .obj (members
    [("url", some (.str x.URL))])

/-- Go: `json.Unmarshal` of the value of a member into the field of a `Intent` with the
JSON name `f`. -/
def Intent.setField (f : String) (v : JSON) (x : Intent) : Option Intent :=
  if f = "url" then
    (decodeString v x.URL).map (fun y => { x with URL := y })
  else some x

/-- Go: `json.Unmarshal` of a value into a `Intent` variable. -/
def decodeIntent (v : JSON) (cur : Intent) : Option Intent :=
  decodeObject Intent.setField Intent.fields v cur

/-- Every field of the `Intent` is populated: each pointer and `interface` is set, each
slice, map and `omitempty` string is not empty, each `int` is one a Go `int` holds. -/
def Intent.populated (_x : Intent) : Bool :=
  true

/-- Go: the JSON names of the fields of `AndroidNotification`, in field order. -/
def AndroidNotification.fields : List String :=
  ["alert", "title", "builder_id", "channel_id", "category", "priority", "style", "alert_type",
    "big_text", "inbox", "big_pic_path", "large_icon", "intent", "extras"]

/-- Go: `json.Marshal` of a `AndroidNotification`: its fields in order, under their JSON names, a field
marked `omitempty` left out when it is empty. -/
def encodeAndroidNotification (x : AndroidNotification) : JSON :=
  .obj (members
    [("alert", some (.str x.Alert)),
     ("title", x.Title.map JSON.str),
     ("builder_id", x.BuilderID.map encodeInt),
     ("channel_id", x.ChannelID.map JSON.str),
     ("category", x.Category.map JSON.str),
     ("priority", x.Priority.map encodeInt),
     ("style", x.Style.map encodeInt),
     ("alert_type", x.AlertType.map encodeInt),
     ("big_text", x.BigText.map JSON.str),
     ("inbox", omitMap x.Inbox),
     ("big_pic_path", x.BigPicPath.map JSON.str),
     ("large_icon", x.LargeIcon.map JSON.str),
     ("intent", x.Intent.map encodeIntent),
     ("extras", omitMap x.Extras)])

/-- Go: `json.Unmarshal` of the value of a member into the field of a `AndroidNotification` with the
JSON name `f`. -/
def AndroidNotification.setField (f : String) (v : JSON) (x : AndroidNotification) :
    Option AndroidNotification :=
  if f = "alert" then
    (decodeString v x.Alert).map (fun y => { x with Alert := y })
  else if f = "title" then
    (decodePtr decodeString "" v x.Title).map (fun y => { x with Title := y })
  else if f = "builder_id" then
    (decodePtr decodeInt 0 v x.BuilderID).map (fun y => { x with BuilderID := y })
  else if f = "channel_id" then
    (decodePtr decodeString "" v x.ChannelID).map (fun y => { x with ChannelID := y })
  else if f = "category" then
    (decodePtr decodeString "" v x.Category).map (fun y => { x with Category := y })
  else if f = "priority" then
    (decodePtr decodeInt 0 v x.Priority).map (fun y => { x with Priority := y })
  else if f = "style" then
    (decodePtr decodeInt 0 v x.Style).map (fun y => { x with Style := y })
  else if f = "alert_type" then
    (decodePtr decodeInt 0 v x.AlertType).map (fun y => { x with AlertType := y })
  else if f = "big_text" then
    (decodePtr decodeString "" v x.BigText).map (fun y => { x with BigText := y })
  else if f = "inbox" then
    (decodeAnyMap v x.Inbox).map (fun y => { x with Inbox := y })
  else if f = "big_pic_path" then
    (decodePtr decodeString "" v x.BigPicPath).map (fun y => { x with BigPicPath := y })
  else if f = "large_icon" then
    (decodePtr decodeString "" v x.LargeIcon).map (fun y => { x with LargeIcon := y })
  else if f = "intent" then
    (decodePtr decodeIntent {} v x.Intent).map (fun y => { x with Intent := y })
  else if f = "extras" then
    (decodeAnyMap v x.Extras).map (fun y => { x with Extras := y })
  else some x

/-- Go: `json.Unmarshal` of a value into a `AndroidNotification` variable. -/
def decodeAndroidNotification (v : JSON) (cur : AndroidNotification) : Option AndroidNotification :=
  decodeObject AndroidNotification.setField AndroidNotification.fields v cur

/-- Every field of the `AndroidNotification` is populated: each pointer and `interface` is set, each
slice, map and `omitempty` string is not empty, each `int` is one a Go `int` holds. -/
def AndroidNotification.populated (x : AndroidNotification) : Bool :=
  x.Title.isSome && intPtrSet x.BuilderID && x.ChannelID.isSome && x.Category.isSome &&
    intPtrSet x.Priority && intPtrSet x.Style && intPtrSet x.AlertType && x.BigText.isSome &&
    !emptyMap x.Inbox && x.BigPicPath.isSome && x.LargeIcon.isSome &&
    ptrSet Intent.populated x.Intent && !emptyMap x.Extras

/-- Every `interface` value and map of the `AndroidNotification` is one `json.Unmarshal` can give
back (`Any.wire`, `AnyMap.wire`). -/
def AndroidNotification.wire (x : AndroidNotification) : Prop :=
  AnyMap.wire x.Inbox ∧ AnyMap.wire x.Extras

/-- Go: the JSON names of the fields of `IOSNotification`, in field order. -/
def IOSNotification.fields : List String :=
  ["alert", "sound", "badge", "content-available", "mutable-content", "category", "thread-id",
    "extras"]

/-- Go: `json.Marshal` of a `IOSNotification`: its fields in order, under their JSON names, a field
marked `omitempty` left out when it is empty. -/
def encodeIOSNotification (x : IOSNotification) : JSON :=
  .obj (members
    [("alert", some (encodeAny x.Alert)),
     ("sound", x.Sound.map JSON.str),
     ("badge", x.Badge.map (fun a => encodeAny (some a))),
     ("content-available", x.ContentAvailable.map JSON.bool),
     ("mutable-content", x.MutableContent.map JSON.bool),
     ("category", x.Category.map JSON.str),
     ("thread-id", x.ThreadID.map JSON.str),
     ("extras", omitMap x.Extras)])

/-- Go: `json.Unmarshal` of the value of a member into the field of a `IOSNotification` with the
JSON name `f`. -/
def IOSNotification.setField (f : String) (v : JSON) (x : IOSNotification) :
    Option IOSNotification :=
  if f = "alert" then
    (decodeAny v).map (fun y => { x with Alert := y })
  else if f = "sound" then
    (decodePtr decodeString "" v x.Sound).map (fun y => { x with Sound := y })
  else if f = "badge" then
    (decodeAny v).map (fun y => { x with Badge := y })
  else if f = "content-available" then
    (decodePtr decodeBool false v x.ContentAvailable).map (fun y => { x with ContentAvailable := y })
  else if f = "mutable-content" then
    (decodePtr decodeBool false v x.MutableContent).map (fun y => { x with MutableContent := y })
  else if f = "category" then
    (decodePtr decodeString "" v x.Category).map (fun y => { x with Category := y })
  else if f = "thread-id" then
    (decodePtr decodeString "" v x.ThreadID).map (fun y => { x with ThreadID := y })
  else if f = "extras" then
    (decodeAnyMap v x.Extras).map (fun y => { x with Extras := y })
  else some x

/-- Go: `json.Unmarshal` of a value into a `IOSNotification` variable. -/
def decodeIOSNotification (v : JSON) (cur : IOSNotification) : Option IOSNotification :=
  decodeObject IOSNotification.setField IOSNotification.fields v cur

/-- Every field of the `IOSNotification` is populated: each pointer and `interface` is set, each
slice, map and `omitempty` string is not empty, each `int` is one a Go `int` holds. -/
def IOSNotification.populated (x : IOSNotification) : Bool :=
  x.Alert.isSome && x.Sound.isSome && x.Badge.isSome && x.ContentAvailable.isSome &&
    x.MutableContent.isSome && x.Category.isSome && x.ThreadID.isSome && !emptyMap x.Extras

/-- Every `interface` value and map of the `IOSNotification` is one `json.Unmarshal` can give
back (`Any.wire`, `AnyMap.wire`). -/
def IOSNotification.wire (x : IOSNotification) : Prop :=
  Any.wire x.Alert ∧ Any.wire x.Badge ∧ AnyMap.wire x.Extras

/-- Go: the JSON names of the fields of `HMOSNotification`, in field order. -/
def HMOSNotification.fields : List String :=
  ["alert", "title", "intent", "badge_add_num", "badge_set_num", "extras", "category",
    "test_message", "receipt_id", "large_icon", "style", "push_type"]

/-- Go: `json.Marshal` of a `HMOSNotification`: its fields in order, under their JSON names, a field
marked `omitempty` left out when it is empty. -/
def encodeHMOSNotification (x : HMOSNotification) : JSON :=
  .obj (members
    [("alert", some (.str x.Alert)),
     ("title", x.Title.map JSON.str),
     ("intent", x.Intent.map encodeIntent),
     ("badge_add_num", x.BadgeAddNum.map encodeInt),
     ("badge_set_num", x.BadgeSetNum.map encodeInt),
     ("extras", omitMap x.Extras),
     ("category", x.Category.map JSON.str),
     ("test_message", x.TestMessage.map JSON.bool),
     ("receipt_id", x.ReceiptID.map JSON.str),
     ("large_icon", x.LargeIcon.map JSON.str),
     ("style", x.Style.map encodeInt),
     ("push_type", x.PushType.map encodeInt)])

/-- Go: `json.Unmarshal` of the value of a member into the field of a `HMOSNotification` with the
JSON name `f`. -/
def HMOSNotification.setField (f : String) (v : JSON) (x : HMOSNotification) :
    Option HMOSNotification :=
  if f = "alert" then
    (decodeString v x.Alert).map (fun y => { x with Alert := y })
  else if f = "title" then
    (decodePtr decodeString "" v x.Title).map (fun y => { x with Title := y })
  else if f = "intent" then
    (decodePtr decodeIntent {} v x.Intent).map (fun y => { x with Intent := y })
  else if f = "badge_add_num" then
    (decodePtr decodeInt 0 v x.BadgeAddNum).map (fun y => { x with BadgeAddNum := y })
  else if f = "badge_set_num" then
    (decodePtr decodeInt 0 v x.BadgeSetNum).map (fun y => { x with BadgeSetNum := y })
  else if f = "extras" then
    (decodeAnyMap v x.Extras).map (fun y => { x with Extras := y })
  else if f = "category" then
    (decodePtr decodeString "" v x.Category).map (fun y => { x with Category := y })
  else if f = "test_message" then
    (decodePtr decodeBool false v x.TestMessage).map (fun y => { x with TestMessage := y })
  else if f = "receipt_id" then
    (decodePtr decodeString "" v x.ReceiptID).map (fun y => { x with ReceiptID := y })
  else if f = "large_icon" then
    (decodePtr decodeString "" v x.LargeIcon).map (fun y => { x with LargeIcon := y })
  else if f = "style" then
    (decodePtr decodeInt 0 v x.Style).map (fun y => { x with Style := y })
  else if f = "push_type" then
    (decodePtr decodeInt 0 v x.PushType).map (fun y => { x with PushType := y })
  else some x

/-- Go: `json.Unmarshal` of a value into a `HMOSNotification` variable. -/
def decodeHMOSNotification (v : JSON) (cur : HMOSNotification) : Option HMOSNotification :=
  decodeObject HMOSNotification.setField HMOSNotification.fields v cur

/-- Every field of the `HMOSNotification` is populated: each pointer and `interface` is set, each
slice, map and `omitempty` string is not empty, each `int` is one a Go `int` holds. -/
def HMOSNotification.populated (x : HMOSNotification) : Bool :=
  x.Title.isSome && ptrSet Intent.populated x.Intent && intPtrSet x.BadgeAddNum &&
    intPtrSet x.BadgeSetNum && !emptyMap x.Extras && x.Category.isSome &&
    x.TestMessage.isSome && x.ReceiptID.isSome && x.LargeIcon.isSome && intPtrSet x.Style &&
    intPtrSet x.PushType

/-- Every `interface` value and map of the `HMOSNotification` is one `json.Unmarshal` can give
back (`Any.wire`, `AnyMap.wire`). -/
def HMOSNotification.wire (x : HMOSNotification) : Prop :=
  AnyMap.wire x.Extras

/-- Go: the JSON names of the fields of `QuickAppNotification`, in field order. -/
def QuickAppNotification.fields : List String :=
  ["alert", "title", "page", "extras"]

/-- Go: `json.Marshal` of a `QuickAppNotification`: its fields in order, under their JSON names, a field
marked `omitempty` left out when it is empty. -/
def encodeQuickAppNotification (x : QuickAppNotification) : JSON :=
  .obj (members
    [("alert", some (.str x.Alert)),
     ("title", x.Title.map JSON.str),
     ("page", x.Page.map JSON.str),
     ("extras", omitMap x.Extras)])

/-- Go: `json.Unmarshal` of the value of a member into the field of a `QuickAppNotification` with the
JSON name `f`. -/
def QuickAppNotification.setField (f : String) (v : JSON) (x : QuickAppNotification) :
    Option QuickAppNotification :=
  if f = "alert" then
    (decodeString v x.Alert).map (fun y => { x with Alert := y })
  else if f = "title" then
    (decodePtr decodeString "" v x.Title).map (fun y => { x with Title := y })
  else if f = "page" then
    (decodePtr decodeString "" v x.Page).map (fun y => { x with Page := y })
  else if f = "extras" then
    (decodeAnyMap v x.Extras).map (fun y => { x with Extras := y })
  else some x

/-- Go: `json.Unmarshal` of a value into a `QuickAppNotification` variable. -/
def decodeQuickAppNotification (v : JSON) (cur : QuickAppNotification) : Option QuickAppNotification :=
  decodeObject QuickAppNotification.setField QuickAppNotification.fields v cur

/-- Every field of the `QuickAppNotification` is populated: each pointer and `interface` is set, each
slice, map and `omitempty` string is not empty, each `int` is one a Go `int` holds. -/
def QuickAppNotification.populated (x : QuickAppNotification) : Bool :=
  x.Title.isSome && x.Page.isSome && !emptyMap x.Extras

/-- Every `interface` value and map of the `QuickAppNotification` is one `json.Unmarshal` can give
back (`Any.wire`, `AnyMap.wire`). -/
def QuickAppNotification.wire (x : QuickAppNotification) : Prop :=
  AnyMap.wire x.Extras

/-- Go: the JSON names of the fields of `Notification`, in field order. -/
def Notification.fields : List String :=
  ["alert", "android", "ios", "hmos", "quickapp", "voip"]

/-- Go: `json.Marshal` of a `Notification`: its fields in order, under their JSON names, a field
marked `omitempty` left out when it is empty. -/
def encodeNotification (x : Notification) : JSON :=
  .obj (members
    [("alert", omitStr x.Alert),
     ("android", x.Android.map encodeAndroidNotification),
     ("ios", x.IOS.map encodeIOSNotification),
     ("hmos", x.HMOS.map encodeHMOSNotification),
     ("quickapp", x.QuickApp.map encodeQuickAppNotification),
     ("voip", omitMap x.VOIP)])

/-- Go: `json.Unmarshal` of the value of a member into the field of a `Notification` with the
JSON name `f`. -/
def Notification.setField (f : String) (v : JSON) (x : Notification) : Option Notification :=
  if f = "alert" then
    (decodeString v x.Alert).map (fun y => { x with Alert := y })
  else if f = "android" then
    (decodePtr decodeAndroidNotification {} v x.Android).map (fun y => { x with Android := y })
  else if f = "ios" then
    (decodePtr decodeIOSNotification {} v x.IOS).map (fun y => { x with IOS := y })
  else if f = "hmos" then
    (decodePtr decodeHMOSNotification {} v x.HMOS).map (fun y => { x with HMOS := y })
  else if f = "quickapp" then
    (decodePtr decodeQuickAppNotification {} v x.QuickApp).map (fun y => { x with QuickApp := y })
  else if f = "voip" then
    (decodeAnyMap v x.VOIP).map (fun y => { x with VOIP := y })
  else some x

/-- Go: `json.Unmarshal` of a value into a `Notification` variable. -/
def decodeNotification (v : JSON) (cur : Notification) : Option Notification :=
  decodeObject Notification.setField Notification.fields v cur

/-- Every field of the `Notification` is populated: each pointer and `interface` is set, each
slice, map and `omitempty` string is not empty, each `int` is one a Go `int` holds. -/
def Notification.populated (x : Notification) : Bool :=
  decide (x.Alert ≠ "") && ptrSet AndroidNotification.populated x.Android &&
    ptrSet IOSNotification.populated x.IOS && ptrSet HMOSNotification.populated x.HMOS &&
    ptrSet QuickAppNotification.populated x.QuickApp && !emptyMap x.VOIP

/-- Every `interface` value and map of the `Notification` is one `json.Unmarshal` can give
back (`Any.wire`, `AnyMap.wire`). -/
def Notification.wire (x : Notification) : Prop :=
  ptrAll AndroidNotification.wire x.Android ∧ ptrAll IOSNotification.wire x.IOS ∧
    ptrAll HMOSNotification.wire x.HMOS ∧ ptrAll QuickAppNotification.wire x.QuickApp ∧
    AnyMap.wire x.VOIP

/-- Go: the JSON names of the fields of `Message`, in field order. -/
def Message.fields : List String :=
  ["msg_content", "title", "content_type", "extras"]

/-- Go: `json.Marshal` of a `Message`: its fields in order, under their JSON names, a field
marked `omitempty` left out when it is empty. -/
def encodeMessage (x : Message) : JSON :=
  .obj (members
    [("msg_content", some (.str x.MsgContent)),
     ("title", x.Title.map JSON.str),
     ("content_type", x.ContentType.map JSON.str),
     ("extras", omitMap x.Extras)])

/-- Go: `json.Unmarshal` of the value of a member into the field of a `Message` with the
JSON name `f`. -/
def Message.setField (f : String) (v : JSON) (x : Message) : Option Message :=
  if f = "msg_content" then
    (decodeString v x.MsgContent).map (fun y => { x with MsgContent := y })
  else if f = "title" then
    (decodePtr decodeString "" v x.Title).map (fun y => { x with Title := y })
  else if f = "content_type" then
    (decodePtr decodeString "" v x.ContentType).map (fun y => { x with ContentType := y })
  else if f = "extras" then
    (decodeAnyMap v x.Extras).map (fun y => { x with Extras := y })
  else some x

/-- Go: `json.Unmarshal` of a value into a `Message` variable. -/
def decodeMessage (v : JSON) (cur : Message) : Option Message :=
  decodeObject Message.setField Message.fields v cur

/-- Every field of the `Message` is populated: each pointer and `interface` is set, each
slice, map and `omitempty` string is not empty, each `int` is one a Go `int` holds. -/
def Message.populated (x : Message) : Bool :=
  x.Title.isSome && x.ContentType.isSome && !emptyMap x.Extras

/-- Every `interface` value and map of the `Message` is one `json.Unmarshal` can give
back (`Any.wire`, `AnyMap.wire`). -/
def Message.wire (x : Message) : Prop :=
  AnyMap.wire x.Extras

/-- Go: the JSON names of the fields of `SMSMessage`, in field order. -/
def SMSMessage.fields : List String :=
  ["temp_id", "temp_para", "delay_time", "active_filter"]

/-- Go: `json.Marshal` of a `SMSMessage`: its fields in order, under their JSON names, a field
marked `omitempty` left out when it is empty. -/
def encodeSMSMessage (x : SMSMessage) : JSON :=
  .obj (members
    [("temp_id", some (encodeInt x.TempID)),
     ("temp_para", omitMap x.TempPara),
     ("delay_time", x.DelayTime.map encodeInt),
     ("active_filter", x.ActiveFilter.map JSON.bool)])

/-- Go: `json.Unmarshal` of the value of a member into the field of a `SMSMessage` with the
JSON name `f`. -/
def SMSMessage.setField (f : String) (v : JSON) (x : SMSMessage) : Option SMSMessage :=
  if f = "temp_id" then
    (decodeInt v x.TempID).map (fun y => { x with TempID := y })
  else if f = "temp_para" then
    (decodeAnyMap v x.TempPara).map (fun y => { x with TempPara := y })
  else if f = "delay_time" then
    (decodePtr decodeInt 0 v x.DelayTime).map (fun y => { x with DelayTime := y })
  else if f = "active_filter" then
    (decodePtr decodeBool false v x.ActiveFilter).map (fun y => { x with ActiveFilter := y })
  else some x

/-- Go: `json.Unmarshal` of a value into a `SMSMessage` variable. -/
def decodeSMSMessage (v : JSON) (cur : SMSMessage) : Option SMSMessage :=
  decodeObject SMSMessage.setField SMSMessage.fields v cur

/-- Every field of the `SMSMessage` is populated: each pointer and `interface` is set, each
slice, map and `omitempty` string is not empty, each `int` is one a Go `int` holds. -/
def SMSMessage.populated (x : SMSMessage) : Bool :=
  decide (fitsInt x.TempID) && !emptyMap x.TempPara && intPtrSet x.DelayTime &&
    x.ActiveFilter.isSome

/-- Every `interface` value and map of the `SMSMessage` is one `json.Unmarshal` can give
back (`Any.wire`, `AnyMap.wire`). -/
def SMSMessage.wire (x : SMSMessage) : Prop :=
  AnyMap.wire x.TempPara

/-- Go: the JSON names of the fields of `Options`, in field order. -/
def Options.fields : List String :=
  ["time_to_live", "apns_production", "apns_collapse_id", "big_push_duration"]

/-- Go: `json.Marshal` of a `Options`: its fields in order, under their JSON names, a field
marked `omitempty` left out when it is empty. -/
def encodeOptions (x : Options) : JSON :=
  .obj (members
    [("time_to_live", x.TimeToLive.map encodeInt),
     ("apns_production", x.APNSProduction.map JSON.bool),
     ("apns_collapse_id", x.APNSCollapseID.map JSON.str),
     ("big_push_duration", x.BigPushDuration.map encodeInt)])

/-- Go: `json.Unmarshal` of the value of a member into the field of a `Options` with the
JSON name `f`. -/
def Options.setField (f : String) (v : JSON) (x : Options) : Option Options :=
  if f = "time_to_live" then
    (decodePtr decodeInt 0 v x.TimeToLive).map (fun y => { x with TimeToLive := y })
  else if f = "apns_production" then
    (decodePtr decodeBool false v x.APNSProduction).map (fun y => { x with APNSProduction := y })
  else if f = "apns_collapse_id" then
    (decodePtr decodeString "" v x.APNSCollapseID).map (fun y => { x with APNSCollapseID := y })
  else if f = "big_push_duration" then
    (decodePtr decodeInt 0 v x.BigPushDuration).map (fun y => { x with BigPushDuration := y })
  else some x

/-- Go: `json.Unmarshal` of a value into a `Options` variable. -/
def decodeOptions (v : JSON) (cur : Options) : Option Options :=
  decodeObject Options.setField Options.fields v cur

/-- Every field of the `Options` is populated: each pointer and `interface` is set, each
slice, map and `omitempty` string is not empty, each `int` is one a Go `int` holds. -/
def Options.populated (x : Options) : Bool :=
  intPtrSet x.TimeToLive && x.APNSProduction.isSome && x.APNSCollapseID.isSome &&
    intPtrSet x.BigPushDuration

/-- Go: the JSON names of the fields of `Callback`, in field order. -/
def Callback.fields : List String :=
  ["url", "params", "type"]

/-- Go: `json.Marshal` of a `Callback`: its fields in order, under their JSON names, a field
marked `omitempty` left out when it is empty. -/
def encodeCallback (x : Callback) : JSON :=
  .obj (members
    [("url", some (.str x.URL)),
     ("params", omitMap x.Params),
     ("type", x.Type_.map encodeInt)])

/-- Go: `json.Unmarshal` of the value of a member into the field of a `Callback` with the
JSON name `f`. -/
def Callback.setField (f : String) (v : JSON) (x : Callback) : Option Callback :=
  if f = "url" then
    (decodeString v x.URL).map (fun y => { x with URL := y })
  else if f = "params" then
    (decodeAnyMap v x.Params).map (fun y => { x with Params := y })
  else if f = "type" then
    (decodePtr decodeInt 0 v x.Type_).map (fun y => { x with Type_ := y })
  else some x

/-- Go: `json.Unmarshal` of a value into a `Callback` variable. -/
def decodeCallback (v : JSON) (cur : Callback) : Option Callback :=
  decodeObject Callback.setField Callback.fields v cur

/-- Every field of the `Callback` is populated: each pointer and `interface` is set, each
slice, map and `omitempty` string is not empty, each `int` is one a Go `int` holds. -/
def Callback.populated (x : Callback) : Bool :=
  !emptyMap x.Params && intPtrSet x.Type_

/-- Every `interface` value and map of the `Callback` is one `json.Unmarshal` can give
back (`Any.wire`, `AnyMap.wire`). -/
def Callback.wire (x : Callback) : Prop :=
  AnyMap.wire x.Params

/-- Go: the JSON names of the fields of `PushRequest`, in field order. -/
def PushRequest.fields : List String :=
  ["platform", "audience", "notification", "message", "sms_message", "options", "callback", "cid"]

/-- Go: `json.Marshal` of a `PushRequest`: its fields in order, under their JSON names, a field
marked `omitempty` left out when it is empty. -/
def encodePushRequest (x : PushRequest) : JSON :=
  .obj (members
    [("platform", some (encodeAny x.Platform)),
     ("audience", some (encodePtr encodeAudience x.Audience)),
     ("notification", x.Notification.map encodeNotification),
     ("message", x.Message.map encodeMessage),
     ("sms_message", x.SMSMessage.map encodeSMSMessage),
     ("options", x.Options.map encodeOptions),
     ("callback", x.Callback.map encodeCallback),
     ("cid", x.CID.map JSON.str)])

/-- Go: `json.Unmarshal` of the value of a member into the field of a `PushRequest` with the
JSON name `f`. -/
def PushRequest.setField (f : String) (v : JSON) (x : PushRequest) : Option PushRequest :=
  if f = "platform" then
    (decodeAny v).map (fun y => { x with Platform := y })
  else if f = "audience" then
    (decodePtr decodeAudience {} v x.Audience).map (fun y => { x with Audience := y })
  else if f = "notification" then
    (decodePtr decodeNotification {} v x.Notification).map (fun y => { x with Notification := y })
  else if f = "message" then
    (decodePtr decodeMessage {} v x.Message).map (fun y => { x with Message := y })
  else if f = "sms_message" then
    (decodePtr decodeSMSMessage {} v x.SMSMessage).map (fun y => { x with SMSMessage := y })
  else if f = "options" then
    (decodePtr decodeOptions {} v x.Options).map (fun y => { x with Options := y })
  else if f = "callback" then
    (decodePtr decodeCallback {} v x.Callback).map (fun y => { x with Callback := y })
  else if f = "cid" then
    (decodePtr decodeString "" v x.CID).map (fun y => { x with CID := y })
  else some x

/-- Go: `json.Unmarshal` of a value into a `PushRequest` variable. -/
def decodePushRequest (v : JSON) (cur : PushRequest) : Option PushRequest :=
  decodeObject PushRequest.setField PushRequest.fields v cur

/-- Every field of the `PushRequest` is populated: each pointer and `interface` is set, each
slice, map and `omitempty` string is not empty, each `int` is one a Go `int` holds. -/
def PushRequest.populated (x : PushRequest) : Bool :=
  x.Platform.isSome && ptrSet Audience.populated x.Audience &&
    ptrSet Notification.populated x.Notification && ptrSet Message.populated x.Message &&
    ptrSet SMSMessage.populated x.SMSMessage && ptrSet Options.populated x.Options &&
    ptrSet Callback.populated x.Callback && x.CID.isSome

/-- Every `interface` value and map of the `PushRequest` is one `json.Unmarshal` can give
back (`Any.wire`, `AnyMap.wire`): at every depth it is nil, a string, a bool, a `float64`, a
`[]interface{}` that is not nil or a `map[string]interface{}` that is not nil. -/
def PushRequest.wire (x : PushRequest) : Prop :=
  Any.wire x.Platform ∧ ptrAll Notification.wire x.Notification ∧
    ptrAll Message.wire x.Message ∧ ptrAll SMSMessage.wire x.SMSMessage ∧
    ptrAll Callback.wire x.Callback


/-! ## client.go: NewClient -/

/-- Go: `type Config struct`; `Timeout` is a `time.Duration`, a count of nanoseconds. -/
structure Config where
  AppKey : String := ""
  MasterSecret : String := ""
  Logger : Option Logger := none
  Timeout : Int := 0

/-- Go: `func NewClient(config *Config) (*Client, error)` (client.go 37-76), for a config
that is not nil. `30 * time.Second` is 30000000000. -/
def NewClient (config : Config) : Option Client × Option JPushError :=
  if config.AppKey = "" then
    (none, some (NewJPushError ErrorCodeInvalidAppKey "AppKey不能为空"))
  else if config.MasterSecret = "" then
    (none, some (NewJPushError ErrorCodeMissingAuth "MasterSecret不能为空"))
  else
    match config.Logger with
    | none => (none, some (NewJPushError ErrorCodeInvalidParams "Logger不能为空"))
    | some logger =>
      let timeout := config.Timeout
      let timeout := if timeout = 0 then 30 * 1000000000 else timeout
      (some { appKey := config.AppKey, masterSecret := config.MasterSecret, logger := logger,
              timeout := timeout,
              baseURLs := [("push", "https://api.jpush.cn"), ("device", "https://device.jpush.cn"),
                ("report", "https://report.jpush.cn")] },
        none)

/-! ## advanced.go: ValidatePush and the file-push validator -/

/-- Go: `func (s *AdvancedService) validatePushRequest(req *PushRequest) error`
(advanced.go 205-219). -/
def AdvancedService.validatePushRequest (req : PushRequest) : Option JPushError :=
  if req.Platform.isNone then
    some (NewJPushError ErrorCodeInvalidParams "platform is required")
  else if req.Audience.isNone then
    some (NewJPushError ErrorCodeInvalidParams "audience is required")
  else if req.Notification.isNone ∧ req.Message.isNone then
    some (NewJPushError ErrorCodeInvalidParams "at least one of notification or message is required")
  else
    none

/-- Go: `func (s *AdvancedService) ValidatePush(req *PushRequest) (*PushResponse, error)`
(advanced.go 127-149). -/
def AdvancedService.ValidatePush (env : Env) (c : Client) (req : Option PushRequest) :
    Outcome PushResponse :=
  match req with
  | none =>
    { value := none, err := some (NewJPushError ErrorCodeInvalidParams "push request cannot be nil"),
      calls := [] }
  | some req =>
    match AdvancedService.validatePushRequest req with
    | some err => { value := none, err := some err, calls := [] }
    | none =>
      let r := makePushRequest env c "POST" "/v3/push/validate" (some (RequestBody.push req))
      match r.err with
      | some err => { value := none, err := some err, calls := r.calls }
      | none =>
        match r.value with
        | none => { value := none, err := none, calls := r.calls, nilDeref := true }
        | some resp =>
          match decodePushResponse resp.Body with
          | none =>
            { value := none,
              err := some (NewJPushError ErrorCodeInvalidJSON
                ("failed to parse push response: " ++ env.unmarshalErrorText resp.Body)),
              calls := r.calls }
          | some pushResp => { value := some pushResp, err := none, calls := r.calls }

/-- Go: `func (s *AdvancedService) validateFilePushRequest(req *FilePushRequest) error`
(advanced.go 222-240). `req.Audience == nil || req.Audience.File == nil` is the first two
cases of the inner `match`; the file id is read only after it. -/
def AdvancedService.validateFilePushRequest (req : FilePushRequest) : Option JPushError :=
  if req.Platform.isNone then
    some (NewJPushError ErrorCodeInvalidParams "platform is required")
  else
    match req.Audience.bind (fun a => a.File) with
    | none => some (NewJPushError ErrorCodeInvalidParams "file audience is required")
    | some file =>
      if file.FileID = "" then
        some (NewJPushError ErrorCodeInvalidParams "file_id is required")
      else if req.Notification.isNone ∧ req.Message.isNone then
        some (NewJPushError ErrorCodeInvalidParams
          "at least one of notification or message is required")
      else
        none

/-! ## report.go -/

/-- Go: `type ReceivedDetailResponse struct`. -/
structure ReceivedDetailResponse where
  MsgID : String := ""
  JPushReceived : Option Int := none
  AndroidPNSSent : Option Int := none
  AndroidPNSReceived : Option Int := none
  IOSAPNSSent : Option Int := none
  IOSAPNSReceived : Option Int := none
  IOSMsgReceived : Option Int := none
  LiveActivitySent : Option Int := none
  LiveActivityReceived : Option Int := none
  WPMPNSSent : Option Int := none
  QuickAppJPushReceived : Option Int := none
  QuickAppPNSSent : Option Int := none
  HMOSHMPNSReceived : Option Int := none
  HMOSHMPNSSent : Option Int := none
  HMOSMsgReceived : Option Int := none
  HMOSMsgSent : Option Int := none

/-- Go: the JSON names of the fields of `ReceivedDetailResponse`, in field order. -/
def ReceivedDetailResponse.fields : List String :=
  ["msg_id", "jpush_received", "android_pns_sent", "android_pns_received", "ios_apns_sent",
    "ios_apns_received", "ios_msg_received", "live_acivity_sent", "live_acivity_received",
    "wp_mpns_sent", "quickapp_jpush_received", "quickapp_pns_sent", "hmos_hmpns_received",
    "hmos_hmpns_sent", "hmos_msg_received", "hmos_msg_sent"]

/-- Go: `json.Unmarshal` of the value of a member into the field of a `ReceivedDetailResponse` with the
JSON name `f`. -/
def ReceivedDetailResponse.setField (f : String) (v : JSON) (x : ReceivedDetailResponse) :
    Option ReceivedDetailResponse :=
  if f = "msg_id" then
    (decodeString v x.MsgID).map (fun y => { x with MsgID := y })
  else if f = "jpush_received" then
    (decodePtr decodeInt 0 v x.JPushReceived).map (fun y => { x with JPushReceived := y })
  else if f = "android_pns_sent" then
    (decodePtr decodeInt 0 v x.AndroidPNSSent).map (fun y => { x with AndroidPNSSent := y })
  else if f = "android_pns_received" then
    (decodePtr decodeInt 0 v x.AndroidPNSReceived).map (fun y => { x with AndroidPNSReceived := y })
  else if f = "ios_apns_sent" then
    (decodePtr decodeInt 0 v x.IOSAPNSSent).map (fun y => { x with IOSAPNSSent := y })
  else if f = "ios_apns_received" then
    (decodePtr decodeInt 0 v x.IOSAPNSReceived).map (fun y => { x with IOSAPNSReceived := y })
  else if f = "ios_msg_received" then
    (decodePtr decodeInt 0 v x.IOSMsgReceived).map (fun y => { x with IOSMsgReceived := y })
  else if f = "live_acivity_sent" then
    (decodePtr decodeInt 0 v x.LiveActivitySent).map (fun y => { x with LiveActivitySent := y })
  else if f = "live_acivity_received" then
    (decodePtr decodeInt 0 v x.LiveActivityReceived).map (fun y => { x with LiveActivityReceived := y })
  else if f = "wp_mpns_sent" then
    (decodePtr decodeInt 0 v x.WPMPNSSent).map (fun y => { x with WPMPNSSent := y })
  else if f = "quickapp_jpush_received" then
    (decodePtr decodeInt 0 v x.QuickAppJPushReceived).map (fun y => { x with QuickAppJPushReceived := y })
  else if f = "quickapp_pns_sent" then
    (decodePtr decodeInt 0 v x.QuickAppPNSSent).map (fun y => { x with QuickAppPNSSent := y })
  else if f = "hmos_hmpns_received" then
    (decodePtr decodeInt 0 v x.HMOSHMPNSReceived).map (fun y => { x with HMOSHMPNSReceived := y })
  else if f = "hmos_hmpns_sent" then
    (decodePtr decodeInt 0 v x.HMOSHMPNSSent).map (fun y => { x with HMOSHMPNSSent := y })
  else if f = "hmos_msg_received" then
    (decodePtr decodeInt 0 v x.HMOSMsgReceived).map (fun y => { x with HMOSMsgReceived := y })
  else if f = "hmos_msg_sent" then
    (decodePtr decodeInt 0 v x.HMOSMsgSent).map (fun y => { x with HMOSMsgSent := y })
  else some x

/-- Go: `json.Unmarshal` of a value into a `ReceivedDetailResponse` variable. -/
def decodeReceivedDetailResponse (v : JSON) (cur : ReceivedDetailResponse) : Option ReceivedDetailResponse :=
  decodeObject ReceivedDetailResponse.setField ReceivedDetailResponse.fields v cur

/-- Go: `type ReceivedResponse struct`. -/
structure ReceivedResponse where
  MsgID : String := ""
  AndroidReceived : Option Int := none
  IOSAPNSSent : Option Int := none
  IOSAPNSReceived : Option Int := none
  IOSMsgReceived : Option Int := none
  WPMPNSSent : Option Int := none

/-- Go: the JSON names of the fields of `ReceivedResponse`, in field order. -/
def ReceivedResponse.fields : List String :=
  ["msg_id", "android_received", "ios_apns_sent", "ios_apns_received", "ios_msg_received",
    "wp_mpns_sent"]

/-- Go: `json.Unmarshal` of the value of a member into the field of a `ReceivedResponse` with the
JSON name `f`. -/
def ReceivedResponse.setField (f : String) (v : JSON) (x : ReceivedResponse) :
    Option ReceivedResponse :=
  if f = "msg_id" then
    (decodeString v x.MsgID).map (fun y => { x with MsgID := y })
  else if f = "android_received" then
    (decodePtr decodeInt 0 v x.AndroidReceived).map (fun y => { x with AndroidReceived := y })
  else if f = "ios_apns_sent" then
    (decodePtr decodeInt 0 v x.IOSAPNSSent).map (fun y => { x with IOSAPNSSent := y })
  else if f = "ios_apns_received" then
    (decodePtr decodeInt 0 v x.IOSAPNSReceived).map (fun y => { x with IOSAPNSReceived := y })
  else if f = "ios_msg_received" then
    (decodePtr decodeInt 0 v x.IOSMsgReceived).map (fun y => { x with IOSMsgReceived := y })
  else if f = "wp_mpns_sent" then
    (decodePtr decodeInt 0 v x.WPMPNSSent).map (fun y => { x with WPMPNSSent := y })
  else some x

/-- Go: `json.Unmarshal` of a value into a `ReceivedResponse` variable. -/
def decodeReceivedResponse (v : JSON) (cur : ReceivedResponse) : Option ReceivedResponse :=
  decodeObject ReceivedResponse.setField ReceivedResponse.fields v cur

/-- Go: `type MessageStatus struct`. -/
structure MessageStatus where
  Status : Int := 0

/-- Go: the JSON names of the fields of `MessageStatus`, in field order. -/
def MessageStatus.fields : List String :=
  ["status"]

/-- Go: `json.Unmarshal` of the value of a member into the field of a `MessageStatus` with the
JSON name `f`. -/
def MessageStatus.setField (f : String) (v : JSON) (x : MessageStatus) : Option MessageStatus :=
  if f = "status" then
    (decodeInt v x.Status).map (fun y => { x with Status := y })
  else some x

/-- Go: `json.Unmarshal` of a value into a `MessageStatus` variable. -/
def decodeMessageStatus (v : JSON) (cur : MessageStatus) : Option MessageStatus :=
  decodeObject MessageStatus.setField MessageStatus.fields v cur

/-- Go: `type ChannelStats struct`. -/
structure ChannelStats where
  Target : Int := 0
  Sent : Int := 0
  Received : Int := 0
  Display : Int := 0
  Click : Int := 0

/-- Go: the JSON names of the fields of `ChannelStats`, in field order. -/
def ChannelStats.fields : List String :=
  ["target", "sent", "received", "display", "click"]

/-- Go: `json.Unmarshal` of the value of a member into the field of a `ChannelStats` with the
JSON name `f`. -/
def ChannelStats.setField (f : String) (v : JSON) (x : ChannelStats) : Option ChannelStats :=
  if f = "target" then
    (decodeInt v x.Target).map (fun y => { x with Target := y })
  else if f = "sent" then
    (decodeInt v x.Sent).map (fun y => { x with Sent := y })
  else if f = "received" then
    (decodeInt v x.Received).map (fun y => { x with Received := y })
  else if f = "display" then
    (decodeInt v x.Display).map (fun y => { x with Display := y })
  else if f = "click" then
    (decodeInt v x.Click).map (fun y => { x with Click := y })
  else some x

/-- Go: `json.Unmarshal` of a value into a `ChannelStats` variable. -/
def decodeChannelStats (v : JSON) (cur : ChannelStats) : Option ChannelStats :=
  decodeObject ChannelStats.setField ChannelStats.fields v cur

/-- Go: `type AndroidSubChannels struct`. -/
structure AndroidSubChannels where
  JGAndroid : Option ChannelStats := none
  Huawei : Option ChannelStats := none
  Xiaomi : Option ChannelStats := none
  Oppo : Option ChannelStats := none
  Vivo : Option ChannelStats := none
  Meizu : Option ChannelStats := none
  FCM : Option ChannelStats := none
  Asus : Option ChannelStats := none
  Tuibida : Option ChannelStats := none
  Honor : Option ChannelStats := none
  Nio : Option ChannelStats := none

/-- Go: the JSON names of the fields of `AndroidSubChannels`, in field order. -/
def AndroidSubChannels.fields : List String :=
  ["jg_android", "huawei", "xiaomi", "oppo", "vivo", "meizu", "fcm", "asus", "tuibida", "honor",
    "nio"]

/-- Go: `json.Unmarshal` of the value of a member into the field of a `AndroidSubChannels` with the
JSON name `f`. -/
def AndroidSubChannels.setField (f : String) (v : JSON) (x : AndroidSubChannels) :
    Option AndroidSubChannels :=
  if f = "jg_android" then
    (decodePtr decodeChannelStats {} v x.JGAndroid).map (fun y => { x with JGAndroid := y })
  else if f = "huawei" then
    (decodePtr decodeChannelStats {} v x.Huawei).map (fun y => { x with Huawei := y })
  else if f = "xiaomi" then
    (decodePtr decodeChannelStats {} v x.Xiaomi).map (fun y => { x with Xiaomi := y })
  else if f = "oppo" then
    (decodePtr decodeChannelStats {} v x.Oppo).map (fun y => { x with Oppo := y })
  else if f = "vivo" then
    (decodePtr decodeChannelStats {} v x.Vivo).map (fun y => { x with Vivo := y })
  else if f = "meizu" then
    (decodePtr decodeChannelStats {} v x.Meizu).map (fun y => { x with Meizu := y })
  else if f = "fcm" then
    (decodePtr decodeChannelStats {} v x.FCM).map (fun y => { x with FCM := y })
  else if f = "asus" then
    (decodePtr decodeChannelStats {} v x.Asus).map (fun y => { x with Asus := y })
  else if f = "tuibida" then
    (decodePtr decodeChannelStats {} v x.Tuibida).map (fun y => { x with Tuibida := y })
  else if f = "honor" then
    (decodePtr decodeChannelStats {} v x.Honor).map (fun y => { x with Honor := y })
  else if f = "nio" then
    (decodePtr decodeChannelStats {} v x.Nio).map (fun y => { x with Nio := y })
  else some x

/-- Go: `json.Unmarshal` of a value into a `AndroidSubChannels` variable. -/
def decodeAndroidSubChannels (v : JSON) (cur : AndroidSubChannels) : Option AndroidSubChannels :=
  decodeObject AndroidSubChannels.setField AndroidSubChannels.fields v cur

/-- Go: `type IOSSubChannels struct`. -/
structure IOSSubChannels where
  VOIP : Option ChannelStats := none
  APNS : Option ChannelStats := none
  JGIOS : Option ChannelStats := none

/-- Go: the JSON names of the fields of `IOSSubChannels`, in field order. -/
def IOSSubChannels.fields : List String :=
  ["voip", "apns", "jg_ios"]

/-- Go: `json.Unmarshal` of the value of a member into the field of a `IOSSubChannels` with the
JSON name `f`. -/
def IOSSubChannels.setField (f : String) (v : JSON) (x : IOSSubChannels) : Option IOSSubChannels :=
  if f = "voip" then
    (decodePtr decodeChannelStats {} v x.VOIP).map (fun y => { x with VOIP := y })
  else if f = "apns" then
    (decodePtr decodeChannelStats {} v x.APNS).map (fun y => { x with APNS := y })
  else if f = "jg_ios" then
    (decodePtr decodeChannelStats {} v x.JGIOS).map (fun y => { x with JGIOS := y })
  else some x

/-- Go: `json.Unmarshal` of a value into a `IOSSubChannels` variable. -/
def decodeIOSSubChannels (v : JSON) (cur : IOSSubChannels) : Option IOSSubChannels :=
  decodeObject IOSSubChannels.setField IOSSubChannels.fields v cur

/-- Go: `type HMOSSubChannels struct`. -/
structure HMOSSubChannels where
  HMPNS : Option ChannelStats := none
  JGHMOS : Option ChannelStats := none

/-- Go: the JSON names of the fields of `HMOSSubChannels`, in field order. -/
def HMOSSubChannels.fields : List String :=
  ["hmpns", "jg_hmos"]

/-- Go: `json.Unmarshal` of the value of a member into the field of a `HMOSSubChannels` with the
JSON name `f`. -/
def HMOSSubChannels.setField (f : String) (v : JSON) (x : HMOSSubChannels) :
    Option HMOSSubChannels :=
  if f = "hmpns" then
    (decodePtr decodeChannelStats {} v x.HMPNS).map (fun y => { x with HMPNS := y })
  else if f = "jg_hmos" then
    (decodePtr decodeChannelStats {} v x.JGHMOS).map (fun y => { x with JGHMOS := y })
  else some x

/-- Go: `json.Unmarshal` of a value into a `HMOSSubChannels` variable. -/
def decodeHMOSSubChannels (v : JSON) (cur : HMOSSubChannels) : Option HMOSSubChannels :=
  decodeObject HMOSSubChannels.setField HMOSSubChannels.fields v cur

/-- Go: `type QuickAppSubChannels struct`. -/
structure QuickAppSubChannels where
  QuickJG : Option ChannelStats := none
  QuickHuawei : Option ChannelStats := none
  QuickXiaomi : Option ChannelStats := none
  QuickOppo : Option ChannelStats := none

/-- Go: the JSON names of the fields of `QuickAppSubChannels`, in field order. -/
def QuickAppSubChannels.fields : List String :=
  ["quick_jg", "quick_huawei", "quick_xiaomi", "quick_oppo"]

/-- Go: `json.Unmarshal` of the value of a member into the field of a `QuickAppSubChannels` with the
JSON name `f`. -/
def QuickAppSubChannels.setField (f : String) (v : JSON) (x : QuickAppSubChannels) :
    Option QuickAppSubChannels :=
  if f = "quick_jg" then
    (decodePtr decodeChannelStats {} v x.QuickJG).map (fun y => { x with QuickJG := y })
  else if f = "quick_huawei" then
    (decodePtr decodeChannelStats {} v x.QuickHuawei).map (fun y => { x with QuickHuawei := y })
  else if f = "quick_xiaomi" then
    (decodePtr decodeChannelStats {} v x.QuickXiaomi).map (fun y => { x with QuickXiaomi := y })
  else if f = "quick_oppo" then
    (decodePtr decodeChannelStats {} v x.QuickOppo).map (fun y => { x with QuickOppo := y })
  else some x

/-- Go: `json.Unmarshal` of a value into a `QuickAppSubChannels` variable. -/
def decodeQuickAppSubChannels (v : JSON) (cur : QuickAppSubChannels) : Option QuickAppSubChannels :=
  decodeObject QuickAppSubChannels.setField QuickAppSubChannels.fields v cur

/-- Go: `type NotificationStats struct`. -/
structure NotificationStats where
  Target : Int := 0
  Sent : Int := 0
  Received : Int := 0
  Display : Int := 0
  Click : Int := 0
  SubAndroid : Option AndroidSubChannels := none
  SubIOS : Option IOSSubChannels := none
  SubHMOS : Option HMOSSubChannels := none
  SubQuickApp : Option QuickAppSubChannels := none

/-- Go: the JSON names of the fields of `NotificationStats`, in field order. -/
def NotificationStats.fields : List String :=
  ["target", "sent", "received", "display", "click", "sub_android", "sub_ios", "sub_hmos",
    "sub_quickapp"]

/-- Go: `json.Unmarshal` of the value of a member into the field of a `NotificationStats` with the
JSON name `f`. -/
def NotificationStats.setField (f : String) (v : JSON) (x : NotificationStats) :
    Option NotificationStats :=
  if f = "target" then
    (decodeInt v x.Target).map (fun y => { x with Target := y })
  else if f = "sent" then
    (decodeInt v x.Sent).map (fun y => { x with Sent := y })
  else if f = "received" then
    (decodeInt v x.Received).map (fun y => { x with Received := y })
  else if f = "display" then
    (decodeInt v x.Display).map (fun y => { x with Display := y })
  else if f = "click" then
    (decodeInt v x.Click).map (fun y => { x with Click := y })
  else if f = "sub_android" then
    (decodePtr decodeAndroidSubChannels {} v x.SubAndroid).map (fun y => { x with SubAndroid := y })
  else if f = "sub_ios" then
    (decodePtr decodeIOSSubChannels {} v x.SubIOS).map (fun y => { x with SubIOS := y })
  else if f = "sub_hmos" then
    (decodePtr decodeHMOSSubChannels {} v x.SubHMOS).map (fun y => { x with SubHMOS := y })
  else if f = "sub_quickapp" then
    (decodePtr decodeQuickAppSubChannels {} v x.SubQuickApp).map (fun y => { x with SubQuickApp := y })
  else some x

/-- Go: `json.Unmarshal` of a value into a `NotificationStats` variable. -/
def decodeNotificationStats (v : JSON) (cur : NotificationStats) : Option NotificationStats :=
  decodeObject NotificationStats.setField NotificationStats.fields v cur

/-- Go: `type MessageStats struct`. -/
structure MessageStats where
  Target : Int := 0
  Sent : Int := 0
  Received : Int := 0
  Display : Int := 0
  Click : Int := 0
  SubAndroid : Option AndroidSubChannels := none
  SubIOS : Option IOSSubChannels := none
  SubHMOS : Option HMOSSubChannels := none
  SubQuickApp : Option QuickAppSubChannels := none

/-- Go: the JSON names of the fields of `MessageStats`, in field order. -/
def MessageStats.fields : List String :=
  ["target", "sent", "received", "display", "click", "sub_android", "sub_ios", "sub_hmos",
    "sub_quickapp"]

/-- Go: `json.Unmarshal` of the value of a member into the field of a `MessageStats` with the
JSON name `f`. -/
def MessageStats.setField (f : String) (v : JSON) (x : MessageStats) : Option MessageStats :=
  if f = "target" then
    (decodeInt v x.Target).map (fun y => { x with Target := y })
  else if f = "sent" then
    (decodeInt v x.Sent).map (fun y => { x with Sent := y })
  else if f = "received" then
    (decodeInt v x.Received).map (fun y => { x with Received := y })
  else if f = "display" then
    (decodeInt v x.Display).map (fun y => { x with Display := y })
  else if f = "click" then
    (decodeInt v x.Click).map (fun y => { x with Click := y })
  else if f = "sub_android" then
    (decodePtr decodeAndroidSubChannels {} v x.SubAndroid).map (fun y => { x with SubAndroid := y })
  else if f = "sub_ios" then
    (decodePtr decodeIOSSubChannels {} v x.SubIOS).map (fun y => { x with SubIOS := y })
  else if f = "sub_hmos" then
    (decodePtr decodeHMOSSubChannels {} v x.SubHMOS).map (fun y => { x with SubHMOS := y })
  else if f = "sub_quickapp" then
    (decodePtr decodeQuickAppSubChannels {} v x.SubQuickApp).map (fun y => { x with SubQuickApp := y })
  else some x

/-- Go: `json.Unmarshal` of a value into a `MessageStats` variable. -/
def decodeMessageStats (v : JSON) (cur : MessageStats) : Option MessageStats :=
  decodeObject MessageStats.setField MessageStats.fields v cur

/-- Go: `type InAppStats struct`. -/
structure InAppStats where
  Target : Int := 0
  Sent : Int := 0
  Received : Int := 0
  Display : Int := 0
  Click : Int := 0
  SubAndroid : Option AndroidSubChannels := none
  SubIOS : Option IOSSubChannels := none

/-- Go: the JSON names of the fields of `InAppStats`, in field order. -/
def InAppStats.fields : List String :=
  ["target", "sent", "received", "display", "click", "sub_android", "sub_ios"]

/-- Go: `json.Unmarshal` of the value of a member into the field of a `InAppStats` with the
JSON name `f`. -/
def InAppStats.setField (f : String) (v : JSON) (x : InAppStats) : Option InAppStats :=
  if f = "target" then
    (decodeInt v x.Target).map (fun y => { x with Target := y })
  else if f = "sent" then
    (decodeInt v x.Sent).map (fun y => { x with Sent := y })
  else if f = "received" then
    (decodeInt v x.Received).map (fun y => { x with Received := y })
  else if f = "display" then
    (decodeInt v x.Display).map (fun y => { x with Display := y })
  else if f = "click" then
    (decodeInt v x.Click).map (fun y => { x with Click := y })
  else if f = "sub_android" then
    (decodePtr decodeAndroidSubChannels {} v x.SubAndroid).map (fun y => { x with SubAndroid := y })
  else if f = "sub_ios" then
    (decodePtr decodeIOSSubChannels {} v x.SubIOS).map (fun y => { x with SubIOS := y })
  else some x

/-- Go: `json.Unmarshal` of a value into a `InAppStats` variable. -/
def decodeInAppStats (v : JSON) (cur : InAppStats) : Option InAppStats :=
  decodeObject InAppStats.setField InAppStats.fields v cur

/-- Go: `type MessageDetailStats struct`. -/
structure MessageDetailStats where
  Notification : Option NotificationStats := none
  Message : Option MessageStats := none
  InApp : Option InAppStats := none

/-- Go: the JSON names of the fields of `MessageDetailStats`, in field order. -/
def MessageDetailStats.fields : List String :=
  ["notification", "message", "inapp"]

/-- Go: `json.Unmarshal` of the value of a member into the field of a `MessageDetailStats` with the
JSON name `f`. -/
def MessageDetailStats.setField (f : String) (v : JSON) (x : MessageDetailStats) :
    Option MessageDetailStats :=
  if f = "notification" then
    (decodePtr decodeNotificationStats {} v x.Notification).map (fun y => { x with Notification := y })
  else if f = "message" then
    (decodePtr decodeMessageStats {} v x.Message).map (fun y => { x with Message := y })
  else if f = "inapp" then
    (decodePtr decodeInAppStats {} v x.InApp).map (fun y => { x with InApp := y })
  else some x

/-- Go: `json.Unmarshal` of a value into a `MessageDetailStats` variable. -/
def decodeMessageDetailStats (v : JSON) (cur : MessageDetailStats) : Option MessageDetailStats :=
  decodeObject MessageDetailStats.setField MessageDetailStats.fields v cur

/-- Go: `type MessageDetailResponse struct`. -/
structure MessageDetailResponse where
  MsgID : String := ""
  Details : Option MessageDetailStats := none

/-- Go: the JSON names of the fields of `MessageDetailResponse`, in field order. -/
def MessageDetailResponse.fields : List String :=
  ["msg_id", "details"]

/-- Go: `json.Unmarshal` of the value of a member into the field of a `MessageDetailResponse` with the
JSON name `f`. -/
def MessageDetailResponse.setField (f : String) (v : JSON) (x : MessageDetailResponse) :
    Option MessageDetailResponse :=
  if f = "msg_id" then
    (decodeString v x.MsgID).map (fun y => { x with MsgID := y })
  else if f = "details" then
    (decodePtr decodeMessageDetailStats {} v x.Details).map (fun y => { x with Details := y })
  else some x

/-- Go: `json.Unmarshal` of a value into a `MessageDetailResponse` variable. -/
def decodeMessageDetailResponse (v : JSON) (cur : MessageDetailResponse) : Option MessageDetailResponse :=
  decodeObject MessageDetailResponse.setField MessageDetailResponse.fields v cur

/-- Go: `type MessageStatusResponse map[string]MessageStatus`; `none` is the nil map. -/
abbrev MessageStatusResponse := Option (List (String × MessageStatus))

/-- Go: `json.Marshal(resp.Body)` on the `map[string]interface{}` of a response, as a JSON
value: the nil map is written as `null`, a map as an object with its members in key order.
A `float64` is written as the shortest literal that is read back as that `float64`, and a
number of the value given here is that `float64`. -/
def marshalResponseBody (body : JSONMap) : JSON :=
  match body with
  | none => .null
  | some kvs => (JSON.obj kvs).marshalForm

/-- Go: `json.Unmarshal` of one value into a `[]T` variable that is nil: `null` leaves the
nil slice, an array gives a slice of its length with each element decoded from the zero
value, any other value (an object among them) is an `UnmarshalTypeError` (`none`). -/
def decodeSlice {τ : Type} (dec : JSON → τ → Option τ) (zero : τ) (v : JSON) :
    Option (Slice τ) :=
  match v with
  | .null => some none
  | .arr xs => (xs.mapM (fun x => dec x zero)).map some
  | _ => none

/-- Go: `json.Unmarshal` of one value into a `MessageStatusResponse` variable that is nil:
`null` leaves the nil map, an object whose keys are distinct (as `json.Marshal` writes
them) gives a map with one entry for each member, decoded from the zero value; any other
value, or a member that cannot be decoded, is an error (`none`). -/
def decodeMessageStatusResponse (v : JSON) : Option MessageStatusResponse :=
  match v with
  | .null => some none
  | .obj kvs =>
    (kvs.mapM (fun e => (decodeMessageStatus e.2 {}).map (fun st => (e.1, st)))).map some
  | _ => none

/-- Go: `func (c *Client) makeReportRequest(method, path string, body interface{})`
(client.go). -/
def makeReportRequest (env : Env) (c : Client) (method path : String)
    (body : Option RequestBody) : Outcome APIResponse :=
  makeRequestWithoutContext env c method (c.baseURL "report") path body

/-- Go: the part the three list operations of report.go share after the length checks:
`makeReportRequest(http.MethodGet, url, nil)`, then `json.Marshal(resp.Body)` and
`json.Unmarshal(bodyBytes, &v)` with `v` a nil `[]T`. `what` is the word in the error
message. A slice result is an `Outcome` whose `value` is the slice (`none` is nil). -/
def reportList {τ : Type} (env : Env) (c : Client) (dec : JSON → τ → Option τ) (zero : τ)
    (url what : String) : Outcome (List τ) :=
  let r := makeReportRequest env c "GET" url none
  match r.err with
  | some err => { value := none, err := some err, calls := r.calls }
  | none =>
    match r.value with
    | none => { value := none, err := none, calls := r.calls, nilDeref := true }
    | some resp =>
      match decodeSlice dec zero (marshalResponseBody resp.Body) with
      | none =>
        { value := none,
          err := some (NewJPushError ErrorCodeInvalidJSON
            ("failed to parse " ++ what ++ " response: " ++ env.unmarshalErrorText resp.Body)),
          calls := r.calls }
      | some v => { value := v, err := none, calls := r.calls }

/-- Go: `func (s *ReportService) GetReceivedDetail(msgIDs []string)
([]ReceivedDetailResponse, error)` (report.go 157-181). `strings.Join` is
`String.intercalate`. -/
def ReportService.GetReceivedDetail (env : Env) (c : Client) (msgIDs : Slice String) :
    Outcome (List ReceivedDetailResponse) :=
  if len msgIDs = 0 then
    { value := none, err := some (NewJPushError ErrorCodeInvalidParams "msg_ids cannot be empty"),
      calls := [] }
  else if len msgIDs > 100 then
    { value := none, err := some (NewJPushError ErrorCodeInvalidParams "msg_ids cannot exceed 100"),
      calls := [] }
  else
    let url := "/v3/received/detail?msg_ids=" ++ String.intercalate "," (msgIDs.getD [])
    reportList env c decodeReceivedDetailResponse {} url "received detail"

/-- Go: `func (s *ReportService) GetReceived(msgIDs []string) ([]ReceivedResponse, error)`
(report.go 185-209). -/
def ReportService.GetReceived (env : Env) (c : Client) (msgIDs : Slice String) :
    Outcome (List ReceivedResponse) :=
  if len msgIDs = 0 then
    { value := none, err := some (NewJPushError ErrorCodeInvalidParams "msg_ids cannot be empty"),
      calls := [] }
  else if len msgIDs > 100 then
    { value := none, err := some (NewJPushError ErrorCodeInvalidParams "msg_ids cannot exceed 100"),
      calls := [] }
  else
    let url := "/v3/received?msg_ids=" ++ String.intercalate "," (msgIDs.getD [])
    reportList env c decodeReceivedResponse {} url "received"

/-- Go: `func (s *ReportService) GetMessageDetail(msgIDs []string)
([]MessageDetailResponse, error)` (report.go 246-270). -/
def ReportService.GetMessageDetail (env : Env) (c : Client) (msgIDs : Slice String) :
    Outcome (List MessageDetailResponse) :=
  if len msgIDs = 0 then
    { value := none, err := some (NewJPushError ErrorCodeInvalidParams "msg_ids cannot be empty"),
      calls := [] }
  else if len msgIDs > 100 then
    { value := none, err := some (NewJPushError ErrorCodeInvalidParams "msg_ids cannot exceed 100"),
      calls := [] }
  else
    let url := "/v3/messages/detail?msg_ids=" ++ String.intercalate "," (msgIDs.getD [])
    reportList env c decodeMessageDetailResponse {} url "message detail"

/-- Go: `func (s *ReportService) GetMessageStatus(req *MessageStatusRequest)
(MessageStatusResponse, error)` (report.go 212-242). The result map is the `value` of the
`Outcome` (`none` is the nil map). -/
def ReportService.GetMessageStatus (env : Env) (c : Client) (req : Option MessageStatusRequest) :
    Outcome (List (String × MessageStatus)) :=
  match req with
  | none =>
    { value := none, err := some (NewJPushError ErrorCodeInvalidParams "request cannot be nil"),
      calls := [] }
  | some req =>
    if req.MsgID = 0 then
      { value := none, err := some (NewJPushError ErrorCodeInvalidParams "msg_id is required"),
        calls := [] }
    else if len req.RegistrationIDs = 0 then
      { value := none,
        err := some (NewJPushError ErrorCodeInvalidParams "registration_ids cannot be empty"),
        calls := [] }
    else if len req.RegistrationIDs > 1000 then
      { value := none,
        err := some (NewJPushError ErrorCodeInvalidParams "registration_ids cannot exceed 1000"),
        calls := [] }
    else
      let r := makeReportRequest env c "POST" "/v3/status/message"
        (some (RequestBody.messageStatus req))
      match r.err with
      | some err => { value := none, err := some err, calls := r.calls }
      | none =>
        match r.value with
        | none => { value := none, err := none, calls := r.calls, nilDeref := true }
        | some resp =>
          match decodeMessageStatusResponse (marshalResponseBody resp.Body) with
          | none =>
            { value := none,
              err := some (NewJPushError ErrorCodeInvalidJSON
                ("failed to parse message status response: " ++
                  env.unmarshalErrorText resp.Body)),
              calls := r.calls }
          | some statusResp => { value := statusResp, err := none, calls := r.calls }

/-! ## advanced.go: CancelPush and PushByFile -/

/-- Go: `func (s *AdvancedService) CancelPush(msgID string) error` (advanced.go 153-161).
The result has no value; `fmt.Sprintf("/v3/push/%s", msgID)` appends the id. -/
def AdvancedService.CancelPush (env : Env) (c : Client) (msgID : String) : Outcome Unit :=
  if msgID = "" then
    { value := none,
      err := some (NewJPushError ErrorCodeInvalidParams "message ID cannot be empty"),
      calls := [] }
  else
    let url := "/v3/push/" ++ msgID
    let r := makePushRequest env c "DELETE" url none
    { value := none, err := r.err, calls := r.calls }

/-- Go: `func (s *AdvancedService) PushByFile(req *FilePushRequest) (*PushResponse, error)`
(advanced.go 180-203). -/
def AdvancedService.PushByFile (env : Env) (c : Client) (req : Option FilePushRequest) :
    Outcome PushResponse :=
  match req with
  | none =>
    { value := none,
      err := some (NewJPushError ErrorCodeInvalidParams "file push request cannot be nil"),
      calls := [] }
  | some req =>
    match AdvancedService.validateFilePushRequest req with
    | some err => { value := none, err := some err, calls := [] }
    | none =>
      let r := makePushRequest env c "POST" "/v3/push/file" (some (RequestBody.filePush req))
      match r.err with
      | some err => { value := none, err := some err, calls := r.calls }
      | none =>
        match r.value with
        | none => { value := none, err := none, calls := r.calls, nilDeref := true }
        | some resp =>
          match decodePushResponse resp.Body with
          | none =>
            { value := none,
              err := some (NewJPushError ErrorCodeInvalidJSON
                ("failed to parse file push response: " ++ env.unmarshalErrorText resp.Body)),
              calls := r.calls }
          | some pushResp => { value := some pushResp, err := none, calls := r.calls }

/-! ## Vocabulary of the statements -/

/-- The exchange for `method`, `url` and `body` takes place and the reply is read in full:
the body is serialized, the request is built, and `Do` and `ReadAll` yield `statusCode`,
`headers` and `respBody`. -/
def Answers (env : Env) (c : Client) (method url : String) (body : Option RequestBody)
    (statusCode : Int) (headers : List (String × List String)) (respBody : ResponseBody) : Prop :=
  ∃ reqBody, marshalBody env body = some reqBody ∧ env.newRequest method url = true ∧
    env.send c.timeout (buildRequest env c method url reqBody) =
      .response statusCode headers respBody

/-- Every list-typed selector of the audience is within its ceiling. -/
def withinCeilings (a : Audience) : Prop :=
  len a.Tag ≤ 20 ∧ len a.TagAnd ≤ 20 ∧ len a.TagNot ≤ 20 ∧ len a.Alias ≤ 1000 ∧
    len a.RegistrationID ≤ 1000 ∧ len a.Segment ≤ 1 ∧ len a.ABTest ≤ 1

/-- A target family other than the live-activity id is set. -/
def otherTarget (a : Audience) : Prop :=
  a.All.isSome ∨ len a.Tag > 0 ∨ len a.TagAnd > 0 ∨ len a.TagNot > 0 ∨ len a.Alias > 0 ∨
    len a.RegistrationID > 0 ∨ len a.Segment > 0 ∨ len a.ABTest > 0

instance (a : Audience) : Decidable (withinCeilings a) := by
  unfold withinCeilings
  infer_instance

instance (a : Audience) : Decidable (otherTarget a) := by
  unfold otherTarget
  infer_instance

/-- The list-typed selectors of an audience: length and ceiling of each. -/
def listSelectors (a : Audience) : List (Nat × Nat) :=
  [(len a.Tag, 20), (len a.TagAnd, 20), (len a.TagNot, 20), (len a.Alias, 1000),
    (len a.RegistrationID, 1000), (len a.Segment, 1), (len a.ABTest, 1)]

/-- A test double: `json.Marshal` succeeds, every request can be built, and the server
answers every request with the given status and body. -/
def stubEnv (statusCode : Int) (respBody : ResponseBody) : Env where
  jsonMarshal := fun _ => some "request"
  base64 := fun s => s
  newRequest := fun _ _ => true
  send := fun _ _ => .response statusCode [] respBody
  rangeOrder := fun m => m
  rangeOrder_perm := fun m => List.Perm.refl m
  unmarshalErrorText := fun _ => "json: cannot unmarshal"

/-- The request of `TestPushService_Push`. -/
def testPushRequest : Option PushRequest :=
  some { Platform := some AllPlatform.GetPlatforms, Audience := some { All := some "all" },
         Notification := some { Alert := "Test notification" } }

/-- The client of the tests, with the base URLs `NewClient` installs. -/
def testClient : Client where
  appKey := "test-key"
  masterSecret := "test-secret"
  timeout := 30000000000
  baseURLs := [("push", "https://api.jpush.cn"), ("device", "https://device.jpush.cn"),
    ("report", "https://report.jpush.cn")]

/-- The path and query `GetCID` requests for a count above zero (advanced.go 96-110). -/
def cidPath (env : Env) (count : Int) (cidType : String) : String :=
  let params : List (String × String) := [("count", toString count)]
  let params := if cidType ≠ "" then params ++ [("type", cidType)] else params
  let url := "/v3/push/cid"
  if params.length > 0 then
    let paramPairs := (env.rangeOrder params).map (fun kv => kv.1 ++ "=" ++ kv.2)
    url ++ "?" ++ String.intercalate "&" paramPairs
  else url

/-- The rules of the push validator, one by one, in the order the specification lists them.
Each gives its violation as the code reports it, and `none` when it holds or has nothing to
check (a rule on a field of a nil request, a validator of an absent part). -/
def ruleRequest (req : Option PushRequest) : Option JPushError :=
  if req.isNone then some (NewJPushError ErrorCodeInvalidParams "推送请求不能为空") else none

/-- Rule 2: the platform is present. -/
def rulePlatform (req : Option PushRequest) : Option JPushError :=
  match req with
  | some r =>
    if r.Platform.isNone then some (NewJPushError ErrorCodeInvalidPlatform "推送平台不能为空")
    else none
  | none => none

/-- Rule 3: the audience is present. -/
def ruleAudiencePresent (req : Option PushRequest) : Option JPushError :=
  match req with
  | some r =>
    if r.Audience.isNone then some (NewJPushError ErrorCodeInvalidAudience "推送目标不能为空")
    else none
  | none => none

/-- Rule 4: the audience validator. -/
def ruleAudience (req : Option PushRequest) : Option JPushError :=
  match req.bind (fun r => r.Audience) with
  | some audience => PushService.validateAudience audience
  | none => none

/-- Rule 5: a notification or a message is present. -/
def ruleContent (req : Option PushRequest) : Option JPushError :=
  match req with
  | some r =>
    if r.Notification.isNone ∧ r.Message.isNone then
      some (NewJPushError ErrorCodeInvalidParams "通知和消息至少需要有一个")
    else none
  | none => none

/-- Rule 6: the notification validator, if a notification is present. -/
def ruleNotification (req : Option PushRequest) : Option JPushError :=
  match req.bind (fun r => r.Notification) with
  | some notification => PushService.validateNotification notification
  | none => none

/-- Rule 7: the message validator, if a message is present. -/
def ruleMessage (req : Option PushRequest) : Option JPushError :=
  match req.bind (fun r => r.Message) with
  | some message => PushService.validateMessage message
  | none => none

/-- The seven rules in order. -/
def pushRules : List (Option PushRequest → Option JPushError) :=
  [ruleRequest, rulePlatform, ruleAudiencePresent, ruleAudience, ruleContent, ruleNotification,
    ruleMessage]

/-- The first violated rule of `pushRules`, if any. -/
def firstViolation (req : Option PushRequest) : Option JPushError :=
  pushRules.findSome? (fun rule => rule req)

/-- A required part of a push request is missing: the request itself, its platform, its
audience, or both its notification and its message. -/
def presenceViolated (req : Option PushRequest) : Prop :=
  match req with
  | none => True
  | some r => r.Platform = none ∨ r.Audience = none ∨ (r.Notification = none ∧ r.Message = none)

/-- At least one of the parts `validateNotification` looks at is populated. -/
def notificationPopulated (n : Notification) : Prop :=
  n.Alert ≠ "" ∨ n.Android.isSome ∨ n.IOS.isSome ∨ n.HMOS.isSome ∨ n.QuickApp.isSome

/-- The file-push request has what `validateFilePushRequest` asks for: a platform, an
audience that is a file reference with a file id that is not empty, and a notification or a
message. -/
def filePushAccepted (req : FilePushRequest) : Prop :=
  req.Platform.isSome ∧
    (∃ a file, req.Audience = some a ∧ a.File = some file ∧ file.FileID ≠ "") ∧
    (req.Notification.isSome ∨ req.Message.isSome)

/-- A test double for a server that cannot be reached: `httpClient.Do` returns an error. -/
def downEnv : Env where
  jsonMarshal := fun _ => some "request"
  base64 := fun s => s
  newRequest := fun _ _ => true
  send := fun _ _ => .doError
  rangeOrder := fun m => m
  rangeOrder_perm := fun m => List.Perm.refl m
  unmarshalErrorText := fun _ => "json: cannot unmarshal"

/-- A test double for a server that starts its response and does not complete it:
`httpClient.Do` returns the response (the header has arrived), and `io.ReadAll` on its body
returns an error (the connection breaks, or the client timeout expires, while the body is
read). -/
def stalledEnv : Env where
  jsonMarshal := fun _ => some "request"
  base64 := fun s => s
  newRequest := fun _ _ => true
  send := fun _ _ => .readError
  rangeOrder := fun m => m
  rangeOrder_perm := fun m => List.Perm.refl m
  unmarshalErrorText := fun _ => "json: cannot unmarshal"

/-- A fully populated push request, with the given platform and the given `Extras` of its
message: every pointer, slice, map and `interface` field is set. -/
def fullPushRequest (platform : Any) (extras : AnyMap) : PushRequest :=
  { Platform := some platform,
    Audience := some
      { All := some "all", Tag := some ["tag1", "tag2"], TagAnd := some ["tag3"],
        TagNot := some ["tag4"], Alias := some ["alias1"], RegistrationID := some ["reg1"],
        Segment := some ["seg1"], ABTest := some ["test_id_123"], LiveActivityID := some "la1" },
    Notification := some
      { Alert := "Global alert",
        Android := some
          { Alert := "Android alert", Title := some "Android title", BuilderID := some 1,
            ChannelID := some "channel", Category := some "test", Priority := some 1,
            Style := some 1, AlertType := some 1, BigText := some "Big text content",
            Inbox := some [("line1", some (.string "Inbox line 1")),
              ("line2", some (.string "Inbox line 2"))],
            BigPicPath := some "http://example.com/pic.jpg", LargeIcon := some "icon",
            Intent := some { URL := "intent:#Intent;end" },
            Extras := some [("key1", some (.string "value1"))] },
        IOS := some
          { Alert := some (.map [("body", .str "iOS body"), ("title", .str "iOS title")]),
            Sound := some "default", Badge := some (.string "+1"), ContentAvailable := some true,
            MutableContent := some true, Category := some "test_category",
            ThreadID := some "thread_123",
            Extras := some [("ios_key", some (.string "ios_value"))] },
        HMOS := some
          { Alert := "HMOS alert", Title := some "HMOS title",
            Intent := some { URL := "scheme://test" }, BadgeAddNum := some 1,
            BadgeSetNum := some 2, Extras := some [("hmos_key", some (.bool true))],
            Category := some "IM", TestMessage := some false, ReceiptID := some "receipt",
            LargeIcon := some "icon", Style := some 0, PushType := some 0 },
        QuickApp := some
          { Alert := "QuickApp alert", Title := some "QuickApp title", Page := some "/page",
            Extras := some [("quick_key", some (.float64 2))] },
        VOIP := some [("key", some (.string "value"))] },
    Message := some
      { MsgContent := "Test message", Title := some "Test title", ContentType := some "text",
        Extras := extras },
    SMSMessage := some
      { TempID := 1250, TempPara := some [("code", some (.string "123456"))],
        DelayTime := some 3600, ActiveFilter := some false },
    Options := some
      { TimeToLive := some 3600, APNSProduction := some false,
        APNSCollapseID := some "collapse_id", BigPushDuration := some 60 },
    Callback := some
      { URL := "http://example.com/callback", Params := some [("name", some (.string "joe"))],
        Type_ := some 3 },
    CID := some "cid-1" }

/-- The file-push request lacks something `PushByFile` asks for: it is nil, its platform is
nil, its audience or the file of its audience is nil, the file id is the empty string, or
both its notification and its message are nil. -/
def filePushViolated (req : Option FilePushRequest) : Prop :=
  match req with
  | none => True
  | some r =>
    r.Platform = none ∨ r.Audience = none ∨ (∃ a, r.Audience = some a ∧ a.File = none) ∨
      (∃ a file, r.Audience = some a ∧ a.File = some file ∧ file.FileID = "") ∨
      (r.Notification = none ∧ r.Message = none)

/-- The status request lacks something `GetMessageStatus` asks for: it is nil, its `MsgID`
is 0, or it has no registration id, or more than 1000 of them. -/
def messageStatusViolated (req : Option MessageStatusRequest) : Prop :=
  match req with
  | none => True
  | some r => r.MsgID = 0 ∨ len r.RegistrationIDs = 0 ∨ len r.RegistrationIDs > 1000

/-- The operation failed before any request was sent, with `ErrorCodeInvalidParams`: the
outcome of a local check that did not pass. -/
def rejectedLocally {α : Type} (r : Outcome α) : Prop :=
  ∃ e, r.err = some e ∧ e.Code = ErrorCodeInvalidParams ∧ r.calls = []

/-- The requests a transport call for `method` and `url` without a body passes to
`httpClient.Do`: the one request with the three headers, or none when
`http.NewRequestWithContext` fails. -/
def requestsSent (env : Env) (c : Client) (method url : String) : List HTTPRequest :=
  if env.newRequest method url = true then [buildRequest env c method url none] else []

/-- Go: `strings.Contains(s, substr)`, which is what `assert.Contains` checks on strings. -/
def Contains (s substr : String) : Prop := substr.data <:+: s.data

/-- A test double in which `http.NewRequestWithContext` fails as `url.Parse` makes it fail
on a URL with an ASCII control character (a byte below 0x20, or 0x7F); every request that
can be built is answered with status 200 and no body. -/
def strictEnv : Env where
  jsonMarshal := fun _ => some "request"
  base64 := fun s => s
  newRequest := fun _ url => !(url.data.any (fun ch => ch.toNat < 0x20 || ch.toNat == 0x7F))
  send := fun _ _ => .response 200 [] .empty
  rangeOrder := fun m => m
  rangeOrder_perm := fun m => List.Perm.refl m
  unmarshalErrorText := fun _ => "json: cannot unmarshal"

/-- The body of the reply in `TestReportService_GetReceivedDetail`: an array with one
record. -/
def receivedDetailTestBody : ResponseBody :=
  .json (.arr [.obj [("msg_id", .str "123"), ("target", .num 100), ("received", .num 95)]])

/-- The value of a JSON text that is an object with one member `error`, an object with the
members `code` (a number literal of value `code`) and `message` (a string). -/
def embeddedErrorText (code : ℚ) (message : String) : JSON :=
  .obj [("error", .obj [("code", .num code), ("message", .str message)])]

/-- A body that is the JSON object with one member `error`, an object with the members
`code` (a number) and `message` (a string). -/
def embeddedErrorBody (code : ℚ) (message : String) : ResponseBody :=
  .json (.obj [("error", .obj [("code", .num code), ("message", .str message)])])

/-- The three list operations of report.go: `GetReceivedDetail`, `GetReceived` and
`GetMessageDetail`. -/
inductive ReportOp where
  | receivedDetail
  | received
  | messageDetail

/-- The path of a list operation, up to the value of its `msg_ids` parameter. -/
def ReportOp.query : ReportOp → String
  | .receivedDetail => "/v3/received/detail?msg_ids="
  | .received => "/v3/received?msg_ids="
  | .messageDetail => "/v3/messages/detail?msg_ids="

/-- The URL of a list operation for a list of ids: the report base URL, the path, and the
ids joined by commas. -/
def ReportOp.url (op : ReportOp) (c : Client) (msgIDs : Slice String) : String :=
  c.baseURL "report" ++ (op.query ++ String.intercalate "," (msgIDs.getD []))

/-- An outcome whose value is a list, with the length of the list in place of the list
(`none` is the nil list). -/
def Outcome.counted {τ : Type} (r : Outcome (List τ)) : Outcome Nat :=
  { value := r.value.map List.length, err := r.err, calls := r.calls, nilDeref := r.nilDeref }

/-- The outcome of a list operation of report.go on a list of message ids. -/
def ReportOp.run (op : ReportOp) (env : Env) (c : Client) (msgIDs : Slice String) :
    Outcome Nat :=
  match op with
  | .receivedDetail => (ReportService.GetReceivedDetail env c msgIDs).counted
  | .received => (ReportService.GetReceived env c msgIDs).counted
  | .messageDetail => (ReportService.GetMessageDetail env c msgIDs).counted

/-! ## Lemmas on the validators -/

/-- One `if` block of `validateAudience` followed by the rest of the function. -/
theorem block_bind {β : Type} (c d : Prop) [Decidable c] [Decidable d] (e : JPushError)
    (h : Bool) (f : Bool → Except JPushError β) :
    ((if c then (if d then throw e else pure true) else pure h) >>= f) =
      if c ∧ d then throw e else f (h || decide c) := by
  by_cases hc : c <;> by_cases hd : d <;>
    simp [hc, hd, bind, Except.bind, pure, Except.pure, throw, throwThe, MonadExceptOf.throw]

/-- A guarded `return err` keeps the code of every error when `err` has that code. -/
theorem code_ite_throw {α : Type} (c : Prop) [Decidable c] (e : JPushError)
    (r : Except JPushError α) (k : ErrorCode) (he : e.Code = k)
    (hr : ∀ x, errorOf r = some x → x.Code = k) :
    ∀ x, errorOf (if c then throw e else r) = some x → x.Code = k := by
  intro x hx
  by_cases hc : c
  · simp [hc, errorOf, throw, throwThe, MonadExceptOf.throw] at hx
    rw [← hx]
    exact he
  · simp only [hc, if_false] at hx
    exact hr x hx

/-- An error of `validateAudience` always carries `ErrorCodeInvalidAudience`. -/
theorem validateAudience_code (a : Audience) (e : JPushError)
    (h : PushService.validateAudience a = some e) : e.Code = ErrorCodeInvalidAudience := by
  simp only [PushService.validateAudience, block_bind] at h
  revert e
  repeat refine code_ite_throw _ _ _ _ rfl ?_
  intro x hx
  simp [errorOf, pure, Except.pure] at hx

/-- A guarded `return err` in front of the rest of a validator. -/
theorem errorOf_ite_throw {α : Type} (c : Prop) [Decidable c] (e : JPushError)
    (r : Except JPushError α) :
    errorOf (if c then throw e else r) = none ↔ ¬ c ∧ errorOf r = none := by
  by_cases hc : c <;> simp [hc, errorOf, throw, throwThe, MonadExceptOf.throw]

/-- The nil error at the end of a validator. -/
theorem errorOf_pure {α : Type} (x : α) : errorOf (pure x : Except JPushError α) = none := rfl

/-- When `validateAudience` accepts. -/
theorem validateAudience_none_iff (a : Audience) :
    PushService.validateAudience a = none ↔
      withinCeilings a ∧ (a.LiveActivityID.isSome → ¬ otherTarget a) ∧
        (otherTarget a ∨ a.LiveActivityID.isSome) := by
  simp only [PushService.validateAudience, block_bind, errorOf_ite_throw, errorOf_pure,
    withinCeilings, otherTarget]
  generalize len a.Tag = n1
  generalize len a.TagAnd = n2
  generalize len a.TagNot = n3
  generalize len a.Alias = n4
  generalize len a.RegistrationID = n5
  generalize len a.Segment = n6
  generalize len a.ABTest = n7
  generalize a.All.isSome = b1
  generalize a.LiveActivityID.isSome = b2
  cases b1 <;> cases b2 <;> simp <;> omega

/-- C2: an audience in which some list-typed selector exceeds its ceiling (more than 20 in
`Tag`, `TagAnd` or `TagNot`, more than 1000 in `Alias` or `RegistrationID`, more than 1 in
`Segment` or `ABTest`) is rejected by `validateAudience` with `ErrorCodeInvalidAudience`,
whatever the other fields hold. -/
theorem validateAudience_over_ceiling (a : Audience)
    (h : len a.Tag > 20 ∨ len a.TagAnd > 20 ∨ len a.TagNot > 20 ∨ len a.Alias > 1000 ∨
      len a.RegistrationID > 1000 ∨ len a.Segment > 1 ∨ len a.ABTest > 1) :
    ∃ e, PushService.validateAudience a = some e ∧ e.Code = ErrorCodeInvalidAudience := by
  cases hv : PushService.validateAudience a with
  | some e => exact ⟨e, rfl, validateAudience_code a e hv⟩
  | none =>
    have hc := ((validateAudience_none_iff a).mp hv).1
    simp only [withinCeilings] at hc
    omega

/-- C2 at 21 tags. -/
theorem validateAudience_over_ceiling_witness :
    ∃ e, PushService.validateAudience { Tag := some (List.replicate 21 "tag") } = some e ∧
      e.Code = ErrorCodeInvalidAudience :=
  validateAudience_over_ceiling { Tag := some (List.replicate 21 "tag") } (Or.inl (by decide))

/-- C3: an audience with `All` and `LiveActivityID` nil in which exactly one list-typed
selector is non-empty, and that one no longer than its ceiling, is accepted by
`validateAudience`; a list exactly at the ceiling is accepted. -/
theorem validateAudience_single_selector (a : Audience) (hAll : a.All = none)
    (hLive : a.LiveActivityID = none)
    (hOne : ((listSelectors a).filter (fun p => 0 < p.1)).length = 1)
    (hCeil : ∀ p ∈ listSelectors a, 0 < p.1 → p.1 ≤ p.2) :
    PushService.validateAudience a = none := by
  rw [validateAudience_none_iff]
  simp only [listSelectors, List.mem_cons, List.mem_singleton, forall_eq_or_imp, forall_eq,
    List.not_mem_nil, false_imp_iff, implies_true, and_true] at hCeil
  have hSome : otherTarget a := by
    by_contra hno
    simp only [otherTarget, not_or, not_lt, Nat.le_zero] at hno
    obtain ⟨-, h1, h2, h3, h4, h5, h6, h7⟩ := hno
    simp [listSelectors, h1, h2, h3, h4, h5, h6, h7] at hOne
  refine ⟨?_, ?_, Or.inl hSome⟩
  · simp only [withinCeilings]
    omega
  · simp [hLive]

/-- C3 at exactly 20 tags, the ceiling. -/
theorem validateAudience_single_selector_witness :
    PushService.validateAudience { Tag := some (List.replicate 20 "tag") } = none :=
  validateAudience_single_selector { Tag := some (List.replicate 20 "tag") } rfl rfl
    (by decide) (by decide)

/-- C4: an audience whose `LiveActivityID` is set together with another target family
(`All`, or a non-empty list-typed selector) is rejected by `validateAudience` with
`ErrorCodeInvalidAudience`. -/
theorem validateAudience_live_activity_exclusive (a : Audience)
    (hLive : a.LiveActivityID.isSome) (hOther : otherTarget a) :
    ∃ e, PushService.validateAudience a = some e ∧ e.Code = ErrorCodeInvalidAudience := by
  cases hv : PushService.validateAudience a with
  | some e => exact ⟨e, rfl, validateAudience_code a e hv⟩
  | none => exact absurd hOther (((validateAudience_none_iff a).mp hv).2.1 hLive)

/-- C4 at a live-activity id together with one tag. -/
theorem validateAudience_live_activity_exclusive_witness :
    ∃ e, PushService.validateAudience { LiveActivityID := some "la", Tag := some ["tag1"] } = some e ∧
      e.Code = ErrorCodeInvalidAudience :=
  validateAudience_live_activity_exclusive { LiveActivityID := some "la", Tag := some ["tag1"] }
    rfl (Or.inr (Or.inl (by decide)))

/-- C5, counterexample: the audience with `All` set and one tag has two target families set
and `validateAudience` accepts it. -/
theorem validateAudience_all_with_tag_accepted :
    (({ All := some "all", Tag := some ["tag1"] } : Audience).All.isSome = true ∧
      len ({ All := some "all", Tag := some ["tag1"] } : Audience).Tag > 0) ∧
      PushService.validateAudience { All := some "all", Tag := some ["tag1"] } = none := by
  decide

/-- C5, amended: an audience accepted by `validateAudience` has at least one target family
set, and when its `LiveActivityID` is set no other family is set; hence an audience with no
family set is rejected. -/
theorem validateAudience_accepted_family (a : Audience)
    (h : PushService.validateAudience a = none) :
    (otherTarget a ∨ a.LiveActivityID.isSome) ∧ (a.LiveActivityID.isSome → ¬ otherTarget a) :=
  ⟨((validateAudience_none_iff a).mp h).2.2, ((validateAudience_none_iff a).mp h).2.1⟩

/-- C5, amended, at an audience with one alias. -/
theorem validateAudience_accepted_family_witness :
    (otherTarget { Alias := some ["alias1"] } ∨
        ({ Alias := some ["alias1"] } : Audience).LiveActivityID.isSome) ∧
      (({ Alias := some ["alias1"] } : Audience).LiveActivityID.isSome →
        ¬ otherTarget { Alias := some ["alias1"] }) :=
  validateAudience_accepted_family { Alias := some ["alias1"] } (by decide)

/-! ## Lemmas on the transport -/

/-- When the exchange takes place, `makeRequest` returns what `readResponse` makes of the
reply, after one call. -/
theorem makeRequest_of_answers (env : Env) (c : Client) (method baseURL path : String)
    (body : Option RequestBody) (statusCode : Int) (headers : List (String × List String))
    (respBody : ResponseBody)
    (h : Answers env c method (baseURL ++ path) body statusCode headers respBody) :
    (makeRequest env c method baseURL path body).value =
        (readResponse statusCode headers respBody).1 ∧
      (makeRequest env c method baseURL path body).err =
        (readResponse statusCode headers respBody).2 ∧
      (makeRequest env c method baseURL path body).calls.length = 1 := by
  obtain ⟨reqBody, hm, hn, hs⟩ := h
  simp [makeRequest, hm, hn, hs]

/-- Go: `int(f)` gives back an integer that fits in 64 bits. -/
theorem intOfFloat64_intCast (n : Int) (h : -(2 : Int) ^ 63 ≤ n ∧ n < (2 : Int) ^ 63) :
    intOfFloat64 (n : ℚ) = n := by
  have h1 := h.1
  have h2 := h.2
  norm_num at h1 h2
  simp only [intOfFloat64, Rat.num_intCast, Rat.den_intCast, Nat.cast_one, Int.tdiv_one]
  norm_num
  omega

/-- The halving count brackets a positive number between two powers of 2. -/
theorem log2Steps_spec (fuel n : Nat) (h : n ≤ fuel) (h1 : 1 ≤ n) :
    2 ^ log2Steps fuel n ≤ n ∧ n < 2 ^ (log2Steps fuel n + 1) := by
  induction fuel generalizing n with
  | zero => omega
  | succ fuel ih =>
    unfold log2Steps
    by_cases h2 : 2 ≤ n
    · simp only [h2, if_true]
      have := ih (n / 2) (by omega) (by omega)
      rw [pow_succ, pow_succ (n := log2Steps fuel (n / 2) + 1)]
      omega
    · simp only [h2, if_false]
      norm_num
      omega

/-- A positive number lies between 2 to the power `floorLog2` of it and twice that. -/
theorem floorLog2_spec (n : Nat) (h1 : 1 ≤ n) :
    2 ^ floorLog2 n ≤ n ∧ n < 2 ^ (floorLog2 n + 1) :=
  log2Steps_spec n n (le_refl n) h1

/-- Rounding a quotient by 1 changes nothing. -/
theorem roundHalfEven_one (n : Nat) : roundHalfEven n 1 = n := by
  simp [roundHalfEven, Nat.mod_one]

/-- A positive number below 2 to the power `b` has a `floorLog2` below `b`. -/
theorem floorLog2_lt (n b : Nat) (h1 : 1 ≤ n) (h : n < 2 ^ b) : floorLog2 n < b := by
  by_contra hc
  have h2 := (floorLog2_spec n h1).1
  have : 2 ^ b ≤ 2 ^ floorLog2 n := Nat.pow_le_pow_right (by norm_num) (by omega)
  omega

/-- Go: an integer literal of magnitude at most 2^53 is read as the `float64` of the same
value. -/
theorem float64Of_intCast (n : Int) (h : -(2 : Int) ^ 53 ≤ n ∧ n ≤ (2 : Int) ^ 53) :
    float64Of (n : ℚ) = some (n : ℚ) := by
  by_cases h0 : n = 0
  · subst h0
    simp [float64Of]
  · have hp1 : 1 ≤ n.natAbs := by omega
    have hp2 : n.natAbs ≤ 2 ^ 53 := by
      have h1 := h.1
      have h2 := h.2
      norm_num at h1 h2 ⊢
      omega
    obtain ⟨hl1, hl2⟩ := floorLog2_spec n.natAbs hp1
    have hL : floorLog2 n.natAbs < 54 :=
      floorLog2_lt n.natAbs 54 hp1 (by norm_num at hp2 ⊢; omega)
    have h1 : floorLog2 1 = 0 := by decide
    have hq : floorLog2Quot n.natAbs 1 = (floorLog2 n.natAbs : Int) := by
      simp only [floorLog2Quot, h1, Nat.cast_zero, sub_zero, Int.toNat_ofNat, one_mul]
      simp [hl1]
    have hsign : n.sign * (n.natAbs : Int) = n := Int.sign_mul_natAbs n
    simp only [float64Of, Rat.num_intCast, Rat.den_intCast, h0, if_false, hq]
    by_cases hle : floorLog2 n.natAbs ≤ 52
    · obtain ⟨j, hj⟩ : ∃ j : Nat, floorLog2 n.natAbs + j = 52 :=
        ⟨52 - floorLog2 n.natAbs, by omega⟩
      have hk : max ((floorLog2 n.natAbs : Int) - 52) (-1074) = -(j : Int) := by
        rw [max_eq_left (by omega)]
        omega
      rw [hk]
      simp only [neg_neg, Int.toNat_ofNat, Int.toNat_neg_nat, pow_zero, mul_one,
        roundHalfEven_one]
      have hr : n.natAbs * 2 ^ j < 2 ^ 106 := by
        have hj2 : 2 ^ j ≤ 2 ^ 52 := Nat.pow_le_pow_right (by norm_num) (by omega)
        calc n.natAbs * 2 ^ j ≤ 2 ^ 53 * 2 ^ 52 := Nat.mul_le_mul hp2 hj2
          _ < 2 ^ 106 := by norm_num
      have hpos : 1 ≤ n.natAbs * 2 ^ j := Nat.mul_pos hp1 (by positivity)
      have hfl := floorLog2_lt (n.natAbs * 2 ^ j) 106 hpos hr
      have hno : ¬ (1024 : Int) ≤ (floorLog2 (n.natAbs * 2 ^ j) : Int) + -(j : Int) := by omega
      simp only [hno, if_false]
      congr 1
      have e1 : n.sign * ((n.natAbs * 2 ^ j : Nat) : Int) = n * ((2 ^ j : Nat) : Int) := by
        push_cast
        rw [← mul_assoc, Int.sign_mul_abs]
      rw [e1]
      have := Rat.mkRat_mul_right (a := 2 ^ j) (n := n) (d := 1) (by positivity)
      rw [one_mul] at this
      rw [this, Rat.mkRat_one]
    · have hL53 : floorLog2 n.natAbs = 53 := by omega
      have hP : n.natAbs = 2 ^ 53 := by
        rw [hL53] at hl1
        omega
      rw [hL53, hP]
      have hk : max (((53 : Nat) : Int) - 52) (-1074) = 1 := by decide
      rw [hk]
      have hr : roundHalfEven (2 ^ 53 * 2 ^ (-(1 : Int)).toNat) (1 * 2 ^ (1 : Int).toNat) =
          2 ^ 52 := by decide
      rw [hr]
      have hf : floorLog2 (2 ^ 52) = 52 := by decide
      rw [hf]
      simp only [show ¬ ((1024 : Int) ≤ ((52 : Nat) : Int) + 1) by decide, if_false]
      congr 1
      have e1 : n.sign * ((2 ^ 52 * 2 ^ (1 : Int).toNat : Nat) : Int) = n := by
        have : ((2 ^ 52 * 2 ^ (1 : Int).toNat : Nat) : Int) = (n.natAbs : Int) := by
          rw [hP]
          decide
        rw [this, hsign]
      rw [e1]
      simp [Rat.mkRat_one]

/-- The members `json.Unmarshal` stores for an object are the members of the text, in the
same order and under the same keys, each value read as an `interface{}`. -/
theorem asInterfaceMembers_eq (kvs kvs2 : List (String × JSON))
    (h : asInterfaceMembers kvs = some kvs2) :
    kvs.map (fun e => (e.1, e.2.asInterface)) = kvs2.map (fun e => (e.1, some e.2)) := by
  induction kvs generalizing kvs2 with
  | nil =>
    simp only [asInterfaceMembers, Option.some.injEq] at h
    subst h
    rfl
  | cons e kvs ih =>
    obtain ⟨k, v⟩ := e
    simp only [asInterfaceMembers] at h
    cases hv : v.asInterface with
    | none => simp [hv] at h
    | some y =>
      cases hr : asInterfaceMembers kvs with
      | none => simp [hv, hr] at h
      | some ys =>
        simp only [hv, hr, Option.some.injEq] at h
        subst h
        simp [hv, ih ys hr]

/-- The last member with a given key, after the values of the members went through `f`. -/
theorem find_last_map {α β : Type} (f : α → β) (l : List (String × α)) (k : String) :
    ((l.map (fun e => (e.1, f e.2))).reverse.find? (fun e => e.1 = k)).map (fun e => e.2) =
      ((l.reverse.find? (fun e => e.1 = k)).map (fun e => e.2)).map f := by
  rw [← List.map_reverse, List.find?_map]
  simp [Option.map_map, Function.comp_def]

/-- Looking a key up in the map `json.Unmarshal` built gives the value the text has under
that key, read as an `interface{}`. -/
theorem mapGet_asInterfaceMembers (kvs kvs2 : List (String × JSON))
    (h : asInterfaceMembers kvs = some kvs2) (k : String) :
    (mapGet (some kvs2) k).map some = (mapGet (some kvs) k).map JSON.asInterface := by
  have h1 := asInterfaceMembers_eq kvs kvs2 h
  simp only [mapGet]
  rw [← find_last_map some kvs2 k, ← find_last_map JSON.asInterface kvs k, h1]

/-- C7, amended: when the reply has a status of 400 or more and its body is the text of a
JSON object that `json.Unmarshal` can read (no number in it is beyond the range of
`float64`), whose `error` member is an object with a number `code` of value `code` and a
string `message` `msg`, `makeRequest` fails with the `JPushError` of message `msg` whose
code is `int(f)` for the `float64` `f` nearest to `code`; that code is `code` itself when
`code` is an integer of magnitude at most 2^53. -/
theorem makeRequest_embedded_error (env : Env) (c : Client) (method baseURL path : String)
    (body : Option RequestBody) (statusCode : Int) (headers : List (String × List String))
    (kvs errorMap : List (String × JSON)) (code : ℚ) (msg : String)
    (hAns : Answers env c method (baseURL ++ path) body statusCode headers
      (ResponseBody.ofText (.obj kvs)))
    (hStatus : statusCode ≥ 400)
    (hRead : ((JSON.obj kvs).asInterface).isSome = true)
    (hErr : mapGet (some kvs) "error" = some (.obj errorMap))
    (hCode : mapGet (some errorMap) "code" = some (.num code))
    (hMsg : mapGet (some errorMap) "message" = some (.str msg)) :
    (∃ f, float64Of code = some f ∧
      (makeRequest env c method baseURL path body).err =
        some { Code := intOfFloat64 f, Message := msg }) ∧
      (∀ n : Int, code = (n : ℚ) → -(2 : Int) ^ 53 ≤ n → n ≤ (2 : Int) ^ 53 →
        (makeRequest env c method baseURL path body).err =
          some { Code := n, Message := msg }) := by
  rw [(makeRequest_of_answers env c method baseURL path body statusCode headers _ hAns).2.1]
  cases hk : asInterfaceMembers kvs with
  | none => simp [JSON.asInterface, hk] at hRead
  | some kvs2 =>
    have hE := mapGet_asInterfaceMembers kvs kvs2 hk "error"
    rw [hErr] at hE
    simp only [Option.map_some', JSON.asInterface] at hE
    cases hm : asInterfaceMembers errorMap with
    | none =>
      rw [hm] at hE
      cases hg : mapGet (some kvs2) "error" <;> simp [hg] at hE
    | some errorMap2 =>
      rw [hm] at hE
      have hE2 : mapGet (some kvs2) "error" = some (.obj errorMap2) := by
        cases hg : mapGet (some kvs2) "error" with
        | none => simp [hg] at hE
        | some x =>
          simp only [hg, Option.map_some', Option.some.injEq] at hE
          rw [hE]
      have hC := mapGet_asInterfaceMembers errorMap errorMap2 hm "code"
      rw [hCode] at hC
      simp only [Option.map_some', JSON.asInterface] at hC
      have hM := mapGet_asInterfaceMembers errorMap errorMap2 hm "message"
      rw [hMsg] at hM
      simp only [Option.map_some', JSON.asInterface] at hM
      have hM2 : mapGet (some errorMap2) "message" = some (.str msg) := by
        cases hg : mapGet (some errorMap2) "message" with
        | none => simp [hg] at hM
        | some x =>
          simp only [hg, Option.map_some', Option.some.injEq] at hM
          rw [hM]
      cases hf : float64Of code with
      | none =>
        rw [hf] at hC
        cases hg : mapGet (some errorMap2) "code" <;> simp [hg] at hC
      | some f =>
        rw [hf] at hC
        have hC2 : mapGet (some errorMap2) "code" = some (.num f) := by
          cases hg : mapGet (some errorMap2) "code" with
          | none => simp [hg] at hC
          | some x =>
            simp only [hg, Option.map_some', Option.some.injEq] at hC
            rw [hC]
        have hres : (readResponse statusCode headers (ResponseBody.ofText (.obj kvs))).2 =
            some { Code := intOfFloat64 f, Message := msg } := by
          simp [readResponse, ResponseBody.ofText, JSON.asInterface, hk, unmarshalMap,
            embeddedError, hE2, hC2, hM2, hStatus, NewJPushError]
        refine ⟨⟨f, rfl, hres⟩, ?_⟩
        intro n hn h1 h2
        subst hn
        rw [float64Of_intCast n ⟨h1, h2⟩, Option.some.injEq] at hf
        subst hf
        rw [hres, intOfFloat64_intCast n ⟨by omega, by norm_num at h2 ⊢; omega⟩]

/-- C7, counterexample: at status 400 and an `error` object whose `code` is the number
9007199254740993 (2^53 + 1) and whose message is `x`, `makeRequest` fails with the code
9007199254740992: `json.Unmarshal` reads the number as the nearest `float64`. -/
theorem embedded_error_code_rounded :
    (makeRequest (stubEnv 400 (ResponseBody.ofText (embeddedErrorText 9007199254740993 "x")))
        testClient "GET" "http://127.0.0.1" "/test" none).err =
        some { Code := 9007199254740992, Message := "x" } ∧
      (makeRequest (stubEnv 400 (ResponseBody.ofText (embeddedErrorText 9007199254740993 "x")))
        testClient "GET" "http://127.0.0.1" "/test" none).err ≠
        some { Code := 9007199254740993, Message := "x" } := by
  have h : (makeRequest
      (stubEnv 400 (ResponseBody.ofText (embeddedErrorText 9007199254740993 "x")))
      testClient "GET" "http://127.0.0.1" "/test" none).err =
      some { Code := 9007199254740992, Message := "x" } := by
    rfl
  refine ⟨h, ?_⟩
  rw [h]
  decide

/-- C7, amended, at status 400 and an `error` object of code 1000 and message `x`. -/
theorem makeRequest_embedded_error_witness :
    (∃ f, float64Of 1000 = some f ∧
      (makeRequest (stubEnv 400 (ResponseBody.ofText (embeddedErrorText 1000 "x")))
        testClient "GET" "http://127.0.0.1" "/test" none).err =
        some { Code := intOfFloat64 f, Message := "x" }) ∧
      (∀ n : Int, (1000 : ℚ) = (n : ℚ) → -(2 : Int) ^ 53 ≤ n → n ≤ (2 : Int) ^ 53 →
        (makeRequest (stubEnv 400 (ResponseBody.ofText (embeddedErrorText 1000 "x")))
          testClient "GET" "http://127.0.0.1" "/test" none).err =
          some { Code := n, Message := "x" }) :=
  makeRequest_embedded_error _ testClient "GET" "http://127.0.0.1" "/test" none 400 []
    [("error", .obj [("code", .num 1000), ("message", .str "x")])]
    [("code", .num 1000), ("message", .str "x")] 1000 "x"
    ⟨none, rfl, rfl, rfl⟩ (by decide) rfl rfl rfl rfl

/-- C8: when the reply has a status of 400 or more and its body is empty, or is a JSON
object without an `error` object, `makeRequest` fails with `ErrorCodeInvalidParams` for 400,
`ErrorCodeInvalidAuth` for 401, `ErrorCodeAppKeyBlacklisted` for 403,
`ErrorCodeRateLimitExceeded` for 429 and `ErrorCodeInternalError` for any other status. -/
theorem makeRequest_status_error (env : Env) (c : Client) (method baseURL path : String)
    (body : Option RequestBody) (statusCode : Int) (headers : List (String × List String))
    (respBody : ResponseBody)
    (hAns : Answers env c method (baseURL ++ path) body statusCode headers respBody)
    (hStatus : statusCode ≥ 400)
    (hBody : respBody = .empty ∨
      ∃ kvs, respBody = .json (.obj kvs) ∧ ∀ m, mapGet (some kvs) "error" ≠ some (.obj m)) :
    ∃ e, (makeRequest env c method baseURL path body).err = some e ∧
      e.Code =
        if statusCode = 400 then ErrorCodeInvalidParams
        else if statusCode = 401 then ErrorCodeInvalidAuth
        else if statusCode = 403 then ErrorCodeAppKeyBlacklisted
        else if statusCode = 429 then ErrorCodeRateLimitExceeded
        else ErrorCodeInternalError := by
  rw [(makeRequest_of_answers env c method baseURL path body statusCode headers _ hAns).2.1]
  have hNoErr : ∀ kvs, (∀ m, mapGet (some kvs) "error" ≠ some (.obj m)) →
      embeddedError (some kvs) = none := by
    intro kvs hk
    unfold embeddedError
    split
    · rename_i m hm
      exact absurd hm (hk m)
    · rfl
  refine ⟨statusError statusCode, ?_, ?_⟩
  · rcases hBody with hb | ⟨kvs, hb, hk⟩
    · subst hb
      simp [readResponse, hStatus]
    · subst hb
      simp [readResponse, unmarshalMap, hNoErr kvs hk, hStatus]
  · unfold statusError
    split_ifs <;> rfl

/-- C8 at status 403 and an empty body. -/
theorem makeRequest_status_error_witness :
    ∃ e, (makeRequest (stubEnv 403 .empty) testClient "GET" "http://127.0.0.1" "/test" none).err =
        some e ∧
      e.Code =
        if (403 : Int) = 400 then ErrorCodeInvalidParams
        else if (403 : Int) = 401 then ErrorCodeInvalidAuth
        else if (403 : Int) = 403 then ErrorCodeAppKeyBlacklisted
        else if (403 : Int) = 429 then ErrorCodeRateLimitExceeded
        else ErrorCodeInternalError :=
  makeRequest_status_error (stubEnv 403 .empty) testClient "GET" "http://127.0.0.1" "/test" none
    403 [] .empty ⟨none, rfl, rfl, rfl⟩ (by decide) (Or.inl rfl)

/-- Decoding the body of a successful push. -/
theorem decodePushResponse_sendno_msgid (s m : String) :
    decodePushResponse (some [("sendno", .str s), ("msg_id", .str m)]) =
      some { SendNo := s, MsgID := m } := by
  rfl

/-- C6: for a request that passes `validatePushRequest`, when the POST to `/v3/push` is
answered with a status below 400 and the JSON object with the members `sendno` = `s` and
`msg_id` = `m` (strings), `Push` returns no error and the `PushResponse` with `SendNo = s`
and `MsgID = m`. -/
theorem Push_success (env : Env) (c : Client) (req : PushRequest) (statusCode : Int)
    (headers : List (String × List String)) (s m : String)
    (hValid : PushService.validatePushRequest (some req) = none)
    (hAns : Answers env c "POST" (c.baseURL "push" ++ "/v3/push") (some (.push req)) statusCode
      headers (.json (.obj [("sendno", .str s), ("msg_id", .str m)])))
    (hStatus : statusCode < 400) :
    (PushService.Push env c (some req)).err = none ∧
      (PushService.Push env c (some req)).value = some { SendNo := s, MsgID := m } := by
  have h := makeRequest_of_answers env c "POST" (c.baseURL "push") "/v3/push"
    (some (.push req)) statusCode headers _ hAns
  have hlt : ¬ statusCode ≥ 400 := by omega
  have hv : (makePushRequest env c "POST" "/v3/push" (some (.push req))).value =
      some { StatusCode := statusCode, Headers := headers,
             Body := some [("sendno", .str s), ("msg_id", .str m)],
             Error := embeddedError (some [("sendno", .str s), ("msg_id", .str m)]) } := by
    rw [makePushRequest, makeRequestWithoutContext, h.1]
    simp [readResponse, unmarshalMap, hlt]
  have he : (makePushRequest env c "POST" "/v3/push" (some (.push req))).err = none := by
    rw [makePushRequest, makeRequestWithoutContext, h.2.1]
    simp [readResponse, unmarshalMap, hlt]
  simp [PushService.Push, hValid, hv, he, PushService.parseResponse,
    decodePushResponse_sendno_msgid]

/-- C6 at the request and the reply of `TestPushService_Push`. -/
theorem Push_success_witness :
    (PushService.Push
        (stubEnv 200 (.json (.obj [("sendno", .str "test-sendno"), ("msg_id", .str "123456789")])))
        testClient testPushRequest).err = none ∧
      (PushService.Push
        (stubEnv 200 (.json (.obj [("sendno", .str "test-sendno"), ("msg_id", .str "123456789")])))
        testClient testPushRequest).value =
        some { SendNo := "test-sendno", MsgID := "123456789" } :=
  Push_success
    (stubEnv 200 (.json (.obj [("sendno", .str "test-sendno"), ("msg_id", .str "123456789")])))
    testClient
    { Platform := some AllPlatform.GetPlatforms, Audience := some { All := some "all" },
      Notification := some { Alert := "Test notification" } }
    200 [] "test-sendno" "123456789" (by decide) ⟨some "request", rfl, rfl, rfl⟩ (by decide)

/-- C1, the code on a request without a required field: when `Platform` is nil `Push` fails
with `ErrorCodeInvalidPlatform`, and when `Platform` is set and `Audience` is nil it fails
with `ErrorCodeInvalidAudience`; neither is `ErrorCodeInvalidParams`. No transport call is
made in either case. -/
theorem Push_missing_required_field (env : Env) (c : Client) (req : PushRequest) (p : Any) :
    ((PushService.Push env c (some { req with Platform := none })).err =
        some (NewJPushError ErrorCodeInvalidPlatform "推送平台不能为空") ∧
      (PushService.Push env c (some { req with Platform := none })).calls = [] ∧
      ErrorCodeInvalidPlatform ≠ ErrorCodeInvalidParams) ∧
    ((PushService.Push env c (some { req with Platform := some p, Audience := none })).err =
        some (NewJPushError ErrorCodeInvalidAudience "推送目标不能为空") ∧
      (PushService.Push env c (some { req with Platform := some p, Audience := none })).calls = [] ∧
      ErrorCodeInvalidAudience ≠ ErrorCodeInvalidParams) := by
  refine ⟨⟨rfl, rfl, by decide⟩, ⟨rfl, rfl, by decide⟩⟩

/-- C9, the code at status 504: `GetErrorCodeFromHTTPStatus` has no case for 504 and
returns `ErrorCodeInternalError`, not `ErrorCodeTimeout`. -/
theorem GetErrorCodeFromHTTPStatus_504 :
    GetErrorCodeFromHTTPStatus 504 = ErrorCodeInternalError ∧
      GetErrorCodeFromHTTPStatus 504 ≠ ErrorCodeTimeout := by
  decide

/-- Without a body to serialize, `makeRequest` returns without a call only when the
request cannot be built. -/
theorem makeRequest_no_call (env : Env) (c : Client) (method baseURL path : String)
    (h : (makeRequest env c method baseURL path none).calls = []) :
    (makeRequest env c method baseURL path none).err =
      some (NewJPushError ErrorCodeInternalError "创建HTTP请求失败") := by
  unfold makeRequest at h ⊢
  simp only [marshalBody] at h ⊢
  split at h
  · simp [*]
  · split at h <;> simp at h

/-- Through `makePushRequest`, as `makeRequest_no_call`. -/
theorem makePushRequest_no_call (env : Env) (c : Client) (method path : String)
    (h : (makePushRequest env c method path none).calls = []) :
    (makePushRequest env c method path none).err =
      some (NewJPushError ErrorCodeInternalError "创建HTTP请求失败") :=
  makeRequest_no_call env c method (c.baseURL "push") path h

/-- C10, the code at counts above 1000: `GetCID` has no upper bound on `count`; for every
`count` of 1001 or more it never fails with `ErrorCodeInvalidParams` without a transport
call (it goes on to build and send the request). -/
theorem GetCID_above_1000 (env : Env) (c : Client) (count : Int) (cidType : String)
    (h : count ≥ 1001) :
    ¬ ((AdvancedService.GetCID env c count cidType).calls = [] ∧
      ∃ e, (AdvancedService.GetCID env c count cidType).err = some e ∧
        e.Code = ErrorCodeInvalidParams) := by
  have hc : ¬ count ≤ 0 := by omega
  rintro ⟨hcalls, e, he, hcode⟩
  simp only [AdvancedService.GetCID, hc, if_false] at hcalls he
  revert hcalls he
  generalize hr : makePushRequest env c "GET" _ none = r
  intro hcalls he
  have hno : r.calls = [] → r.err = some (NewJPushError ErrorCodeInternalError "创建HTTP请求失败") := by
    intro hh
    rw [← hr] at hh ⊢
    exact makePushRequest_no_call env c "GET" _ hh
  have hcallsr : r.calls = [] := by
    revert hcalls
    repeat' split
    all_goals exact id
  have hre := hno hcallsr
  simp only [hre] at he
  injection he with he
  subst he
  revert hcode
  decide

/-- C10 at `GetCID(1001, "push")`. -/
theorem GetCID_above_1000_witness :
    ¬ ((AdvancedService.GetCID (stubEnv 200 (.json (.obj [("cidlist", .arr [.str "cid1"])])))
          testClient 1001 "push").calls = [] ∧
      ∃ e, (AdvancedService.GetCID (stubEnv 200 (.json (.obj [("cidlist", .arr [.str "cid1"])])))
          testClient 1001 "push").err = some e ∧ e.Code = ErrorCodeInvalidParams) :=
  GetCID_above_1000 (stubEnv 200 (.json (.obj [("cidlist", .arr [.str "cid1"])]))) testClient
    1001 "push" (by decide)

/-! ## GetCID on success -/

/-- Decoding an array of strings gives the strings. -/
theorem mapM_decodeString_str (L : List String) :
    (L.map JSON.str).mapM (fun x => decodeString x "") = some L := by
  induction L with
  | nil => rfl
  | cons x xs ih =>
    rw [List.map_cons, List.mapM_cons, ih]
    rfl

/-- Decoding an array of strings into a `[]string`. -/
theorem decodeStringSlice_arr_str (L : List String) (cur : Slice String) :
    decodeStringSlice (.arr (L.map JSON.str)) cur = some (some L) := by
  simp only [decodeStringSlice, mapM_decodeString_str, Option.map_some']

/-- Decoding the body of a successful `GetCID`. -/
theorem decodeCIDResponse_cidlist (L : List String) :
    decodeCIDResponse (some [("cidlist", .arr (L.map JSON.str))]) = some { CIDList := some L } := by
  have h : mapEntries [("cidlist", JSON.arr (L.map JSON.str))] =
      [("cidlist", JSON.arr (L.map JSON.str))] := rfl
  have hf : matchField ["cidlist"] "cidlist" = some "cidlist" := by decide
  simp [decodeCIDResponse, h, hf, decodeStringSlice_arr_str]

/-- C11: for a count of 1 or more, when the GET that `GetCID` issues is answered with a
status below 400 and the JSON object whose `cidlist` member is the array of the strings `L`,
`GetCID` returns no error and the `CIDResponse` whose `CIDList` is `L`. -/
theorem GetCID_success (env : Env) (c : Client) (count : Int) (cidType : String)
    (statusCode : Int) (headers : List (String × List String)) (L : List String)
    (hCount : count ≥ 1)
    (hAns : Answers env c "GET" (c.baseURL "push" ++ cidPath env count cidType) none statusCode
      headers (.json (.obj [("cidlist", .arr (L.map JSON.str))])))
    (hStatus : statusCode < 400) :
    (AdvancedService.GetCID env c count cidType).err = none ∧
      (AdvancedService.GetCID env c count cidType).value = some { CIDList := some L } := by
  have hc : ¬ count ≤ 0 := by omega
  have hlt : ¬ statusCode ≥ 400 := by omega
  have h := makeRequest_of_answers env c "GET" (c.baseURL "push") (cidPath env count cidType)
    none statusCode headers _ hAns
  have hv : (makePushRequest env c "GET" (cidPath env count cidType) none).value =
      some { StatusCode := statusCode, Headers := headers,
             Body := some [("cidlist", .arr (L.map JSON.str))],
             Error := embeddedError (some [("cidlist", .arr (L.map JSON.str))]) } := by
    rw [makePushRequest, makeRequestWithoutContext, h.1]
    simp [readResponse, unmarshalMap, hlt]
  have he : (makePushRequest env c "GET" (cidPath env count cidType) none).err = none := by
    rw [makePushRequest, makeRequestWithoutContext, h.2.1]
    simp [readResponse, unmarshalMap, hlt]
  have hdef : AdvancedService.GetCID env c count cidType =
      (let r := makePushRequest env c "GET" (cidPath env count cidType) none
       match r.err with
       | some err => { value := none, err := some err, calls := r.calls }
       | none =>
         match r.value with
         | none => { value := none, err := none, calls := r.calls, nilDeref := true }
         | some resp =>
           match decodeCIDResponse resp.Body with
           | none =>
             { value := none,
               err := some (NewJPushError ErrorCodeInvalidJSON
                 ("failed to parse CID response: " ++ env.unmarshalErrorText resp.Body)),
               calls := r.calls }
           | some cidResp => { value := some cidResp, err := none, calls := r.calls }) := by
    simp only [AdvancedService.GetCID, hc, if_false, cidPath]
  rw [hdef]
  simp [hv, he, decodeCIDResponse_cidlist]

/-- C11 at `GetCID(3, "push")` against a server that returns three ids. -/
theorem GetCID_success_witness :
    (AdvancedService.GetCID
        (stubEnv 200 (.json (.obj [("cidlist", .arr (["cid1", "cid2", "cid3"].map JSON.str))])))
        testClient 3 "push").err = none ∧
      (AdvancedService.GetCID
        (stubEnv 200 (.json (.obj [("cidlist", .arr (["cid1", "cid2", "cid3"].map JSON.str))])))
        testClient 3 "push").value = some { CIDList := some ["cid1", "cid2", "cid3"] } :=
  GetCID_success _ testClient 3 "push" 200 [] ["cid1", "cid2", "cid3"] (by decide)
    ⟨none, rfl, rfl, rfl⟩ (by decide)

/-! ## NewClient -/

/-- C13: `NewClient` fails exactly when the `AppKey` is empty, the `MasterSecret` is empty or
the `Logger` is nil, with `ErrorCodeInvalidAppKey`, else `ErrorCodeMissingAuth`, else
`ErrorCodeInvalidParams`, and then returns no client; otherwise it returns no error and a
client whose `appKey` and `masterSecret` are those of the config. -/
theorem NewClient_spec (config : Config) :
    ((NewClient config).2.isSome ↔
        (config.AppKey = "" ∨ config.MasterSecret = "" ∨ config.Logger = none)) ∧
      ((NewClient config).2.isSome → (NewClient config).1 = none) ∧
      (config.AppKey = "" →
        ∃ e, (NewClient config).2 = some e ∧ e.Code = ErrorCodeInvalidAppKey) ∧
      (config.AppKey ≠ "" → config.MasterSecret = "" →
        ∃ e, (NewClient config).2 = some e ∧ e.Code = ErrorCodeMissingAuth) ∧
      (config.AppKey ≠ "" → config.MasterSecret ≠ "" → config.Logger = none →
        ∃ e, (NewClient config).2 = some e ∧ e.Code = ErrorCodeInvalidParams) ∧
      ((NewClient config).2 = none →
        ∃ cl, (NewClient config).1 = some cl ∧ cl.appKey = config.AppKey ∧
          cl.masterSecret = config.MasterSecret) := by
  unfold NewClient
  by_cases h1 : config.AppKey = ""
  · simp [h1, NewJPushError]
  · by_cases h2 : config.MasterSecret = ""
    · simp [h1, h2, NewJPushError]
    · cases h3 : config.Logger with
      | none => simp [h1, h2, NewJPushError]
      | some l => simp [h1, h2]

/-! ## Failures of the transport -/

/-- C14, amended: when the exchange with the server fails, `makeRequest` returns no response
and a `JPushError` whose code depends on where it failed: `ErrorCodeTimeout` when
`httpClient.Do` returns an error (the server is not reached, or no response has begun within
the timeout), and `ErrorCodeInternalError` when `Do` returned a response and `io.ReadAll`
fails on its body (the server began its response and did not complete it). -/
theorem makeRequest_round_trip_failure (env : Env) (c : Client) (method baseURL path : String)
    (body : Option RequestBody) (reqBody : Option String)
    (hm : marshalBody env body = some reqBody)
    (hn : env.newRequest method (baseURL ++ path) = true) :
    (env.send c.timeout (buildRequest env c method (baseURL ++ path) reqBody) = .doError →
      (makeRequest env c method baseURL path body).value = none ∧
        (makeRequest env c method baseURL path body).err =
          some (NewJPushError ErrorCodeTimeout "HTTP请求失败")) ∧
      (env.send c.timeout (buildRequest env c method (baseURL ++ path) reqBody) = .readError →
        (makeRequest env c method baseURL path body).value = none ∧
          (makeRequest env c method baseURL path body).err =
            some (NewJPushError ErrorCodeInternalError "读取响应体失败")) := by
  constructor
  · intro hs
    simp [makeRequest, hm, hn, hs]
  · intro hs
    simp [makeRequest, hm, hn, hs]

/-- C14, counterexample: when the server begins its response and does not complete it
(`Do` returns the response, `io.ReadAll` fails), `makeRequest` returns no response and the
`JPushError` of code `ErrorCodeInternalError`, which is not `ErrorCodeTimeout`. -/
theorem makeRequest_body_read_failure :
    (makeRequest stalledEnv testClient "GET" "http://127.0.0.1" "/test" none).value = none ∧
      (makeRequest stalledEnv testClient "GET" "http://127.0.0.1" "/test" none).err =
        some (NewJPushError ErrorCodeInternalError "读取响应体失败") ∧
      (makeRequest stalledEnv testClient "GET" "http://127.0.0.1" "/test" none).calls.length = 1 ∧
      ((makeRequest stalledEnv testClient "GET" "http://127.0.0.1" "/test" none).err.map
        (fun e => e.Code)) ≠ some ErrorCodeTimeout := by
  refine ⟨rfl, rfl, rfl, ?_⟩
  decide

/-- C14, amended, at a GET to a server that cannot be reached and at a GET to a server that
does not complete its response. -/
theorem makeRequest_round_trip_failure_witness :
    ((makeRequest downEnv testClient "GET" "http://127.0.0.1" "/test" none).value = none ∧
      (makeRequest downEnv testClient "GET" "http://127.0.0.1" "/test" none).err =
        some (NewJPushError ErrorCodeTimeout "HTTP请求失败")) ∧
      ((makeRequest stalledEnv testClient "GET" "http://127.0.0.1" "/test" none).value = none ∧
        (makeRequest stalledEnv testClient "GET" "http://127.0.0.1" "/test" none).err =
          some (NewJPushError ErrorCodeInternalError "读取响应体失败")) :=
  ⟨(makeRequest_round_trip_failure downEnv testClient "GET" "http://127.0.0.1" "/test" none
      none rfl rfl).1 rfl,
    (makeRequest_round_trip_failure stalledEnv testClient "GET" "http://127.0.0.1" "/test" none
      none rfl rfl).2 rfl⟩

/-- C15, counterexample: the body `null` is not empty and is not a JSON object, yet
`makeRequest` returns a response (with a nil body map) and no error. -/
theorem makeRequest_null_body_accepted :
    (makeRequest (stubEnv 200 (.json .null)) testClient "GET" "http://127.0.0.1" "/test" none).err =
        none ∧
      ((makeRequest (stubEnv 200 (.json .null)) testClient "GET" "http://127.0.0.1" "/test"
        none).value.map (fun r => (r.StatusCode, r.Body))) = some (200, none) := by
  exact ⟨rfl, rfl⟩

/-- C15, amended: for every status, when the body is not empty and is either not a JSON text
or a JSON value other than an object and other than `null`, `makeRequest` returns no
response and the `JPushError` of code `ErrorCodeInvalidJSON`. -/
theorem makeRequest_invalid_body (env : Env) (c : Client) (method baseURL path : String)
    (body : Option RequestBody) (statusCode : Int) (headers : List (String × List String))
    (respBody : ResponseBody)
    (hAns : Answers env c method (baseURL ++ path) body statusCode headers respBody)
    (hBody : respBody = .malformed ∨
      ∃ j, respBody = .json j ∧ j ≠ .null ∧ ∀ kvs, j ≠ .obj kvs) :
    (makeRequest env c method baseURL path body).value = none ∧
      (makeRequest env c method baseURL path body).err =
        some (NewJPushError ErrorCodeInvalidJSON "响应体解析失败") := by
  have h := makeRequest_of_answers env c method baseURL path body statusCode headers _ hAns
  rw [h.1, h.2.1]
  rcases hBody with hb | ⟨j, hb, hnull, hobj⟩
  · subst hb
    exact ⟨rfl, rfl⟩
  · subst hb
    cases j with
    | null => exact absurd rfl hnull
    | obj kvs => exact absurd rfl (hobj kvs)
    | bool b => exact ⟨rfl, rfl⟩
    | num q => exact ⟨rfl, rfl⟩
    | str s => exact ⟨rfl, rfl⟩
    | arr xs => exact ⟨rfl, rfl⟩

/-- C15, amended, at status 200 and the body `invalid json`. -/
theorem makeRequest_invalid_body_witness :
    (makeRequest (stubEnv 200 .malformed) testClient "GET" "http://127.0.0.1" "/test" none).value =
        none ∧
      (makeRequest (stubEnv 200 .malformed) testClient "GET" "http://127.0.0.1" "/test" none).err =
        some (NewJPushError ErrorCodeInvalidJSON "响应体解析失败") :=
  makeRequest_invalid_body (stubEnv 200 .malformed) testClient "GET" "http://127.0.0.1" "/test"
    none 200 [] .malformed ⟨none, rfl, rfl, rfl⟩ (Or.inl rfl)

/-! ## The push validators -/

/-- C16: `validatePushRequest` returns the violation of the first violated rule in the
order request, platform, audience present, audience validator, notification or message
present, notification validator, message validator; it returns no error exactly when no
rule is violated. -/
theorem validatePushRequest_first_violation (req : Option PushRequest) :
    PushService.validatePushRequest req = firstViolation req ∧
      (PushService.validatePushRequest req = none ↔ ∀ rule ∈ pushRules, rule req = none) := by
  have hfirst : PushService.validatePushRequest req = firstViolation req := by
    rcases req with _ | r
    · rfl
    · simp only [PushService.validatePushRequest, firstViolation, pushRules, List.findSome?,
        ruleRequest, rulePlatform, ruleAudiencePresent, ruleAudience, ruleContent,
        ruleNotification, ruleMessage, Option.isNone_some, Option.some_bind]
      cases hp : r.Platform with
      | none => simp_all
      | some p =>
        cases ha : r.Audience with
        | none => simp_all
        | some a =>
          cases hv : PushService.validateAudience a with
          | some e => simp_all
          | none =>
            cases hn : r.Notification with
            | none =>
              cases hm : r.Message with
              | none => simp_all
              | some m => cases hvm : PushService.validateMessage m <;> simp_all
            | some n =>
              cases hvn : PushService.validateNotification n with
              | some e => simp_all
              | none =>
                cases hm : r.Message with
                | none => simp_all
                | some m => cases hvm : PushService.validateMessage m <;> simp_all
  refine ⟨hfirst, ?_⟩
  rw [hfirst, firstViolation, List.findSome?_eq_none_iff]

/-- C16, first instance: a nil platform is reported before an invalid audience. -/
theorem validatePushRequest_platform_before_audience :
    PushService.validatePushRequest
        (some { Platform := none, Audience := some {},
                Notification := some { Alert := "Test" } }) =
      some (NewJPushError ErrorCodeInvalidPlatform "推送平台不能为空") := by
  decide

/-- C16, second instance: an invalid notification is reported before an invalid message. -/
theorem validatePushRequest_notification_before_message :
    PushService.validatePushRequest
        (some { Platform := some AllPlatform.GetPlatforms, Audience := some { All := some "all" },
                Notification := some {}, Message := some {} }) =
      some (NewJPushError ErrorCodeInvalidNotification "通知内容不能为空") := by
  decide

/-- C17: `validateNotification` returns no error exactly when the alert is not empty or one
of `Android`, `IOS`, `HMOS`, `QuickApp` is set; otherwise it returns the error of code
`ErrorCodeInvalidNotification`; a notification with only a VOIP payload is rejected. -/
theorem validateNotification_iff (n : Notification) :
    (PushService.validateNotification n = none ↔ notificationPopulated n) ∧
      (¬ notificationPopulated n →
        PushService.validateNotification n =
          some (NewJPushError ErrorCodeInvalidNotification "通知内容不能为空")) ∧
      (∀ voip, PushService.validateNotification { VOIP := voip } =
          some (NewJPushError ErrorCodeInvalidNotification "通知内容不能为空")) := by
  refine ⟨?_, ?_, fun _ => rfl⟩
  · unfold PushService.validateNotification notificationPopulated
    cases n.Android <;> cases n.IOS <;> cases n.HMOS <;> cases n.QuickApp <;>
      by_cases h : n.Alert = "" <;> simp [h]
  · intro hn
    unfold PushService.validateNotification
    unfold notificationPopulated at hn
    cases ha : n.Android <;> cases hi : n.IOS <;> cases hh : n.HMOS <;> cases hq : n.QuickApp <;>
      by_cases h : n.Alert = "" <;> simp_all

/-- C18: `validateMessage` returns no error exactly when `MsgContent` is not empty;
otherwise it returns the error of code `ErrorCodeInvalidMessage`. -/
theorem validateMessage_iff (m : Message) :
    (PushService.validateMessage m = none ↔ m.MsgContent ≠ "") ∧
      (m.MsgContent = "" →
        PushService.validateMessage m =
          some (NewJPushError ErrorCodeInvalidMessage "消息内容不能为空")) := by
  unfold PushService.validateMessage
  by_cases h : m.MsgContent = "" <;> simp [h]

/-! ## ValidatePush and the file-push validator -/

/-- Whatever the body, `makeRequest` returns without a call only with `ErrorCodeInvalidJSON`
(the body cannot be serialized) or `ErrorCodeInternalError` (the request cannot be built). -/
theorem makeRequest_no_call_code (env : Env) (c : Client) (method baseURL path : String)
    (body : Option RequestBody) (e : JPushError)
    (hcalls : (makeRequest env c method baseURL path body).calls = [])
    (he : (makeRequest env c method baseURL path body).err = some e) :
    e.Code = ErrorCodeInvalidJSON ∨ e.Code = ErrorCodeInternalError := by
  cases hm : marshalBody env body with
  | none =>
    simp [makeRequest, hm] at he
    subst he
    exact Or.inl rfl
  | some reqBody =>
    by_cases hn : env.newRequest method (baseURL ++ path) = false
    · simp [makeRequest, hm, hn] at he
      subst he
      exact Or.inr rfl
    · cases hs : env.send c.timeout (buildRequest env c method (baseURL ++ path) reqBody) <;>
        simp [makeRequest, hm, hn, hs] at hcalls

/-- C19, counterexample: a request with an empty audience is rejected by `Push` before any
transport call, while `ValidatePush` sends it and, on a reply of status 200, returns
success. -/
theorem ValidatePush_accepts_empty_audience :
    (PushService.Push
        (stubEnv 200 (.json (.obj [("sendno", .str "123"), ("msg_id", .str "456")]))) testClient
        (some { Platform := some AllPlatform.GetPlatforms, Audience := some {},
                Notification := some { Alert := "Test notification" } })).err =
        some (NewJPushError ErrorCodeInvalidAudience "必须指定至少一个推送目标") ∧
      (PushService.Push
        (stubEnv 200 (.json (.obj [("sendno", .str "123"), ("msg_id", .str "456")]))) testClient
        (some { Platform := some AllPlatform.GetPlatforms, Audience := some {},
                Notification := some { Alert := "Test notification" } })).calls = [] ∧
      (AdvancedService.ValidatePush
        (stubEnv 200 (.json (.obj [("sendno", .str "123"), ("msg_id", .str "456")]))) testClient
        (some { Platform := some AllPlatform.GetPlatforms, Audience := some {},
                Notification := some { Alert := "Test notification" } })).err = none ∧
      (AdvancedService.ValidatePush
        (stubEnv 200 (.json (.obj [("sendno", .str "123"), ("msg_id", .str "456")]))) testClient
        (some { Platform := some AllPlatform.GetPlatforms, Audience := some {},
                Notification := some { Alert := "Test notification" } })).calls.length = 1 := by
  exact ⟨rfl, rfl, rfl, rfl⟩

/-- C19, amended: `ValidatePush` fails with `ErrorCodeInvalidParams` before any transport
call exactly when the request is nil or lacks its platform, its audience, or both its
notification and its message; every such request is also rejected by `Push` before any
transport call. -/
theorem ValidatePush_local_validation (env : Env) (c : Client) (req : Option PushRequest) :
    ((∃ e, (AdvancedService.ValidatePush env c req).err = some e ∧
          e.Code = ErrorCodeInvalidParams ∧
          (AdvancedService.ValidatePush env c req).calls = []) ↔ presenceViolated req) ∧
      (presenceViolated req →
        ∃ e, (PushService.Push env c req).err = some e ∧ (PushService.Push env c req).calls = []) := by
  constructor
  · rcases req with _ | r
    · simp [AdvancedService.ValidatePush, presenceViolated, NewJPushError, ErrorCodeInvalidParams]
    · cases hp : r.Platform with
      | none =>
        simp [AdvancedService.ValidatePush, AdvancedService.validatePushRequest, presenceViolated,
          hp, NewJPushError]
      | some p =>
        cases ha : r.Audience with
        | none =>
          simp [AdvancedService.ValidatePush, AdvancedService.validatePushRequest,
            presenceViolated, hp, ha, NewJPushError]
        | some a =>
          by_cases hc : r.Notification = none ∧ r.Message = none
          · have hc1 := hc.1
            have hc2 := hc.2
            simp [AdvancedService.ValidatePush, AdvancedService.validatePushRequest,
              presenceViolated, hp, ha, hc1, hc2, NewJPushError]
          · have hv : AdvancedService.validatePushRequest r = none := by
              simp only [AdvancedService.validatePushRequest, hp, ha, Option.isNone_some,
                Option.isNone_iff_eq_none]
              simp [hc]
            have hnot : ¬ presenceViolated (some r) := by
              simp [presenceViolated, hp, ha]
              tauto
            refine ⟨?_, fun h => absurd h hnot⟩
            rintro ⟨e, he, hcode, hcalls⟩
            exfalso
            simp only [AdvancedService.ValidatePush, hv] at he hcalls
            revert he hcalls
            generalize hr : makePushRequest env c "POST" "/v3/push/validate"
              (some (RequestBody.push r)) = res
            intro he hcalls
            have hres : res.calls = [] := by
              revert hcalls
              repeat' split
              all_goals exact id
            cases hre : res.err with
            | some e2 =>
              simp only [hre] at he
              injection he with he
              subst he
              rw [← hr] at hres hre
              rcases makeRequest_no_call_code env c "POST" (c.baseURL "push") "/v3/push/validate"
                (some (RequestBody.push r)) e2 hres hre with h | h
              · rw [h] at hcode
                exact absurd hcode (by decide)
              · rw [h] at hcode
                exact absurd hcode (by decide)
            | none =>
              simp only [hre] at he
              revert he
              repeat' split
              all_goals intro he
              all_goals simp at he
              all_goals
                subst he
                simp [NewJPushError, ErrorCodeInvalidJSON, ErrorCodeInvalidParams] at hcode
  · intro hviol
    have hv : ∃ e, PushService.validatePushRequest req = some e := by
      rcases req with _ | r
      · exact ⟨_, rfl⟩
      · simp only [presenceViolated] at hviol
        simp only [PushService.validatePushRequest]
        cases hp : r.Platform with
        | none => exact ⟨_, rfl⟩
        | some p =>
          cases ha : r.Audience with
          | none => exact ⟨_, rfl⟩
          | some a =>
            rcases hviol with h | h | h
            · simp [hp] at h
            · simp [ha] at h
            · cases hva : PushService.validateAudience a with
              | some e => exact ⟨e, by simp [hva]⟩
              | none => simp [h.1, h.2, hva]
    obtain ⟨e, he⟩ := hv
    exact ⟨e, by simp [PushService.Push, he], by simp [PushService.Push, he]⟩

/-- C20, counterexample: a file-push request whose notification is present but has nothing
populated is accepted by `validateFilePushRequest`, although the push validator's
notification rule rejects that notification. -/
theorem validateFilePushRequest_accepts_empty_notification :
    AdvancedService.validateFilePushRequest
        { Platform := some AllPlatform.GetPlatforms,
          Audience := some { File := some { FileID := "test-file-id" } },
          Notification := some {} } = none ∧
      PushService.validateNotification {} =
        some (NewJPushError ErrorCodeInvalidNotification "通知内容不能为空") := by
  decide

/-- C20, amended: `validateFilePushRequest` accepts exactly the requests that have a
platform, an audience that is a file reference with a file id that is not empty, and a
notification or a message; every error it returns has the code `ErrorCodeInvalidParams`. It
does not look into the notification or the message. -/
theorem validateFilePushRequest_iff (req : FilePushRequest) :
    (AdvancedService.validateFilePushRequest req = none ↔ filePushAccepted req) ∧
      (∀ e, AdvancedService.validateFilePushRequest req = some e →
        e.Code = ErrorCodeInvalidParams) := by
  unfold AdvancedService.validateFilePushRequest filePushAccepted
  cases hp : req.Platform with
  | none => simp [NewJPushError]
  | some p =>
    cases ha : req.Audience with
    | none => simp [NewJPushError]
    | some a =>
      cases hf : a.File with
      | none => simp [hf, NewJPushError]
      | some file =>
        by_cases hid : file.FileID = ""
        · simp [hf, hid, NewJPushError]
        · cases hn : req.Notification <;> cases hm : req.Message <;>
            simp [hf, hid, NewJPushError]

/-! ## Reading back what json.Marshal wrote -/

/-- A pointer to an `int` is set within 64 bits. -/
theorem intPtrSet_iff (p : Option Int) : intPtrSet p = true ↔ ∃ n, p = some n ∧ fitsInt n := by
  cases p <;> simp [intPtrSet]

/-- A pointer is set to a value with the property. -/
theorem ptrSet_iff {α : Type} (f : α → Bool) (p : Option α) :
    ptrSet f p = true ↔ ∃ a, p = some a ∧ f a = true := by
  cases p <;> simp [ptrSet]

/-- A slice of positive length is a list that is not empty. -/
theorem len_pos_iff {α : Type} (xs : Slice α) : len xs > 0 ↔ ∃ l, xs = some l ∧ l ≠ [] := by
  cases xs with
  | none => simp [len]
  | some l => cases l <;> simp [len]

/-- A request map that is not empty has a first entry. -/
theorem emptyMap_not_iff (m : AnyMap) : (!emptyMap m) = true ↔ ∃ e kvs, m = some (e :: kvs) := by
  cases m with
  | none => simp [emptyMap]
  | some l => cases l <;> simp [emptyMap]

/-- `omitempty` keeps a slice that is not empty. -/
theorem omitSlice_some (l : List String) (h : l ≠ []) :
    omitSlice (some l) = some (.arr (l.map JSON.str)) := by
  cases l with
  | nil => exact absurd rfl h
  | cons a as => simp [omitSlice, len, encodeStringSlice]

/-- `omitempty` keeps a map that is not empty. -/
theorem omitMap_cons (e : String × Option Any) (kvs : List (String × Option Any)) :
    omitMap (some (e :: kvs)) = some (encodeAnyMap (some (e :: kvs))) := rfl

/-- An `int` within 64 bits is read back. -/
theorem decodeInt_encodeInt (n cur : Int) (h : fitsInt n) :
    decodeInt (encodeInt n) cur = some n := by
  simp [decodeInt, encodeInt, h]

/-- A pointer to a string is read back. -/
theorem decodePtr_str (s : String) (cur : Option String) :
    decodePtr decodeString "" (.str s) cur = some (some s) := rfl

/-- A pointer to a bool is read back. -/
theorem decodePtr_bool (b : Bool) (cur : Option Bool) :
    decodePtr decodeBool false (.bool b) cur = some (some b) := rfl

/-- A pointer to an `int` within 64 bits is read back. -/
theorem decodePtr_int (n : Int) (cur : Option Int) (h : fitsInt n) :
    decodePtr decodeInt 0 (encodeInt n) cur = some (some n) := by
  simp [decodePtr, encodeInt, decodeInt, h]

/-- An object read into a pointer. -/
theorem decodePtr_obj {α : Type} (dec : JSON → α → Option α) (zero : α)
    (kvs : List (String × JSON)) (cur : Option α) :
    decodePtr dec zero (.obj kvs) cur = (dec (.obj kvs) (cur.getD zero)).map some := rfl

/-- A value of a decoded kind is the one stored for the JSON value that stands for it. -/
theorem anyOf_rawOfAny (a : Option Any) (h : decodedKind a = true) :
    anyOf (rawOfAny a) = a := by
  rcases a with _ | a
  · rfl
  · cases a <;> first | rfl | simp [decodedKind] at h

/-- An `interface` value that `json.Unmarshal` can give back is read back. -/
theorem decodeAny_encodeAny (a : Option Any) (hw : Any.wire a) :
    decodeAny (encodeAny a) = some a := by
  rw [encodeAny, hw.2.1, decodeAny, hw.2.2, Option.map_some', anyOf_rawOfAny a hw.1]

/-- A nil `[]interface{}` and a nil `map[string]interface{}` held in an `interface` are
written as `null` and read back as the nil `interface`: they do not come back. -/
theorem decodeAny_encodeAny_nil :
    decodeAny (encodeAny (some .nilSlice)) = some none ∧
      decodeAny (encodeAny (some .nilMap)) = some none ∧
      ¬ Any.wire (some .nilSlice) ∧ ¬ Any.wire (some .nilMap) := by
  refine ⟨rfl, rfl, ?_, ?_⟩ <;> simp [Any.wire, decodedKind]

/-- A number held in an `interface` that `json.Unmarshal` can give back is a `float64`:
reading its literal gives the same number. -/
theorem wire_float64 (q : ℚ) (hw : Any.wire (some (.float64 q))) : float64Of q = some q := by
  have h := hw.2.2
  simp only [rawOfAny, JSON.asInterface, Option.map_eq_some', JSON.num.injEq] at h
  obtain ⟨f, hf, rfl⟩ := h
  exact hf

/-- The entries of a request map of decoded kinds are read back. -/
theorem map_anyOf_rawOfAny (kvs : List (String × Option Any))
    (h : ∀ e ∈ kvs, decodedKind e.2 = true) :
    (kvs.map (fun e => (e.1, rawOfAny e.2))).map (fun e => (e.1, anyOf e.2)) = kvs := by
  induction kvs with
  | nil => rfl
  | cons e kvs ih =>
    have he := h e (List.mem_cons_self e kvs)
    have ht : ∀ e2 ∈ kvs, decodedKind e2.2 = true := fun e2 h2 => h e2 (List.mem_cons_of_mem e h2)
    simp only [List.map_cons, ih ht, anyOf_rawOfAny e.2 he]

/-- A request map that `json.Unmarshal` can give back is read back into a nil map. -/
theorem decodeAnyMap_encodeAnyMap (kvs : List (String × Option Any))
    (hw : AnyMap.wire (some kvs)) :
    decodeAnyMap (encodeAnyMap (some kvs)) none = some (some kvs) := by
  simp only [AnyMap.wire] at hw
  obtain ⟨hk, hm, hf⟩ := hw
  have hf2 : asInterfaceMembers (kvs.map (fun e => (e.1, rawOfAny e.2))) =
      some (kvs.map (fun e => (e.1, rawOfAny e.2))) := by
    simp only [JSON.asInterface, Option.map_eq_some', JSON.obj.injEq] at hf
    obtain ⟨l, hl, rfl⟩ := hf
    exact hl
  simp only [encodeAnyMap, hm, decodeAnyMap, hf2, Option.map_some', Option.getD_none,
    List.nil_append, map_anyOf_rawOfAny kvs hk]

/-- Reading back what `json.Marshal` wrote for a populated `Audience` gives it back. -/
theorem decodeAudience_encodeAudience (x : Audience) (hp : x.populated = true) :
    decodeAudience (encodeAudience x) {} = some x := by
  obtain ⟨f1, f2, f3, f4, f5, f6, f7, f8, f9⟩ := x
  simp only [Audience.populated, Bool.and_eq_true, intPtrSet_iff, ptrSet_iff,
    Option.isSome_iff_exists, decide_eq_true_eq, len_pos_iff, emptyMap_not_iff] at hp
  obtain ⟨⟨⟨⟨⟨⟨⟨⟨⟨v1, rfl⟩, ⟨v2, rfl, h2⟩⟩, ⟨v3, rfl, h3⟩⟩, ⟨v4, rfl, h4⟩⟩, ⟨v5, rfl, h5⟩⟩, ⟨v6, rfl, h6⟩⟩, ⟨v7, rfl, h7⟩⟩, ⟨v8, rfl, h8⟩⟩, ⟨v9, rfl⟩⟩ := hp
  simp [decodeAudience, encodeAudience, decodeObject, members, Audience.fields,
    Audience.setField, matchField, omitStr, omitSlice_some, omitMap_cons, encodePtr,
    decodeString, decodePtr_str, decodePtr_bool, decodePtr_int, decodeInt_encodeInt,
    decodeStringSlice_arr_str, h2, h3, h4, h5, h6, h7, h8]

/-- The same through a pointer that was nil. -/
theorem decodePtr_encodeAudience (x : Audience) (hp : x.populated = true) :
    decodePtr decodeAudience {} (encodeAudience x) none = some (some x) := by
  have h := decodeAudience_encodeAudience x hp
  simp only [encodeAudience] at h ⊢
  rw [decodePtr_obj, Option.getD_none, h]
  rfl

/-- Reading back what `json.Marshal` wrote for a populated `Intent` gives it back. -/
theorem decodeIntent_encodeIntent (x : Intent) (hp : x.populated = true) :
    decodeIntent (encodeIntent x) {} = some x := by
  obtain ⟨f1⟩ := x
  simp [decodeIntent, encodeIntent, decodeObject, members, Intent.fields, Intent.setField,
    matchField, omitStr, omitSlice_some, omitMap_cons, encodePtr, decodeString, decodePtr_str,
    decodePtr_bool, decodePtr_int, decodeInt_encodeInt, decodeStringSlice_arr_str]

/-- The same through a pointer that was nil. -/
theorem decodePtr_encodeIntent (x : Intent) (hp : x.populated = true) :
    decodePtr decodeIntent {} (encodeIntent x) none = some (some x) := by
  have h := decodeIntent_encodeIntent x hp
  simp only [encodeIntent] at h ⊢
  rw [decodePtr_obj, Option.getD_none, h]
  rfl

/-- Reading back what `json.Marshal` wrote for a populated `AndroidNotification` gives it back. -/
theorem decodeAndroidNotification_encodeAndroidNotification (x : AndroidNotification)
    (hp : x.populated = true) (hw : x.wire) :
    decodeAndroidNotification (encodeAndroidNotification x) {} = some x := by
  obtain ⟨f1, f2, f3, f4, f5, f6, f7, f8, f9, f10, f11, f12, f13, f14⟩ := x
  simp only [AndroidNotification.populated, Bool.and_eq_true, intPtrSet_iff, ptrSet_iff,
    Option.isSome_iff_exists, decide_eq_true_eq, len_pos_iff, emptyMap_not_iff] at hp
  obtain ⟨⟨⟨⟨⟨⟨⟨⟨⟨⟨⟨⟨⟨v2, rfl⟩, ⟨v3, rfl, h3⟩⟩, ⟨v4, rfl⟩⟩, ⟨v5, rfl⟩⟩, ⟨v6, rfl, h6⟩⟩, ⟨v7, rfl, h7⟩⟩, ⟨v8, rfl, h8⟩⟩, ⟨v9, rfl⟩⟩, ⟨e10, v10, rfl⟩⟩, ⟨v11, rfl⟩⟩, ⟨v12, rfl⟩⟩, ⟨v13, rfl, h13⟩⟩, ⟨e14, v14, rfl⟩⟩ := hp
  simp only [AndroidNotification.wire, ptrAll] at hw
  obtain ⟨w10, w14⟩ := hw
  simp [decodeAndroidNotification, encodeAndroidNotification, decodeObject, members,
    AndroidNotification.fields, AndroidNotification.setField, matchField, omitStr,
    omitSlice_some, omitMap_cons, encodePtr, decodeString, decodePtr_str, decodePtr_bool,
    decodePtr_int, decodeInt_encodeInt, decodeStringSlice_arr_str, h3, h6, h7, h8,
    decodeAnyMap_encodeAnyMap _ w10, decodeAnyMap_encodeAnyMap _ w14,
    decodePtr_encodeIntent _ h13]

/-- The same through a pointer that was nil. -/
theorem decodePtr_encodeAndroidNotification (x : AndroidNotification)
    (hp : x.populated = true) (hw : x.wire) :
    decodePtr decodeAndroidNotification {} (encodeAndroidNotification x) none = some (some x) := by
  have h := decodeAndroidNotification_encodeAndroidNotification x hp hw
  simp only [encodeAndroidNotification] at h ⊢
  rw [decodePtr_obj, Option.getD_none, h]
  rfl

/-- Reading back what `json.Marshal` wrote for a populated `IOSNotification` gives it back. -/
theorem decodeIOSNotification_encodeIOSNotification (x : IOSNotification)
    (hp : x.populated = true) (hw : x.wire) :
    decodeIOSNotification (encodeIOSNotification x) {} = some x := by
  obtain ⟨f1, f2, f3, f4, f5, f6, f7, f8⟩ := x
  simp only [IOSNotification.populated, Bool.and_eq_true, intPtrSet_iff, ptrSet_iff,
    Option.isSome_iff_exists, decide_eq_true_eq, len_pos_iff, emptyMap_not_iff] at hp
  obtain ⟨⟨⟨⟨⟨⟨⟨⟨v1, rfl⟩, ⟨v2, rfl⟩⟩, ⟨v3, rfl⟩⟩, ⟨v4, rfl⟩⟩, ⟨v5, rfl⟩⟩, ⟨v6, rfl⟩⟩, ⟨v7, rfl⟩⟩, ⟨e8, v8, rfl⟩⟩ := hp
  simp only [IOSNotification.wire, ptrAll] at hw
  obtain ⟨w1, w3, w8⟩ := hw
  simp [decodeIOSNotification, encodeIOSNotification, decodeObject, members,
    IOSNotification.fields, IOSNotification.setField, matchField, omitStr, omitSlice_some,
    omitMap_cons, encodePtr, decodeString, decodePtr_str, decodePtr_bool, decodePtr_int,
    decodeInt_encodeInt, decodeStringSlice_arr_str, decodeAny_encodeAny _ w1,
    decodeAny_encodeAny _ w3, decodeAnyMap_encodeAnyMap _ w8]

/-- The same through a pointer that was nil. -/
theorem decodePtr_encodeIOSNotification (x : IOSNotification)
    (hp : x.populated = true) (hw : x.wire) :
    decodePtr decodeIOSNotification {} (encodeIOSNotification x) none = some (some x) := by
  have h := decodeIOSNotification_encodeIOSNotification x hp hw
  simp only [encodeIOSNotification] at h ⊢
  rw [decodePtr_obj, Option.getD_none, h]
  rfl

/-- Reading back what `json.Marshal` wrote for a populated `HMOSNotification` gives it back. -/
theorem decodeHMOSNotification_encodeHMOSNotification (x : HMOSNotification)
    (hp : x.populated = true) (hw : x.wire) :
    decodeHMOSNotification (encodeHMOSNotification x) {} = some x := by
  obtain ⟨f1, f2, f3, f4, f5, f6, f7, f8, f9, f10, f11, f12⟩ := x
  simp only [HMOSNotification.populated, Bool.and_eq_true, intPtrSet_iff, ptrSet_iff,
    Option.isSome_iff_exists, decide_eq_true_eq, len_pos_iff, emptyMap_not_iff] at hp
  obtain ⟨⟨⟨⟨⟨⟨⟨⟨⟨⟨⟨v2, rfl⟩, ⟨v3, rfl, h3⟩⟩, ⟨v4, rfl, h4⟩⟩, ⟨v5, rfl, h5⟩⟩, ⟨e6, v6, rfl⟩⟩, ⟨v7, rfl⟩⟩, ⟨v8, rfl⟩⟩, ⟨v9, rfl⟩⟩, ⟨v10, rfl⟩⟩, ⟨v11, rfl, h11⟩⟩, ⟨v12, rfl, h12⟩⟩ := hp
  simp only [HMOSNotification.wire, ptrAll] at hw
  have w6 := hw
  simp [decodeHMOSNotification, encodeHMOSNotification, decodeObject, members,
    HMOSNotification.fields, HMOSNotification.setField, matchField, omitStr, omitSlice_some,
    omitMap_cons, encodePtr, decodeString, decodePtr_str, decodePtr_bool, decodePtr_int,
    decodeInt_encodeInt, decodeStringSlice_arr_str, h4, h5, h11, h12,
    decodeAnyMap_encodeAnyMap _ w6, decodePtr_encodeIntent _ h3]

/-- The same through a pointer that was nil. -/
theorem decodePtr_encodeHMOSNotification (x : HMOSNotification)
    (hp : x.populated = true) (hw : x.wire) :
    decodePtr decodeHMOSNotification {} (encodeHMOSNotification x) none = some (some x) := by
  have h := decodeHMOSNotification_encodeHMOSNotification x hp hw
  simp only [encodeHMOSNotification] at h ⊢
  rw [decodePtr_obj, Option.getD_none, h]
  rfl

/-- Reading back what `json.Marshal` wrote for a populated `QuickAppNotification` gives it back. -/
theorem decodeQuickAppNotification_encodeQuickAppNotification (x : QuickAppNotification)
    (hp : x.populated = true) (hw : x.wire) :
    decodeQuickAppNotification (encodeQuickAppNotification x) {} = some x := by
  obtain ⟨f1, f2, f3, f4⟩ := x
  simp only [QuickAppNotification.populated, Bool.and_eq_true, intPtrSet_iff, ptrSet_iff,
    Option.isSome_iff_exists, decide_eq_true_eq, len_pos_iff, emptyMap_not_iff] at hp
  obtain ⟨⟨⟨v2, rfl⟩, ⟨v3, rfl⟩⟩, ⟨e4, v4, rfl⟩⟩ := hp
  simp only [QuickAppNotification.wire, ptrAll] at hw
  have w4 := hw
  simp [decodeQuickAppNotification, encodeQuickAppNotification, decodeObject, members,
    QuickAppNotification.fields, QuickAppNotification.setField, matchField, omitStr,
    omitSlice_some, omitMap_cons, encodePtr, decodeString, decodePtr_str, decodePtr_bool,
    decodePtr_int, decodeInt_encodeInt, decodeStringSlice_arr_str,
    decodeAnyMap_encodeAnyMap _ w4]

/-- The same through a pointer that was nil. -/
theorem decodePtr_encodeQuickAppNotification (x : QuickAppNotification)
    (hp : x.populated = true) (hw : x.wire) :
    decodePtr decodeQuickAppNotification {} (encodeQuickAppNotification x) none = some (some x) := by
  have h := decodeQuickAppNotification_encodeQuickAppNotification x hp hw
  simp only [encodeQuickAppNotification] at h ⊢
  rw [decodePtr_obj, Option.getD_none, h]
  rfl

/-- Reading back what `json.Marshal` wrote for a populated `Notification` gives it back. -/
theorem decodeNotification_encodeNotification (x : Notification)
    (hp : x.populated = true) (hw : x.wire) :
    decodeNotification (encodeNotification x) {} = some x := by
  obtain ⟨f1, f2, f3, f4, f5, f6⟩ := x
  simp only [Notification.populated, Bool.and_eq_true, intPtrSet_iff, ptrSet_iff,
    Option.isSome_iff_exists, decide_eq_true_eq, len_pos_iff, emptyMap_not_iff] at hp
  obtain ⟨⟨⟨⟨⟨h1, ⟨v2, rfl, h2⟩⟩, ⟨v3, rfl, h3⟩⟩, ⟨v4, rfl, h4⟩⟩, ⟨v5, rfl, h5⟩⟩, ⟨e6, v6, rfl⟩⟩ := hp
  simp only [Notification.wire, ptrAll] at hw
  obtain ⟨w2, w3, w4, w5, w6⟩ := hw
  simp [decodeNotification, encodeNotification, decodeObject, members, Notification.fields,
    Notification.setField, matchField, omitStr, omitSlice_some, omitMap_cons, encodePtr,
    decodeString, decodePtr_str, decodePtr_bool, decodePtr_int, decodeInt_encodeInt,
    decodeStringSlice_arr_str, h1, decodePtr_encodeAndroidNotification _ h2 w2,
    decodePtr_encodeIOSNotification _ h3 w3, decodePtr_encodeHMOSNotification _ h4 w4,
    decodePtr_encodeQuickAppNotification _ h5 w5, decodeAnyMap_encodeAnyMap _ w6]

/-- The same through a pointer that was nil. -/
theorem decodePtr_encodeNotification (x : Notification)
    (hp : x.populated = true) (hw : x.wire) :
    decodePtr decodeNotification {} (encodeNotification x) none = some (some x) := by
  have h := decodeNotification_encodeNotification x hp hw
  simp only [encodeNotification] at h ⊢
  rw [decodePtr_obj, Option.getD_none, h]
  rfl

/-- Reading back what `json.Marshal` wrote for a populated `Message` gives it back. -/
theorem decodeMessage_encodeMessage (x : Message)
    (hp : x.populated = true) (hw : x.wire) :
    decodeMessage (encodeMessage x) {} = some x := by
  obtain ⟨f1, f2, f3, f4⟩ := x
  simp only [Message.populated, Bool.and_eq_true, intPtrSet_iff, ptrSet_iff,
    Option.isSome_iff_exists, decide_eq_true_eq, len_pos_iff, emptyMap_not_iff] at hp
  obtain ⟨⟨⟨v2, rfl⟩, ⟨v3, rfl⟩⟩, ⟨e4, v4, rfl⟩⟩ := hp
  simp only [Message.wire, ptrAll] at hw
  have w4 := hw
  simp [decodeMessage, encodeMessage, decodeObject, members, Message.fields, Message.setField,
    matchField, omitStr, omitSlice_some, omitMap_cons, encodePtr, decodeString, decodePtr_str,
    decodePtr_bool, decodePtr_int, decodeInt_encodeInt, decodeStringSlice_arr_str,
    decodeAnyMap_encodeAnyMap _ w4]

/-- The same through a pointer that was nil. -/
theorem decodePtr_encodeMessage (x : Message)
    (hp : x.populated = true) (hw : x.wire) :
    decodePtr decodeMessage {} (encodeMessage x) none = some (some x) := by
  have h := decodeMessage_encodeMessage x hp hw
  simp only [encodeMessage] at h ⊢
  rw [decodePtr_obj, Option.getD_none, h]
  rfl

/-- Reading back what `json.Marshal` wrote for a populated `SMSMessage` gives it back. -/
theorem decodeSMSMessage_encodeSMSMessage (x : SMSMessage)
    (hp : x.populated = true) (hw : x.wire) :
    decodeSMSMessage (encodeSMSMessage x) {} = some x := by
  obtain ⟨f1, f2, f3, f4⟩ := x
  simp only [SMSMessage.populated, Bool.and_eq_true, intPtrSet_iff, ptrSet_iff,
    Option.isSome_iff_exists, decide_eq_true_eq, len_pos_iff, emptyMap_not_iff] at hp
  obtain ⟨⟨⟨h1, ⟨e2, v2, rfl⟩⟩, ⟨v3, rfl, h3⟩⟩, ⟨v4, rfl⟩⟩ := hp
  simp only [SMSMessage.wire, ptrAll] at hw
  have w2 := hw
  simp [decodeSMSMessage, encodeSMSMessage, decodeObject, members, SMSMessage.fields,
    SMSMessage.setField, matchField, omitStr, omitSlice_some, omitMap_cons, encodePtr,
    decodeString, decodePtr_str, decodePtr_bool, decodePtr_int, decodeInt_encodeInt,
    decodeStringSlice_arr_str, h1, h3, decodeAnyMap_encodeAnyMap _ w2]

/-- The same through a pointer that was nil. -/
theorem decodePtr_encodeSMSMessage (x : SMSMessage)
    (hp : x.populated = true) (hw : x.wire) :
    decodePtr decodeSMSMessage {} (encodeSMSMessage x) none = some (some x) := by
  have h := decodeSMSMessage_encodeSMSMessage x hp hw
  simp only [encodeSMSMessage] at h ⊢
  rw [decodePtr_obj, Option.getD_none, h]
  rfl

/-- Reading back what `json.Marshal` wrote for a populated `Options` gives it back. -/
theorem decodeOptions_encodeOptions (x : Options) (hp : x.populated = true) :
    decodeOptions (encodeOptions x) {} = some x := by
  obtain ⟨f1, f2, f3, f4⟩ := x
  simp only [Options.populated, Bool.and_eq_true, intPtrSet_iff, ptrSet_iff,
    Option.isSome_iff_exists, decide_eq_true_eq, len_pos_iff, emptyMap_not_iff] at hp
  obtain ⟨⟨⟨⟨v1, rfl, h1⟩, ⟨v2, rfl⟩⟩, ⟨v3, rfl⟩⟩, ⟨v4, rfl, h4⟩⟩ := hp
  simp [decodeOptions, encodeOptions, decodeObject, members, Options.fields, Options.setField,
    matchField, omitStr, omitSlice_some, omitMap_cons, encodePtr, decodeString, decodePtr_str,
    decodePtr_bool, decodePtr_int, decodeInt_encodeInt, decodeStringSlice_arr_str, h1, h4]

/-- The same through a pointer that was nil. -/
theorem decodePtr_encodeOptions (x : Options) (hp : x.populated = true) :
    decodePtr decodeOptions {} (encodeOptions x) none = some (some x) := by
  have h := decodeOptions_encodeOptions x hp
  simp only [encodeOptions] at h ⊢
  rw [decodePtr_obj, Option.getD_none, h]
  rfl

/-- Reading back what `json.Marshal` wrote for a populated `Callback` gives it back. -/
theorem decodeCallback_encodeCallback (x : Callback)
    (hp : x.populated = true) (hw : x.wire) :
    decodeCallback (encodeCallback x) {} = some x := by
  obtain ⟨f1, f2, f3⟩ := x
  simp only [Callback.populated, Bool.and_eq_true, intPtrSet_iff, ptrSet_iff,
    Option.isSome_iff_exists, decide_eq_true_eq, len_pos_iff, emptyMap_not_iff] at hp
  obtain ⟨⟨e2, v2, rfl⟩, ⟨v3, rfl, h3⟩⟩ := hp
  simp only [Callback.wire, ptrAll] at hw
  have w2 := hw
  simp [decodeCallback, encodeCallback, decodeObject, members, Callback.fields,
    Callback.setField, matchField, omitStr, omitSlice_some, omitMap_cons, encodePtr,
    decodeString, decodePtr_str, decodePtr_bool, decodePtr_int, decodeInt_encodeInt,
    decodeStringSlice_arr_str, h3, decodeAnyMap_encodeAnyMap _ w2]

/-- The same through a pointer that was nil. -/
theorem decodePtr_encodeCallback (x : Callback)
    (hp : x.populated = true) (hw : x.wire) :
    decodePtr decodeCallback {} (encodeCallback x) none = some (some x) := by
  have h := decodeCallback_encodeCallback x hp hw
  simp only [encodeCallback] at h ⊢
  rw [decodePtr_obj, Option.getD_none, h]
  rfl

/-- C12, amended: encoding a fully populated `PushRequest` to JSON and decoding the result
back gives a request equal to the original field for field, when every `interface` value in
it (the platform, the iOS alert and badge, the values of the `Inbox`, `Extras`, `VOIP`,
`TempPara` and `Params` maps) is, at every depth, nil, a string, a bool, a finite `float64`,
a `[]interface{}` that is not nil or a `map[string]interface{}` that is not nil (`x.wire`),
and every string in it is valid UTF-8 (a `String`). -/
theorem PushRequest_round_trip (x : PushRequest) (hp : x.populated = true) (hw : x.wire) :
    decodePushRequest (encodePushRequest x) {} = some x := by
  obtain ⟨f1, f2, f3, f4, f5, f6, f7, f8⟩ := x
  simp only [PushRequest.populated, Bool.and_eq_true, intPtrSet_iff, ptrSet_iff,
    Option.isSome_iff_exists, decide_eq_true_eq, len_pos_iff, emptyMap_not_iff] at hp
  obtain ⟨⟨⟨⟨⟨⟨⟨⟨v1, rfl⟩, ⟨v2, rfl, h2⟩⟩, ⟨v3, rfl, h3⟩⟩, ⟨v4, rfl, h4⟩⟩, ⟨v5, rfl, h5⟩⟩, ⟨v6, rfl, h6⟩⟩, ⟨v7, rfl, h7⟩⟩, ⟨v8, rfl⟩⟩ := hp
  simp only [PushRequest.wire, ptrAll] at hw
  obtain ⟨w1, w3, w4, w5, w7⟩ := hw
  simp [decodePushRequest, encodePushRequest, decodeObject, members, PushRequest.fields,
    PushRequest.setField, matchField, omitStr, omitSlice_some, omitMap_cons, encodePtr,
    decodeString, decodePtr_str, decodePtr_bool, decodePtr_int, decodeInt_encodeInt,
    decodeStringSlice_arr_str, decodeAny_encodeAny _ w1, decodePtr_encodeNotification _ h3 w3,
    decodePtr_encodeMessage _ h4 w4, decodePtr_encodeSMSMessage _ h5 w5,
    decodePtr_encodeCallback _ h7 w7, decodePtr_encodeAudience _ h2,
    decodePtr_encodeOptions _ h6]


/-- C12, counterexample: a fully populated request whose platform is the explicit list
`android`, `ios` (a `[]string`) and whose message `Extras` hold the `int` 123 does not come
back equal: the platform comes back as a `[]interface{}` and the 123 as a `float64`. -/
theorem PushRequest_round_trip_typed_values :
    (fullPushRequest (.stringSlice (some ["android", "ios"]))
        (some [("key1", some (.string "value1")), ("key2", some (.int 123))])).populated = true ∧
      (decodePushRequest (encodePushRequest
        (fullPushRequest (.stringSlice (some ["android", "ios"]))
          (some [("key1", some (.string "value1")), ("key2", some (.int 123))]))) {}).map
          (fun r => r.Platform) = some (some (.slice [.str "android", .str "ios"])) ∧
      (decodePushRequest (encodePushRequest
        (fullPushRequest (.stringSlice (some ["android", "ios"]))
          (some [("key1", some (.string "value1")), ("key2", some (.int 123))]))) {}).map
          (fun r => r.Message.map (fun m => m.Extras)) =
        some (some (some [("key1", some (.string "value1")), ("key2", some (.float64 123))])) ∧
      decodePushRequest (encodePushRequest
        (fullPushRequest (.stringSlice (some ["android", "ios"]))
          (some [("key1", some (.string "value1")), ("key2", some (.int 123))]))) {} ≠
        some (fullPushRequest (.stringSlice (some ["android", "ios"]))
          (some [("key1", some (.string "value1")), ("key2", some (.int 123))])) := by
  have h2 : (decodePushRequest (encodePushRequest
        (fullPushRequest (.stringSlice (some ["android", "ios"]))
          (some [("key1", some (.string "value1")), ("key2", some (.int 123))]))) {}).map
          (fun r => r.Platform) = some (some (.slice [.str "android", .str "ios"])) := by
    rfl
  refine ⟨rfl, h2, rfl, ?_⟩
  intro h
  rw [h] at h2
  simp [fullPushRequest] at h2

/-- C12, amended, at a fully populated request with the platform `all` and `Extras` that hold
a string and a bool. -/
theorem PushRequest_round_trip_witness :
    decodePushRequest (encodePushRequest
        (fullPushRequest (.string "all")
          (some [("key1", some (.string "value1")), ("key3", some (.bool true))]))) {} =
      some (fullPushRequest (.string "all")
        (some [("key1", some (.string "value1")), ("key3", some (.bool true))])) :=
  PushRequest_round_trip
    (fullPushRequest (.string "all")
      (some [("key1", some (.string "value1")), ("key3", some (.bool true))]))
    rfl
    (by
      simp only [PushRequest.wire, Notification.wire, AndroidNotification.wire,
        IOSNotification.wire, HMOSNotification.wire, QuickAppNotification.wire, Message.wire,
        SMSMessage.wire, Callback.wire, ptrAll, fullPushRequest, Any.wire, AnyMap.wire]
      repeat' apply And.intro
      all_goals first | rfl | decide)

/-! ## The local checks of advanced.go and report.go -/

/-- Without a body, `makeRequest` passes to `httpClient.Do` the one request it built, or
nothing when it could not build it. -/
theorem makeRequest_calls (env : Env) (c : Client) (method baseURL path : String) :
    (makeRequest env c method baseURL path none).calls =
      requestsSent env c method (baseURL ++ path) := by
  unfold makeRequest requestsSent
  simp only [marshalBody]
  by_cases hn : env.newRequest method (baseURL ++ path) = true
  · simp only [hn, if_true]
    cases hs : env.send c.timeout (buildRequest env c method (baseURL ++ path) none) <;> simp
  · simp [hn]

/-- Without a body, when the request cannot be built `makeRequest` fails with
`ErrorCodeInternalError`. -/
theorem makeRequest_unbuildable (env : Env) (c : Client) (method baseURL path : String)
    (h : env.newRequest method (baseURL ++ path) = false) :
    (makeRequest env c method baseURL path none).err =
      some (NewJPushError ErrorCodeInternalError "创建HTTP请求失败") := by
  simp [makeRequest, marshalBody, h]

/-- A failure of `makeRequest` is never the outcome of a local check. -/
theorem makeRequest_not_rejectedLocally (env : Env) (c : Client) (method baseURL path : String)
    (body : Option RequestBody) :
    ¬ rejectedLocally (makeRequest env c method baseURL path body) := by
  rintro ⟨e, he, hcode, hcalls⟩
  rcases makeRequest_no_call_code env c method baseURL path body e hcalls he with h | h
  · rw [h] at hcode
    exact absurd hcode (by decide)
  · rw [h] at hcode
    exact absurd hcode (by decide)

/-- Every error of `validateFilePushRequest` has the code `ErrorCodeInvalidParams`, and a
request that lacks a part gets one. -/
theorem validateFilePushRequest_violated (r : FilePushRequest)
    (h : filePushViolated (some r)) :
    ∃ e, AdvancedService.validateFilePushRequest r = some e ∧
      e.Code = ErrorCodeInvalidParams := by
  unfold filePushViolated at h
  unfold AdvancedService.validateFilePushRequest
  cases hp : r.Platform with
  | none => exact ⟨_, rfl, rfl⟩
  | some p =>
    cases ha : r.Audience with
    | none => exact ⟨_, rfl, rfl⟩
    | some a =>
      cases hf : a.File with
      | none => simp [hf, NewJPushError]
      | some file =>
        by_cases hid : file.FileID = ""
        · simp [hf, hid, NewJPushError]
        · rcases h with h | h | ⟨a2, h1, h2⟩ | ⟨a2, f2, h1, h2, h3⟩ | ⟨h1, h2⟩
          · simp [hp] at h
          · simp [ha] at h
          · rw [ha] at h1
            injection h1 with h1
            subst h1
            simp [hf] at h2
          · rw [ha] at h1
            injection h1 with h1
            subst h1
            rw [hf] at h2
            injection h2 with h2
            subst h2
            exact absurd h3 hid
          · simp [hf, hid, h1, h2, NewJPushError]

/-- C21: `PushByFile` fails with `ErrorCodeInvalidParams`, before any request is sent and
without a result, when the request is nil, when its platform is nil, when its audience or
the file of its audience is nil, when the file id is the empty string, or when both its
notification and its message are nil. -/
theorem PushByFile_invalid_request (env : Env) (c : Client) (req : Option FilePushRequest)
    (h : filePushViolated req) :
    rejectedLocally (AdvancedService.PushByFile env c req) ∧
      (AdvancedService.PushByFile env c req).value = none := by
  rcases req with _ | r
  · exact ⟨⟨_, rfl, rfl, rfl⟩, rfl⟩
  · obtain ⟨e, he, hcode⟩ := validateFilePushRequest_violated r h
    refine ⟨⟨e, ?_, hcode, ?_⟩, ?_⟩ <;> simp [AdvancedService.PushByFile, he]

/-- C21 at the second request of `TestAdvancedService_PushByFile_InvalidRequest`, whose
file id is empty. -/
theorem PushByFile_invalid_request_witness :
    rejectedLocally (AdvancedService.PushByFile (stubEnv 200 .empty) testClient
        (some { Platform := some (.stringSlice ["android", "ios"]),
                Audience := some { File := some { FileID := "" } },
                Notification := some { Alert := "Test notification" } })) ∧
      (AdvancedService.PushByFile (stubEnv 200 .empty) testClient
        (some { Platform := some (.stringSlice ["android", "ios"]),
                Audience := some { File := some { FileID := "" } },
                Notification := some { Alert := "Test notification" } })).value = none :=
  PushByFile_invalid_request (stubEnv 200 .empty) testClient
    (some { Platform := some (.stringSlice ["android", "ios"]),
            Audience := some { File := some { FileID := "" } },
            Notification := some { Alert := "Test notification" } })
    (Or.inr (Or.inr (Or.inr (Or.inl ⟨_, _, rfl, rfl, rfl⟩))))

/-- The outcome of `reportList` has the calls of its transport call. -/
theorem reportList_calls {τ : Type} (env : Env) (c : Client) (dec : JSON → τ → Option τ)
    (zero : τ) (url what : String) :
    (reportList env c dec zero url what).calls =
      (makeRequest env c "GET" (c.baseURL "report") url none).calls := by
  simp only [reportList, makeReportRequest, makeRequestWithoutContext]
  repeat' split
  all_goals rfl

/-- What `json.Unmarshal` into a nil slice makes of the text `json.Marshal` wrote for the
body of a response: the nil slice for the nil map, an error for a map. -/
theorem decodeSlice_marshalResponseBody {τ : Type} (dec : JSON → τ → Option τ) (zero : τ)
    (body : JSONMap) :
    decodeSlice dec zero (marshalResponseBody body) =
      match body with
      | none => some none
      | some _ => none := by
  cases body with
  | none => rfl
  | some kvs => simp [marshalResponseBody, JSON.marshalForm, decodeSlice]

/-- The list `reportList` returns is nil, whatever the reply. -/
theorem reportList_value {τ : Type} (env : Env) (c : Client) (dec : JSON → τ → Option τ)
    (zero : τ) (url what : String) :
    (reportList env c dec zero url what).value = none := by
  have key : ∀ (body : JSONMap) (v : Slice τ),
      decodeSlice dec zero (marshalResponseBody body) = some v → v = none := by
    intro body v hv
    rw [decodeSlice_marshalResponseBody] at hv
    cases body <;> simp at hv
    exact hv.symm
  simp only [reportList]
  repeat' split
  all_goals first
    | rfl
    | (rename_i hv; exact key _ _ hv)

/-- An error of `reportList` is the error of its transport call, or has the code
`ErrorCodeInvalidJSON`. -/
theorem reportList_err {τ : Type} (env : Env) (c : Client) (dec : JSON → τ → Option τ)
    (zero : τ) (url what : String) (e : JPushError)
    (h : (reportList env c dec zero url what).err = some e) :
    (makeRequest env c "GET" (c.baseURL "report") url none).err = some e ∨
      e.Code = ErrorCodeInvalidJSON := by
  simp only [reportList, makeReportRequest, makeRequestWithoutContext] at h
  revert h
  repeat' split
  all_goals intro h
  all_goals simp at h
  all_goals first
    | (subst h; exact Or.inr rfl)
    | (subst h; left; assumption)

/-- A failure of `reportList` is never the outcome of a local check. -/
theorem reportList_not_rejectedLocally {τ : Type} (env : Env) (c : Client)
    (dec : JSON → τ → Option τ) (zero : τ) (url what : String) :
    ¬ rejectedLocally (reportList env c dec zero url what) := by
  rintro ⟨e, he, hcode, hcalls⟩
  rw [reportList_calls] at hcalls
  rcases reportList_err env c dec zero url what e he with h | h
  · exact makeRequest_not_rejectedLocally env c "GET" (c.baseURL "report") url none
      ⟨e, h, hcode, hcalls⟩
  · rw [h] at hcode
    exact absurd hcode (by decide)

/-- An error of the transport call is the error of `reportList`. -/
theorem reportList_err_of_transport {τ : Type} (env : Env) (c : Client)
    (dec : JSON → τ → Option τ) (zero : τ) (url what : String) (e : JPushError)
    (h : (makeRequest env c "GET" (c.baseURL "report") url none).err = some e) :
    (reportList env c dec zero url what).err = some e := by
  simp [reportList, makeReportRequest, makeRequestWithoutContext, h]

/-- The three facts on `reportList` that the local check of a list operation rests on: it
is not the outcome of a local check, its calls are the requests of one GET, and it fails
with `ErrorCodeInternalError` when the request cannot be built. -/
theorem reportList_transport {τ : Type} (env : Env) (c : Client) (dec : JSON → τ → Option τ)
    (zero : τ) (url what : String) :
    ¬ rejectedLocally (reportList env c dec zero url what).counted ∧
      (reportList env c dec zero url what).counted.calls =
        requestsSent env c "GET" (c.baseURL "report" ++ url) ∧
      (env.newRequest "GET" (c.baseURL "report" ++ url) = false →
        (reportList env c dec zero url what).counted.err =
          some (NewJPushError ErrorCodeInternalError "创建HTTP请求失败")) := by
  refine ⟨?_, ?_, ?_⟩
  · rintro ⟨e, he, hcode, hcalls⟩
    exact reportList_not_rejectedLocally env c dec zero url what ⟨e, he, hcode, hcalls⟩
  · show (reportList env c dec zero url what).calls = _
    rw [reportList_calls, makeRequest_calls]
  · intro hn
    exact reportList_err_of_transport env c dec zero url what _
      (makeRequest_unbuildable env c "GET" (c.baseURL "report") url hn)

/-- C22, counterexample: a list of one id that holds a line feed passes the length check
of `GetReceivedDetail`, but the URL made of it cannot be turned into a request, so no GET
is issued and the operation fails with `ErrorCodeInternalError`. -/
theorem GetReceivedDetail_unbuildable_request :
    len (some ["12\n34"] : Slice String) = 1 ∧
      (ReportService.GetReceivedDetail strictEnv testClient (some ["12\n34"])).calls = [] ∧
      (ReportService.GetReceivedDetail strictEnv testClient (some ["12\n34"])).err =
        some (NewJPushError ErrorCodeInternalError "创建HTTP请求失败") := by
  refine ⟨rfl, ?_, ?_⟩ <;> rfl

/-- C22, amended: each of `GetReceivedDetail`, `GetReceived` and `GetMessageDetail` fails
with `ErrorCodeInvalidParams` before any request is sent exactly when the list of ids is
empty (or nil) or has more than 100 elements. For a list of 1 to 100 ids it makes one
transport call, a GET on the report base URL followed by the path and the ids joined by
commas as the `msg_ids` parameter: that one request is sent when it can be built, and when
it cannot be built nothing is sent and the operation fails with `ErrorCodeInternalError`. -/
theorem report_list_local_check (op : ReportOp) (env : Env) (c : Client)
    (msgIDs : Slice String) :
    (rejectedLocally (op.run env c msgIDs) ↔ (len msgIDs = 0 ∨ len msgIDs > 100)) ∧
      (1 ≤ len msgIDs ∧ len msgIDs ≤ 100 →
        (op.run env c msgIDs).calls = requestsSent env c "GET" (op.url c msgIDs) ∧
          (env.newRequest "GET" (op.url c msgIDs) = false →
            (op.run env c msgIDs).err =
              some (NewJPushError ErrorCodeInternalError "创建HTTP请求失败"))) := by
  by_cases h0 : len msgIDs = 0
  · refine ⟨⟨fun _ => Or.inl h0, fun _ => ?_⟩, fun h => by omega⟩
    cases op <;>
      simp [ReportOp.run, ReportService.GetReceivedDetail, ReportService.GetReceived,
        ReportService.GetMessageDetail, h0, rejectedLocally, Outcome.counted, NewJPushError]
  · by_cases h100 : len msgIDs > 100
    · refine ⟨⟨fun _ => Or.inr h100, fun _ => ?_⟩, fun h => by omega⟩
      cases op <;>
        simp [ReportOp.run, ReportService.GetReceivedDetail, ReportService.GetReceived,
          ReportService.GetMessageDetail, h0, h100, rejectedLocally, Outcome.counted,
          NewJPushError]
    · cases op
      · have h := reportList_transport env c decodeReceivedDetailResponse {}
          ("/v3/received/detail?msg_ids=" ++ String.intercalate "," (msgIDs.getD []))
          "received detail"
        simp only [ReportOp.run, ReportService.GetReceivedDetail, h0, h100, if_false,
          ReportOp.url, ReportOp.query]
        exact ⟨⟨fun hr => absurd hr h.1, fun hr => by simp at hr⟩, fun _ => h.2⟩
      · have h := reportList_transport env c decodeReceivedResponse {}
          ("/v3/received?msg_ids=" ++ String.intercalate "," (msgIDs.getD [])) "received"
        simp only [ReportOp.run, ReportService.GetReceived, h0, h100, if_false,
          ReportOp.url, ReportOp.query]
        exact ⟨⟨fun hr => absurd hr h.1, fun hr => by simp at hr⟩, fun _ => h.2⟩
      · have h := reportList_transport env c decodeMessageDetailResponse {}
          ("/v3/messages/detail?msg_ids=" ++ String.intercalate "," (msgIDs.getD []))
          "message detail"
        simp only [ReportOp.run, ReportService.GetMessageDetail, h0, h100, if_false,
          ReportOp.url, ReportOp.query]
        exact ⟨⟨fun hr => absurd hr h.1, fun hr => by simp at hr⟩, fun _ => h.2⟩

/-- C23: `GetMessageStatus` fails with `ErrorCodeInvalidParams` before any request is sent
exactly when the request is nil, its `MsgID` is 0, or it has no registration id or more
than 1000 of them; so a request with a `MsgID` other than 0 and 1 to 1000 registration ids
passes the local check. -/
theorem GetMessageStatus_local_check (env : Env) (c : Client)
    (req : Option MessageStatusRequest) :
    rejectedLocally (ReportService.GetMessageStatus env c req) ↔ messageStatusViolated req := by
  rcases req with _ | r
  · simp [ReportService.GetMessageStatus, rejectedLocally, messageStatusViolated, NewJPushError]
  · by_cases h1 : r.MsgID = 0
    · simp [ReportService.GetMessageStatus, rejectedLocally, messageStatusViolated,
        NewJPushError, h1]
    · by_cases h2 : len r.RegistrationIDs = 0
      · simp [ReportService.GetMessageStatus, rejectedLocally, messageStatusViolated,
          NewJPushError, h1, h2]
      · by_cases h3 : len r.RegistrationIDs > 1000
        · simp [ReportService.GetMessageStatus, rejectedLocally, messageStatusViolated,
            NewJPushError, h1, h2, h3]
        · have hno : ¬ messageStatusViolated (some r) := by
            simp only [messageStatusViolated]
            tauto
          refine ⟨fun hr => ?_, fun hv => absurd hv hno⟩
          exfalso
          obtain ⟨e, he, hcode, hcalls⟩ := hr
          simp only [ReportService.GetMessageStatus, h1, h2, h3, if_false, makeReportRequest,
            makeRequestWithoutContext] at he hcalls
          revert he hcalls
          generalize hres : makeRequest env c "POST" (c.baseURL "report") "/v3/status/message"
            (some (RequestBody.messageStatus r)) = res
          intro he hcalls
          have hc : res.calls = [] := by
            revert hcalls
            repeat' split
            all_goals exact id
          cases hre : res.err with
          | some e2 =>
            simp only [hre] at he
            injection he with he
            subst he
            rw [← hres] at hc hre
            exact makeRequest_not_rejectedLocally env c "POST" (c.baseURL "report")
              "/v3/status/message" (some (RequestBody.messageStatus r)) ⟨e2, hre, hcode, hc⟩
          | none =>
            simp only [hre] at he
            revert he
            repeat' split
            all_goals intro he
            all_goals simp at he
            all_goals
              subst he
              simp [NewJPushError, ErrorCodeInvalidJSON, ErrorCodeInvalidParams] at hcode

/-- C24, counterexample: the message id is not empty, but the URL made of it holds a line
feed and cannot be turned into a request: `CancelPush` issues no DELETE and fails with
`ErrorCodeInternalError`. -/
theorem CancelPush_unbuildable_request :
    ("12\n34" : String) ≠ "" ∧
      (AdvancedService.CancelPush strictEnv testClient "12\n34").calls = [] ∧
      (AdvancedService.CancelPush strictEnv testClient "12\n34").err =
        some (NewJPushError ErrorCodeInternalError "创建HTTP请求失败") := by
  refine ⟨by decide, ?_, ?_⟩ <;> rfl

/-- C24, amended: `CancelPush` fails with `ErrorCodeInvalidParams` before any request is
sent if and only if the message id is the empty string. For every other id it makes one
transport call, a DELETE on the push base URL followed by `/v3/push/` and the id, and
returns exactly the error (or nil) of that call: the one request is sent when it can be
built, and when it cannot be built nothing is sent and the error has
`ErrorCodeInternalError`. -/
theorem CancelPush_spec (env : Env) (c : Client) (msgID : String) :
    (rejectedLocally (AdvancedService.CancelPush env c msgID) ↔ msgID = "") ∧
      (msgID ≠ "" →
        (AdvancedService.CancelPush env c msgID).err =
            (makePushRequest env c "DELETE" ("/v3/push/" ++ msgID) none).err ∧
          (AdvancedService.CancelPush env c msgID).calls =
            requestsSent env c "DELETE" (c.baseURL "push" ++ ("/v3/push/" ++ msgID)) ∧
          (env.newRequest "DELETE" (c.baseURL "push" ++ ("/v3/push/" ++ msgID)) = false →
            (AdvancedService.CancelPush env c msgID).err =
              some (NewJPushError ErrorCodeInternalError "创建HTTP请求失败"))) := by
  by_cases h : msgID = ""
  · refine ⟨⟨fun _ => h, fun _ => ?_⟩, fun hne => absurd h hne⟩
    simp [AdvancedService.CancelPush, h, rejectedLocally, NewJPushError]
  · refine ⟨⟨fun hr => ?_, fun he => absurd he h⟩, fun _ => ?_⟩
    · exfalso
      obtain ⟨e, he, hcode, hcalls⟩ := hr
      simp only [AdvancedService.CancelPush, h, if_false, makePushRequest,
        makeRequestWithoutContext] at he hcalls
      exact makeRequest_not_rejectedLocally env c "DELETE" (c.baseURL "push")
        ("/v3/push/" ++ msgID) none ⟨e, he, hcode, hcalls⟩
    · simp only [AdvancedService.CancelPush, h, if_false, makePushRequest,
        makeRequestWithoutContext]
      exact ⟨trivial, makeRequest_calls env c "DELETE" (c.baseURL "push") ("/v3/push/" ++ msgID),
        fun hn => makeRequest_unbuildable env c "DELETE" (c.baseURL "push")
          ("/v3/push/" ++ msgID) hn⟩

/-! ## The list operations of report.go on a reply -/

/-- When the exchange takes place, `reportList` succeeds exactly on a status below 400 with
no body or with the body `null`; an array is refused by the transport, and an object, at a
status below 400, by the decoding into a slice. -/
theorem reportList_of_answers {τ : Type} (env : Env) (c : Client) (dec : JSON → τ → Option τ)
    (zero : τ) (url what : String) (statusCode : Int) (headers : List (String × List String))
    (respBody : ResponseBody)
    (h : Answers env c "GET" (c.baseURL "report" ++ url) none statusCode headers respBody) :
    ((reportList env c dec zero url what).err = none ↔
        (statusCode < 400 ∧ (respBody = .empty ∨ respBody = .json .null))) ∧
      (∀ xs, respBody = .json (.arr xs) →
        (reportList env c dec zero url what).err =
          some (NewJPushError ErrorCodeInvalidJSON "响应体解析失败")) ∧
      (∀ kvs, respBody = .json (.obj kvs) → statusCode < 400 →
        (reportList env c dec zero url what).err =
          some (NewJPushError ErrorCodeInvalidJSON
            ("failed to parse " ++ what ++ " response: " ++
              env.unmarshalErrorText (some kvs)))) := by
  have hm := makeRequest_of_answers env c "GET" (c.baseURL "report") url none statusCode
    headers respBody h
  have hv := hm.1
  have he := hm.2.1
  by_cases hs : statusCode ≥ 400
  · have hlt : ¬ statusCode < 400 := by omega
    refine ⟨⟨fun hnone => ?_, fun hr => absurd hr.1 hlt⟩, ?_, fun _ _ hl => absurd hl hlt⟩
    · exfalso
      cases respBody with
      | empty =>
        simp [reportList, makeReportRequest, makeRequestWithoutContext, he, readResponse,
          hs] at hnone
      | malformed =>
        simp [reportList, makeReportRequest, makeRequestWithoutContext, he, readResponse]
          at hnone
      | json j =>
        cases j with
        | obj kvs =>
          cases hemb : embeddedError (some kvs) <;>
            simp [reportList, makeReportRequest, makeRequestWithoutContext, he, readResponse,
              unmarshalMap, hs, hemb] at hnone
        | null =>
          simp [reportList, makeReportRequest, makeRequestWithoutContext, he, readResponse,
            unmarshalMap, hs, embeddedError, mapGet] at hnone
        | _ =>
          simp [reportList, makeReportRequest, makeRequestWithoutContext, he, readResponse,
            unmarshalMap] at hnone
    · intro xs hxs
      subst hxs
      simp [reportList, makeReportRequest, makeRequestWithoutContext, he, readResponse,
        unmarshalMap]
  · have hlt : statusCode < 400 := by omega
    cases respBody with
    | empty =>
      simp [reportList, makeReportRequest, makeRequestWithoutContext, he, hv, readResponse,
        hs, hlt, decodeSlice_marshalResponseBody]
    | malformed =>
      simp [reportList, makeReportRequest, makeRequestWithoutContext, he, readResponse, hlt]
    | json j =>
      cases j with
      | obj kvs =>
        simp [reportList, makeReportRequest, makeRequestWithoutContext, he, hv, readResponse,
          unmarshalMap, hs, hlt, decodeSlice_marshalResponseBody]
      | null =>
        simp [reportList, makeReportRequest, makeRequestWithoutContext, he, hv, readResponse,
          unmarshalMap, hs, hlt, decodeSlice_marshalResponseBody]
      | _ =>
        simp [reportList, makeReportRequest, makeRequestWithoutContext, he, readResponse,
          unmarshalMap, hlt]

/-- C25, the code on the replies of `TestReportService_GetReceivedDetail` and
`TestReportService_EmptyResponse`: on the array of one record the transport fails with
`ErrorCodeInvalidJSON`, and on the empty object the decoding into the list fails with
`ErrorCodeInvalidJSON`; in both cases the result is nil. The array itself, given to the
decoding into the list, yields the record. -/
theorem GetReceivedDetail_test_replies :
    (ReportService.GetReceivedDetail (stubEnv 200 receivedDetailTestBody) testClient
        (some ["123", "456"])).err =
        some (NewJPushError ErrorCodeInvalidJSON "响应体解析失败") ∧
      (ReportService.GetReceivedDetail (stubEnv 200 receivedDetailTestBody) testClient
        (some ["123", "456"])).value = none ∧
      (ReportService.GetReceivedDetail (stubEnv 200 (.json (.obj []))) testClient
        (some ["123", "456"])).err =
        some (NewJPushError ErrorCodeInvalidJSON
          "failed to parse received detail response: json: cannot unmarshal") ∧
      (ReportService.GetReceivedDetail (stubEnv 200 (.json (.obj []))) testClient
        (some ["123", "456"])).value = none ∧
      decodeSlice decodeReceivedDetailResponse {}
        (.arr [.obj [("msg_id", .str "123"), ("target", .num 100), ("received", .num 95)]]) =
        some (some [{ MsgID := "123" }]) := by
  refine ⟨?_, ?_, ?_, ?_, ?_⟩ <;> rfl

/-- C26, the values in errors.go: of the thirteen constants only
`ErrorCodeRateLimitExceeded` has the value the test asserts. -/
theorem ErrorCode_values :
    (ErrorCodeInvalidAuth = 1002 ∧ ErrorCodeMissingAuth = 1001 ∧ ErrorCodeInvalidParams = 1000 ∧
        ErrorCodeInvalidAppKey = 1003 ∧ ErrorCodeAppKeyBlacklisted = 2003 ∧
        ErrorCodeRateLimitExceeded = 2002 ∧ ErrorCodeInvalidPlatform = 3001 ∧
        ErrorCodeInvalidAudience = 3002 ∧ ErrorCodeInvalidNotification = 3003 ∧
        ErrorCodeInvalidMessage = 3004 ∧ ErrorCodeInvalidJSON = 1004 ∧
        ErrorCodeInternalError = 1006 ∧ ErrorCodeTimeout = 1005) ∧
      (ErrorCodeInvalidAuth ≠ 1001 ∧ ErrorCodeMissingAuth ≠ 1002 ∧
        ErrorCodeInvalidParams ≠ 1003 ∧ ErrorCodeInvalidAppKey ≠ 1004 ∧
        ErrorCodeAppKeyBlacklisted ≠ 1005 ∧ ErrorCodeInvalidPlatform ≠ 1011 ∧
        ErrorCodeInvalidAudience ≠ 1012 ∧ ErrorCodeInvalidNotification ≠ 1013 ∧
        ErrorCodeInvalidMessage ≠ 1014 ∧ ErrorCodeInvalidJSON ≠ 1015 ∧
        ErrorCodeInternalError ≠ 5000 ∧ ErrorCodeTimeout ≠ 5001) := by
  decide

/-- C27, the text of `Error()`: it contains the message and the code in decimal, for every
code and message; for the error of `TestJPushError_Error` it is
`JPush API Error [1000]: Test error message`, which does not contain `JPush Error`. -/
theorem Error_text (c : ErrorCode) (m : String) :
    Contains (NewJPushError c m).Error m ∧
      Contains (NewJPushError c m).Error (toString c) ∧
      (NewJPushError ErrorCodeInvalidParams "Test error message").Error =
        "JPush API Error [1000]: Test error message" ∧
      ¬ Contains (NewJPushError ErrorCodeInvalidParams "Test error message").Error
        "JPush Error" := by
  refine ⟨?_, ?_, ?_, ?_⟩
  · exact ⟨("JPush API Error [" ++ toString c ++ "]: ").data, [], by
      simp [JPushError.Error, NewJPushError]⟩
  · exact ⟨("JPush API Error [").data, ("]: " ++ m).data, by
      simp [JPushError.Error, NewJPushError]⟩
  · decide
  · simp only [Contains]
    decide

/-- C28: `GetErrorCode` of the error `NewJPushError(c, m)` is `c`, and `IsJPushError` of it
is true; for every error value that is not a `*JPushError`, the nil error among them,
`GetErrorCode` is `ErrorCodeInternalError` and `IsJPushError` is false. -/
theorem GetErrorCode_IsJPushError (c : ErrorCode) (m : String) :
    GetErrorCode (.jpush (some (NewJPushError c m))) = some c ∧
      IsJPushError (.jpush (some (NewJPushError c m))) = true ∧
      GetErrorCode .nil = some ErrorCodeInternalError ∧ IsJPushError .nil = false ∧
      (∀ err : GoError, (∀ p, err ≠ .jpush p) →
        GetErrorCode err = some ErrorCodeInternalError ∧ IsJPushError err = false) := by
  refine ⟨rfl, rfl, rfl, rfl, ?_⟩
  intro err hne
  cases err with
  | nil => exact ⟨rfl, rfl⟩
  | jpush p => exact absurd rfl (hne p)
  | other text => exact ⟨rfl, rfl⟩

/-- What `readResponse` makes of an object at a status below 400: no error, and the error
that the object embeds, if any, in the `Error` field of the response. -/
theorem readResponse_obj_below_400 (statusCode : Int) (headers : List (String × List String))
    (kvs : List (String × JSON)) (h : statusCode < 400) :
    readResponse statusCode headers (.json (.obj kvs)) =
      (some { StatusCode := statusCode, Headers := headers, Body := some kvs,
              Error := embeddedError (some kvs) }, none) := by
  have hlt : ¬ statusCode ≥ 400 := by omega
  simp [readResponse, unmarshalMap, hlt]

/-- C29: at a status below 400, for a body that is a JSON object with an `error` member
that is an object, `makeRequest` returns no error; the error built from the member is in
the `Error` field of the response it returns and nowhere else. So when the body is the
object with the one member `error`, holding a code and a message, `Push` and `GetCID`
return no error and a result with no field set. -/
theorem embedded_error_below_400_not_reported (env : Env) (c : Client) (statusCode : Int)
    (hStatus : statusCode < 400) :
    (∀ (method baseURL path : String) (body : Option RequestBody)
        (headers : List (String × List String)) (kvs em : List (String × JSON)),
        mapGet (some kvs) "error" = some (.obj em) →
        Answers env c method (baseURL ++ path) body statusCode headers (.json (.obj kvs)) →
        (makeRequest env c method baseURL path body).err = none ∧
          (∃ e, embeddedError (some kvs) = some e ∧
            (makeRequest env c method baseURL path body).value =
              some { StatusCode := statusCode, Headers := headers, Body := some kvs,
                     Error := some e })) ∧
      (∀ (req : PushRequest) (headers : List (String × List String)) (code : ℚ)
        (message : String),
        PushService.validatePushRequest (some req) = none →
        Answers env c "POST" (c.baseURL "push" ++ "/v3/push") (some (.push req)) statusCode
          headers (embeddedErrorBody code message) →
        (PushService.Push env c (some req)).err = none ∧
          (PushService.Push env c (some req)).value = some {}) ∧
      (∀ (count : Int) (cidType : String) (headers : List (String × List String)) (code : ℚ)
        (message : String),
        count ≥ 1 →
        Answers env c "GET" (c.baseURL "push" ++ cidPath env count cidType) none statusCode
          headers (embeddedErrorBody code message) →
        (AdvancedService.GetCID env c count cidType).err = none ∧
          (AdvancedService.GetCID env c count cidType).value = some {}) := by
  refine ⟨?_, ?_, ?_⟩
  · intro method baseURL path body headers kvs em hem hAns
    have h := makeRequest_of_answers env c method baseURL path body statusCode headers _ hAns
    rw [readResponse_obj_below_400 statusCode headers kvs hStatus] at h
    refine ⟨h.2.1, ?_⟩
    have hsome : ∃ e, embeddedError (some kvs) = some e := by
      simp [embeddedError, hem]
    obtain ⟨e, he⟩ := hsome
    exact ⟨e, he, by rw [h.1, he]⟩
  · intro req headers code message hValid hAns
    have h := makeRequest_of_answers env c "POST" (c.baseURL "push") "/v3/push"
      (some (.push req)) statusCode headers _ hAns
    simp only [embeddedErrorBody] at h
    rw [readResponse_obj_below_400 statusCode headers _ hStatus] at h
    have hv := h.1
    have he := h.2.1
    have hd : decodePushResponse
        (some [("error", .obj [("code", .num code), ("message", .str message)])]) =
        some {} := rfl
    simp [PushService.Push, hValid, makePushRequest, makeRequestWithoutContext, hv, he,
      PushService.parseResponse, hd]
  · intro count cidType headers code message hCount hAns
    have hc : ¬ count ≤ 0 := by omega
    have h := makeRequest_of_answers env c "GET" (c.baseURL "push") (cidPath env count cidType)
      none statusCode headers _ hAns
    simp only [embeddedErrorBody] at h
    rw [readResponse_obj_below_400 statusCode headers _ hStatus] at h
    have hv := h.1
    have he := h.2.1
    have hd : decodeCIDResponse
        (some [("error", .obj [("code", .num code), ("message", .str message)])]) =
        some {} := rfl
    have hdef : AdvancedService.GetCID env c count cidType =
        (let r := makePushRequest env c "GET" (cidPath env count cidType) none
         match r.err with
         | some err => { value := none, err := some err, calls := r.calls }
         | none =>
           match r.value with
           | none => { value := none, err := none, calls := r.calls, nilDeref := true }
           | some resp =>
             match decodeCIDResponse resp.Body with
             | none =>
               { value := none,
                 err := some (NewJPushError ErrorCodeInvalidJSON
                   ("failed to parse CID response: " ++ env.unmarshalErrorText resp.Body)),
                 calls := r.calls }
             | some cidResp => { value := some cidResp, err := none, calls := r.calls }) := by
      simp only [AdvancedService.GetCID, hc, if_false, cidPath]
    rw [hdef]
    simp [makePushRequest, makeRequestWithoutContext, hv, he, hd]

/-- C29 at the request of `TestPushService_Push`, answered with status 200 and an embedded
error: `Push` reports success. -/
theorem embedded_error_below_400_not_reported_witness :
    (200 : Int) < 400 ∧
      (PushService.Push (stubEnv 200 (embeddedErrorBody 1003 "Invalid params")) testClient
        testPushRequest).err = none ∧
      (PushService.Push (stubEnv 200 (embeddedErrorBody 1003 "Invalid params")) testClient
        testPushRequest).value = some {} :=
  ⟨by decide,
    (embedded_error_below_400_not_reported (stubEnv 200 (embeddedErrorBody 1003 "Invalid params"))
      testClient 200 (by decide)).2.1
      { Platform := some AllPlatform.GetPlatforms, Audience := some { All := some "all" },
        Notification := some { Alert := "Test notification" } }
      [] 1003 "Invalid params" (by decide) ⟨some "request", rfl, rfl, rfl⟩⟩

/-- C30, counterexample: a reply of status 200 whose body is `null`, which is not an empty
body, makes `GetReceivedDetail` succeed, with the nil list. -/
theorem GetReceivedDetail_null_body_success :
    (ReportService.GetReceivedDetail (stubEnv 200 (.json .null)) testClient
        (some ["123"])).err = none ∧
      (ReportService.GetReceivedDetail (stubEnv 200 (.json .null)) testClient
        (some ["123"])).value = none ∧
      (ReportService.GetReceivedDetail (stubEnv 200 (.json .null)) testClient
        (some ["123"])).calls.length = 1 := by
  refine ⟨?_, ?_, ?_⟩ <;> rfl

/-- C30, amended: `GetReceivedDetail`, `GetReceived` and `GetMessageDetail` never return a
list with a record: in every case the list is nil. For a list of 1 to 100 ids whose GET is
answered, the operation succeeds exactly when the status is below 400 and the body is
empty or is `null`; a JSON array is refused by the transport with `ErrorCodeInvalidJSON`,
and a JSON object, at a status below 400, is refused by the decoding into the list, with
`ErrorCodeInvalidJSON`. -/
theorem report_list_never_records (op : ReportOp) (env : Env) (c : Client)
    (msgIDs : Slice String) :
    (op.run env c msgIDs).value = none ∧
      (∀ (statusCode : Int) (headers : List (String × List String)) (respBody : ResponseBody),
        1 ≤ len msgIDs → len msgIDs ≤ 100 →
        Answers env c "GET" (op.url c msgIDs) none statusCode headers respBody →
        ((op.run env c msgIDs).err = none ↔
            (statusCode < 400 ∧ (respBody = .empty ∨ respBody = .json .null))) ∧
          (∀ xs, respBody = .json (.arr xs) →
            ∃ e, (op.run env c msgIDs).err = some e ∧ e.Code = ErrorCodeInvalidJSON) ∧
          (∀ kvs, respBody = .json (.obj kvs) → statusCode < 400 →
            ∃ e, (op.run env c msgIDs).err = some e ∧ e.Code = ErrorCodeInvalidJSON)) := by
  constructor
  · cases op <;>
      simp only [ReportOp.run, Outcome.counted, ReportService.GetReceivedDetail,
        ReportService.GetReceived, ReportService.GetMessageDetail] <;>
      split_ifs <;> simp [reportList_value]
  · intro statusCode headers respBody h1 h100 hAns
    have h0 : ¬ len msgIDs = 0 := by omega
    have h100n : ¬ len msgIDs > 100 := by omega
    cases op
    · have h := reportList_of_answers env c decodeReceivedDetailResponse {}
        ("/v3/received/detail?msg_ids=" ++ String.intercalate "," (msgIDs.getD []))
        "received detail" statusCode headers respBody hAns
      simp only [ReportOp.run, Outcome.counted, ReportService.GetReceivedDetail, h0, h100n,
        if_false]
      exact ⟨h.1, fun xs hxs => ⟨_, h.2.1 xs hxs, rfl⟩,
        fun kvs hk hs => ⟨_, h.2.2 kvs hk hs, rfl⟩⟩
    · have h := reportList_of_answers env c decodeReceivedResponse {}
        ("/v3/received?msg_ids=" ++ String.intercalate "," (msgIDs.getD []))
        "received" statusCode headers respBody hAns
      simp only [ReportOp.run, Outcome.counted, ReportService.GetReceived, h0, h100n,
        if_false]
      exact ⟨h.1, fun xs hxs => ⟨_, h.2.1 xs hxs, rfl⟩,
        fun kvs hk hs => ⟨_, h.2.2 kvs hk hs, rfl⟩⟩
    · have h := reportList_of_answers env c decodeMessageDetailResponse {}
        ("/v3/messages/detail?msg_ids=" ++ String.intercalate "," (msgIDs.getD []))
        "message detail" statusCode headers respBody hAns
      simp only [ReportOp.run, Outcome.counted, ReportService.GetMessageDetail, h0, h100n,
        if_false]
      exact ⟨h.1, fun xs hxs => ⟨_, h.2.1 xs hxs, rfl⟩,
        fun kvs hk hs => ⟨_, h.2.2 kvs hk hs, rfl⟩⟩

/-! ## The amended statements at the inputs of the tests -/

/-- C22 at the ids of `TestReportService_GetReceivedDetail`: one GET is sent, with the two
ids joined by a comma. -/
theorem report_list_local_check_witness :
    (1 ≤ len (some ["123", "456"] : Slice String) ∧
        len (some ["123", "456"] : Slice String) ≤ 100) ∧
      (ReportOp.receivedDetail.run (stubEnv 200 .empty) testClient (some ["123", "456"])).calls =
        [buildRequest (stubEnv 200 .empty) testClient "GET"
          "https://report.jpush.cn/v3/received/detail?msg_ids=123,456" none] :=
  ⟨⟨by decide, by decide⟩,
    ((report_list_local_check .receivedDetail (stubEnv 200 .empty) testClient
      (some ["123", "456"])).2 ⟨by decide, by decide⟩).1⟩

/-- C24 at the id of `TestAdvancedService_CancelPush`: one DELETE is sent. -/
theorem CancelPush_spec_witness :
    ("123456" : String) ≠ "" ∧
      (AdvancedService.CancelPush (stubEnv 200 .empty) testClient "123456").calls =
        [buildRequest (stubEnv 200 .empty) testClient "DELETE"
          "https://api.jpush.cn/v3/push/123456" none] :=
  ⟨by decide,
    ((CancelPush_spec (stubEnv 200 .empty) testClient "123456").2 (by decide)).2.1⟩

/-- C30 at a reply of status 200 without a body: `GetReceived` succeeds, with the nil
list. -/
theorem report_list_never_records_witness :
    (ReportOp.received.run (stubEnv 200 .empty) testClient (some ["123"])).value = none ∧
      (ReportOp.received.run (stubEnv 200 .empty) testClient (some ["123"])).err = none :=
  ⟨(report_list_never_records .received (stubEnv 200 .empty) testClient (some ["123"])).1,
    (((report_list_never_records .received (stubEnv 200 .empty) testClient (some ["123"])).2
      200 [] .empty (by decide) (by decide) ⟨none, rfl, rfl, rfl⟩).1).mpr
      ⟨by decide, Or.inl rfl⟩⟩

end JPush
